import Mathlib

/-!
# Verification of the DBC compare tool core (parser + structural differ)

A shallow embedding of `dbc_compare.py`.  Documents are lists of lines, a
line is a list of characters.  Python floats are modelled as rationals,
Python cell values (which can be `None`, `str`, `int` or `float`) as the
inductive type `Val`.  Ordered dictionaries are association lists with
insert-or-replace-keeping-position semantics (`odInsert`).
-/

set_option maxHeartbeats 1000000

/-- Characters of a line; Python strings restricted to one line. -/
abbrev Str := List Char

/-- A Python cell value as it appears in comparison rows: `None`, a string,
an `int` or a `float` (modelled as a rational). -/
inductive Val where
  | none : Val
  | str : Str → Val
  | int : ℤ → Val
  | float : ℚ → Val
deriving DecidableEq

/-- `format_number` (dbc_compare.py:405): remove trailing `.0`, i.e. a float
that is a whole number becomes the corresponding int. -/
def format_number (q : ℚ) : Val :=
  if q.den = 1 then Val.int q.num else Val.float q

/-- `normalize_val` (dbc_compare.py:574): `None` stays `None`, a float equal
to its integer truncation becomes that int, everything else is unchanged. -/
def normalize_val : Val → Val
  | Val.float q => if q.den = 1 then Val.int q.num else Val.float q
  | v => v

/-- A Python falsy-string-to-None conversion: `s if s else None`. -/
def strOrNone (s : Str) : Val :=
  if s = [] then Val.none else Val.str s

/-- The `Signal` class (dbc_compare.py:125), all fields. -/
structure Signal where
  name : Str := []
  start_bit : ℕ := 0
  length : ℕ := 0
  byte_order : ℕ := 0
  value_type : Char := '+'
  factor : ℚ := 1
  offset : ℚ := 0
  minimum : ℚ := 0
  maximum : ℚ := 0
  unit : Str := []
  receivers : List Str := []
  comment : Str := []
  value_desc : Str := []
  invalid_value : Str := []
  start_value : ℤ := 0
  inactive_value : ℤ := 0
  send_type : ℤ := 0
  timeout_time : ℤ := 0
  long_symbol : Str := []
deriving DecidableEq

/-- `Signal.endian_str`. -/
def Signal.endian_str (s : Signal) : Str :=
  if s.byte_order = 0 then "big".data else "little".data

/-- `Signal.signed_str`. -/
def Signal.signed_str (s : Signal) : Str :=
  if s.value_type = '-' then "signed".data else "unsigned".data

/-- `Signal.natural_start_bit`: the raw DBC start bit, unmodified. -/
def Signal.natural_start_bit (s : Signal) : ℕ := s.start_bit

/-- `Signal.display_name`: long symbol when present and distinct. -/
def Signal.display_name (s : Signal) : Str :=
  if s.long_symbol ≠ [] ∧ s.long_symbol ≠ s.name then s.long_symbol else s.name

/-- The `Message` class (dbc_compare.py:174), all fields with their
constructor defaults. -/
structure Message where
  msg_id : ℕ := 0
  name : Str := []
  dlc : ℕ := 0
  transmitter : Str := []
  signals : List (Str × Signal) := []
  comment : Str := []
  cycle_time : ℤ := 0
  cycle_time_fast : ℤ := 0
  cycle_time_active : ℤ := 0
  send_type : ℤ := 0
  nr_of_repetition : ℤ := 0
  delay_time : ℤ := 0
  start_delay_time : ℤ := 0
  il_support : ℤ := 1
  nm_message : ℤ := 0
  nm_asr_message : ℤ := 0
  vframe_format : ℤ := 14
  canfd_brs : ℤ := 1
  diag_request : ℤ := 0
  diag_response : ℤ := 0
  diag_state : ℤ := 0
  long_symbol : Str := []
deriving DecidableEq

/-- `Message.display_name`. -/
def Message.display_name (m : Message) : Str :=
  if m.long_symbol ≠ [] ∧ m.long_symbol ≠ m.name then m.long_symbol else m.name

/-- The `DBCDatabase` class (dbc_compare.py:207). -/
structure DBCDatabase where
  messages : List (ℕ × Message) := []
  nodes : List Str := []
  bus_type : Str := []
  db_name : Str := []
  baudrate : ℕ := 500000
  baudrate_canfd : ℕ := 2000000
deriving DecidableEq

/-- Python `dict.get` on the ordered message map. -/
def msgsGet (db : DBCDatabase) (id : ℕ) : Option Message :=
  (db.messages.find? (fun p => decide (p.1 = id))).map Prod.snd

/-- Python `dict.get` on a message's ordered signal map. -/
def sigsGet (m : Message) (s : Str) : Option Signal :=
  (m.signals.find? (fun p => decide (p.1 = s))).map Prod.snd

/-- Key list of the message map. -/
def msgKeys (db : DBCDatabase) : List ℕ := db.messages.map Prod.fst

/-- Key list of a signal map. -/
def sigKeys (m : Message) : List Str := m.signals.map Prod.fst

/-- Worker for `pyFromKeys`, carrying the set of already seen elements. -/
def pyFromKeysAux {α : Type} [DecidableEq α] (seen : List α) : List α → List α
  | [] => []
  | x :: xs =>
    if x ∈ seen then pyFromKeysAux seen xs
    else x :: pyFromKeysAux (x :: seen) xs

/-- `OrderedDict.fromkeys`: keep the first occurrence of each element. -/
def pyFromKeys {α : Type} [DecidableEq α] (l : List α) : List α :=
  pyFromKeysAux [] l

/-- `sorted(set(old_keys + new_keys))` (dbc_compare.py:503, 680). -/
def sortedUnion (a b : List ℕ) : List ℕ :=
  List.insertionSort (· ≤ ·) ((a ++ b).dedup)

/-- Hex digit, uppercase. -/
def hexDigit (n : ℕ) : Char :=
  if n < 10 then Char.ofNat (48 + n) else Char.ofNat (55 + n)

/-- Worker for `hexDigits` with explicit fuel (structural recursion). -/
def hexDigitsAux : ℕ → ℕ → List Char
  | 0, _ => []
  | fuel + 1, n =>
    if n < 16 then [hexDigit n]
    else hexDigitsAux fuel (n / 16) ++ [hexDigit (n % 16)]

/-- Uppercase hexadecimal digits of `n`, as in Python `f"{n:X}"`. -/
def hexDigits (n : ℕ) : List Char := hexDigitsAux (n + 1) n

/-- `f"0x{msg_id:X}"`. -/
def hexId (n : ℕ) : Str := '0' :: 'x' :: hexDigits n

/-- Enum lookup tables (dbc_compare.py:89). -/
def MSG_SEND_TYPE_ENUM : List Str :=
  ["Cyclic".data, "NoMsgSendType".data, "NotUsed".data, "NotUsed".data,
   "NotUsed".data, "NotUsed".data, "NotUsed".data, "IfActive".data,
   "NoMsgSendType".data, "NotUsed".data]

def SIG_SEND_TYPE_ENUM : List Str :=
  ["Cyclic".data, "NoSigSendType".data, "OnWriteWithRepetition".data,
   "OnChange".data, "OnChangeWithRepetition".data, "IfActive".data,
   "IfActiveWithRepetition".data, "NoSigSendType".data]

def VFRAME_FORMAT_ENUM : List Str :=
  ["StandardCAN".data, "ExtendedCAN".data, "reserved".data, "J1939PG".data,
   "reserved".data, "reserved".data, "reserved".data, "reserved".data,
   "reserved".data, "reserved".data, "reserved".data, "reserved".data,
   "reserved".data, "reserved".data, "StandardCAN_FD".data,
   "ExtendedCAN_FD".data]

def CANFD_BRS_ENUM : List Str := ["0".data, "1".data]
def DIAG_ENUM : List Str := ["No".data, "Yes".data]
def IL_ENUM : List Str := ["No".data, "Yes".data]
def NM_ENUM : List Str := ["No".data, "Yes".data]

/-- `enum_lookup` (dbc_compare.py:110): index into the table, falling back to
the default when out of range.  The index is always an int here, so the
`int()` conversion never fails. -/
def enum_lookup (es : List Str) (i : ℤ) (dflt : Str) : Str :=
  if 0 ≤ i ∧ i.toNat < es.length then es.getD i.toNat dflt else dflt

/-- `", ".join`-style joining. -/
def joinStrs (sep : Str) (l : List Str) : Str := sep.intercalate l

/-- Lexicographic comparison on code points, as Python string `<`. -/
def lexLe : Str → Str → Bool
  | [], _ => true
  | _ :: _, [] => false
  | a :: as, b :: bs => if a = b then lexLe as bs else decide (a < b)

/-- `get_msg_rx_ecus` (dbc_compare.py:624): sorted set of receiver nodes of
all signals, without `Vector__XXX` and empty names, joined with `", "`. -/
def get_msg_rx_ecus (m : Message) : Str :=
  joinStrs (", ".data)
    (List.insertionSort (fun a b => lexLe a b = true)
      (((m.signals.flatMap (fun p => p.2.receivers)).filter
        (fun r => decide (r ≠ [] ∧ r ≠ "Vector__XXX".data))).dedup))

/-- `get_msg_signal_list` (dbc_compare.py:634): newline-joined display names. -/
def get_msg_signal_list (m : Message) : Str :=
  joinStrs ['\n'] (m.signals.map (fun p => p.2.display_name))

/-- `build_msg_summary_row` (dbc_compare.py:639): 8 columns. -/
def build_msg_summary_row (m : Message) : List Val :=
  [ Val.str (hexId m.msg_id),
    Val.str m.display_name,
    Val.int (m.dlc : ℤ),
    Val.str (get_msg_signal_list m),
    Val.str (enum_lookup MSG_SEND_TYPE_ENUM m.send_type ("Cyclic".data)),
    Val.int m.cycle_time,
    Val.str m.transmitter,
    Val.str (get_msg_rx_ecus m) ]

/-- `build_sig_summary_row` (dbc_compare.py:653): 12 columns. -/
def build_sig_summary_row (m : Message) (s : Signal) : List Val :=
  [ Val.str (hexId m.msg_id),
    Val.str m.display_name,
    Val.str s.display_name,
    Val.int (s.natural_start_bit : ℤ),
    Val.int (s.length : ℤ),
    Val.int s.start_value,
    format_number s.minimum,
    format_number s.maximum,
    Val.str s.unit,
    format_number s.factor,
    Val.str s.value_desc,
    Val.str (joinStrs (", ".data) s.receivers) ]

/-- `build_signal_row` (dbc_compare.py:412): message part, 19 columns. -/
def msgPartRow (m : Message) : List Val :=
  [ Val.str (hexId m.msg_id),
    Val.str m.display_name,
    Val.str (enum_lookup MSG_SEND_TYPE_ENUM m.send_type ("Cyclic".data)),
    Val.int m.cycle_time,
    Val.int m.cycle_time_fast,
    Val.int m.cycle_time_active,
    Val.int m.nr_of_repetition,
    Val.int m.delay_time,
    Val.int m.start_delay_time,
    Val.int (m.dlc : ℤ),
    Val.str (enum_lookup VFRAME_FORMAT_ENUM m.vframe_format ("StandardCAN_FD".data)),
    Val.str (enum_lookup CANFD_BRS_ENUM m.canfd_brs ("1".data)),
    Val.str m.transmitter,
    Val.str (enum_lookup IL_ENUM m.il_support ("Yes".data)),
    Val.str (enum_lookup NM_ENUM m.nm_message ("No".data)),
    Val.str (enum_lookup DIAG_ENUM m.diag_request ("No".data)),
    Val.str (enum_lookup DIAG_ENUM m.diag_response ("No".data)),
    Val.str (enum_lookup DIAG_ENUM m.diag_state ("No".data)),
    strOrNone m.comment ]

/-- `build_signal_row`: signal part, 18 columns. -/
def sigPartRow (s : Signal) : List Val :=
  [ Val.str s.display_name,
    Val.int (s.natural_start_bit : ℤ),
    Val.int (s.length : ℤ),
    Val.str s.endian_str,
    Val.str s.signed_str,
    format_number s.factor,
    format_number s.offset,
    format_number s.minimum,
    format_number s.maximum,
    strOrNone s.unit,
    strOrNone s.invalid_value,
    Val.int s.start_value,
    Val.int s.inactive_value,
    Val.str (enum_lookup SIG_SEND_TYPE_ENUM s.send_type ("Cyclic".data)),
    Val.int s.timeout_time,
    strOrNone s.value_desc,
    strOrNone s.comment,
    Val.str (joinStrs (", ".data) s.receivers) ]

/-- `build_signal_row` (dbc_compare.py:412): full 37-column row. -/
def build_signal_row (m : Message) (s : Signal) : List Val :=
  msgPartRow m ++ sigPartRow s

def NUM_MSG_COLS : ℕ := 19
def NUM_SIG_COLS : ℕ := 18
def NUM_COLS_PER_SIDE : ℕ := NUM_MSG_COLS + NUM_SIG_COLS

/-- `build_empty_msg_row` (dbc_compare.py:464): message part plus `None`
signal slots. -/
def build_empty_msg_row (m : Message) : List Val :=
  msgPartRow m ++ List.replicate NUM_SIG_COLS Val.none

/-- `build_empty_row` (dbc_compare.py:492). -/
def build_empty_row : List Val :=
  List.replicate NUM_COLS_PER_SIDE Val.none

/-- `check_row_diff` (dbc_compare.py:565): the set of column indices whose
normalized values differ, and whether it is nonempty. -/
def check_row_diff (o n : List Val) : Bool × Finset ℕ :=
  let dc := (List.range o.length).foldl
    (fun s i =>
      if normalize_val (o.getD i Val.none) ≠ normalize_val (n.getD i Val.none)
      then insert i s else s) ∅
  (decide (dc ≠ ∅), dc)

/-- One `(old_row, new_row, has_diff, diff_cols)` tuple. -/
structure DiffRow where
  old_row : List Val
  new_row : List Val
  has_diff : Bool
  diff_cols : Finset ℕ
deriving DecidableEq

/-- The body of the main loop of `compare_dbc_files` (dbc_compare.py:505)
for one message id: the rows contributed for that id. -/
def rowsForId (old_db new_db : DBCDatabase) (id : ℕ) : List DiffRow :=
  match msgsGet old_db id, msgsGet new_db id with
  | some old_msg, some new_msg =>
    let all_sig_names := pyFromKeys (sigKeys old_msg ++ sigKeys new_msg)
    if all_sig_names = [] then
      let o := build_empty_msg_row old_msg
      let n := build_empty_msg_row new_msg
      let d := check_row_diff o n
      [⟨o, n, d.1, d.2⟩]
    else
      all_sig_names.filterMap (fun sig_name =>
        match sigsGet old_msg sig_name, sigsGet new_msg sig_name with
        | some os, some ns =>
          let o := build_signal_row old_msg os
          let n := build_signal_row new_msg ns
          let d := check_row_diff o n
          some ⟨o, n, d.1, d.2⟩
        | some os, none =>
          let o := build_signal_row old_msg os
          let n := build_empty_msg_row new_msg
          let d := check_row_diff o n
          some ⟨o, n, d.1, d.2⟩
        | none, some ns =>
          let o := build_empty_msg_row old_msg
          let n := build_signal_row new_msg ns
          let d := check_row_diff o n
          some ⟨o, n, d.1, d.2⟩
        | none, none => none)
  | some old_msg, none =>
    if old_msg.signals = [] then
      [⟨build_empty_msg_row old_msg, build_empty_row, true,
        Finset.range NUM_COLS_PER_SIDE⟩]
    else
      old_msg.signals.map (fun p =>
        ⟨build_signal_row old_msg p.2, build_empty_row, true,
          Finset.range NUM_COLS_PER_SIDE⟩)
  | none, some new_msg =>
    if new_msg.signals = [] then
      [⟨build_empty_row, build_empty_msg_row new_msg, true,
        Finset.range NUM_COLS_PER_SIDE⟩]
    else
      new_msg.signals.map (fun p =>
        ⟨build_empty_row, build_signal_row new_msg p.2, true,
          Finset.range NUM_COLS_PER_SIDE⟩)
  | none, none => []

/-- `compare_dbc_files` (dbc_compare.py:497): aligned rows, iterating the
sorted union of message ids. -/
def compare_dbc_files (old_db new_db : DBCDatabase) : List DiffRow :=
  (sortedUnion (msgKeys old_db) (msgKeys new_db)).flatMap (rowsForId old_db new_db)

/-- Changed message-summary column indices (dbc_compare.py:700). -/
def msgDiffIdxs (om nm : Message) : List ℕ :=
  (List.range (build_msg_summary_row om).length).filter (fun i =>
    decide (normalize_val ((build_msg_summary_row om).getD i Val.none) ≠
            normalize_val ((build_msg_summary_row nm).getD i Val.none)))

/-- Changed signal-summary column indices, on the rows with the first three
columns dropped (dbc_compare.py:718). -/
def sigDiffIdxs (om nm : Message) (os ns : Signal) : List ℕ :=
  (List.range ((build_sig_summary_row om os).drop 3).length).filter (fun i =>
    decide (normalize_val (((build_sig_summary_row om os).drop 3).getD i Val.none) ≠
            normalize_val (((build_sig_summary_row nm ns).drop 3).getD i Val.none)))

/-- Per-id contribution to `new_messages` (dbc_compare.py:691). -/
def catNewMsgsAt (old_db new_db : DBCDatabase) (id : ℕ) : List Message :=
  match msgsGet old_db id, msgsGet new_db id with
  | none, some nm => [nm]
  | _, _ => []

/-- Per-id contribution to `removed_messages` (dbc_compare.py:686). -/
def catRemovedMsgsAt (old_db new_db : DBCDatabase) (id : ℕ) : List Message :=
  match msgsGet old_db id, msgsGet new_db id with
  | some om, none => [om]
  | _, _ => []

/-- Per-id contribution to `modified_messages` (dbc_compare.py:697). -/
def catModMsgsAt (old_db new_db : DBCDatabase) (id : ℕ) :
    List (Message × Message × List ℕ) :=
  match msgsGet old_db id, msgsGet new_db id with
  | some om, some nm =>
    let d := msgDiffIdxs om nm
    if d = [] then [] else [(om, nm, d)]
  | _, _ => []

/-- Per-id contribution to `new_signals` (dbc_compare.py:693, 715). -/
def catNewSigsAt (old_db new_db : DBCDatabase) (id : ℕ) :
    List (Message × Signal) :=
  match msgsGet old_db id, msgsGet new_db id with
  | none, some nm => nm.signals.map (fun p => (nm, p.2))
  | some om, some nm =>
    (pyFromKeys (sigKeys om ++ sigKeys nm)).filterMap (fun s =>
      match sigsGet om s, sigsGet nm s with
      | none, some ns => some (nm, ns)
      | _, _ => none)
  | _, _ => []

/-- Per-id contribution to `removed_signals` (dbc_compare.py:688, 713). -/
def catRemovedSigsAt (old_db new_db : DBCDatabase) (id : ℕ) :
    List (Message × Signal) :=
  match msgsGet old_db id, msgsGet new_db id with
  | some om, none => om.signals.map (fun p => (om, p.2))
  | some om, some nm =>
    (pyFromKeys (sigKeys om ++ sigKeys nm)).filterMap (fun s =>
      match sigsGet om s, sigsGet nm s with
      | some os, none => some (om, os)
      | _, _ => none)
  | _, _ => []

/-- Per-id contribution to `modified_signals` (dbc_compare.py:717). -/
def catModSigsAt (old_db new_db : DBCDatabase) (id : ℕ) :
    List (Message × Message × Signal × Signal × List ℕ) :=
  match msgsGet old_db id, msgsGet new_db id with
  | some om, some nm =>
    (pyFromKeys (sigKeys om ++ sigKeys nm)).filterMap (fun s =>
      match sigsGet om s, sigsGet nm s with
      | some os, some ns =>
        let d := sigDiffIdxs om nm os ns
        if d = [] then none else some (om, nm, os, ns, d)
      | _, _ => none)
  | _, _ => []

/-- The six classified lists produced by `categorize_changes`. -/
structure Cats where
  new_messages : List Message
  removed_messages : List Message
  modified_messages : List (Message × Message × List ℕ)
  new_signals : List (Message × Signal)
  removed_signals : List (Message × Signal)
  modified_signals : List (Message × Message × Signal × Signal × List ℕ)
deriving DecidableEq

/-- `categorize_changes` (dbc_compare.py:671): each output list collects its
per-id contributions over the sorted union of message ids. -/
def categorize_changes (old_db new_db : DBCDatabase) : Cats :=
  let ids := sortedUnion (msgKeys old_db) (msgKeys new_db)
  { new_messages := ids.flatMap (catNewMsgsAt old_db new_db)
    removed_messages := ids.flatMap (catRemovedMsgsAt old_db new_db)
    modified_messages := ids.flatMap (catModMsgsAt old_db new_db)
    new_signals := ids.flatMap (catNewSigsAt old_db new_db)
    removed_signals := ids.flatMap (catRemovedSigsAt old_db new_db)
    modified_signals := ids.flatMap (catModSigsAt old_db new_db) }

-- ============================================================================
-- Parser embedding (`parse_dbc`, dbc_compare.py:217)
--
-- A document is a list of lines.  Each regular expression of the source is
-- hand-compiled to a deterministic maximal-munch matcher over the line's
-- characters (all the character classes involved make greedy matching
-- equivalent to the backtracking semantics).  `re.MULTILINE` anchoring is
-- the line structure itself.
-- ============================================================================

/-- Python `\s` within a line (newlines are the line boundaries). -/
def pyWsChar (c : Char) : Bool :=
  c = ' ' || c = '\t' || c = '\x0b' || c = '\x0c' || c = '\r'

/-- Python `\d`. -/
def isDigitC (c : Char) : Bool := '0' ≤ c && c ≤ '9'

/-- Python `\w` (ASCII). -/
def isWordC (c : Char) : Bool :=
  isDigitC c || ('a' ≤ c && c ≤ 'z') || ('A' ≤ c && c ≤ 'Z') || c = '_'

/-- Match a literal prefix, returning the rest. -/
def lit : List Char → List Char → Option (List Char)
  | [], l => some l
  | _ :: _, [] => none
  | p :: ps, c :: cs => if c = p then lit ps cs else none

/-- Maximal run of characters satisfying `p` (regex `x*`). -/
def chomp (p : Char → Bool) : List Char → List Char × List Char
  | [] => ([], [])
  | c :: cs =>
    if p c then
      let r := chomp p cs
      (c :: r.1, r.2)
    else ([], c :: cs)

/-- Non-empty maximal run (regex `x+`). -/
def chomp1 (p : Char → Bool) (l : List Char) : Option (List Char × List Char) :=
  match chomp p l with
  | ([], _) => none
  | (a, b) => some (a, b)

/-- `int()` on a digit run. -/
def digitsToNat (ds : List Char) : ℕ :=
  ds.foldl (fun n c => 10 * n + (c.toNat - 48)) 0

/-- Python `str.strip()`. -/
def pyStrip (l : List Char) : List Char :=
  ((chomp pyWsChar ((chomp pyWsChar l).2.reverse)).2).reverse

/-- Python `str.rstrip()`-like trailing-whitespace removal. -/
def rstrip (l : List Char) : List Char :=
  ((chomp pyWsChar l.reverse).2).reverse

/-- Python `str.split(',')`. -/
def splitOnComma : List Char → List (List Char)
  | [] => [[]]
  | c :: cs =>
    if c = ',' then [] :: splitOnComma cs
    else
      match splitOnComma cs with
      | h :: t => (c :: h) :: t
      | [] => [[c]]

/-- Worker for `splitWs`. -/
def splitWsAux : List Char → List Char → List (List Char)
  | [], acc => if acc = [] then [] else [acc.reverse]
  | c :: cs, acc =>
    if pyWsChar c then
      if acc = [] then splitWsAux cs []
      else acc.reverse :: splitWsAux cs []
    else splitWsAux cs (c :: acc)

/-- Python `str.split()` (whitespace runs, no empty parts). -/
def splitWs (l : List Char) : List (List Char) := splitWsAux l []

/-- Exponent suffix of a Python float literal (`e`/`E`, optional sign,
digits) or the empty rest. -/
def pyExp? : List Char → Option ℤ
  | [] => some 0
  | c :: cs =>
    if c = 'e' || c = 'E' then
      let p : Bool × List Char :=
        match cs with
        | '+' :: r => (false, r)
        | '-' :: r => (true, r)
        | r => (false, r)
      match chomp1 isDigitC p.2 with
      | some (ds, rest) =>
        if rest = [] then
          some (if p.1 then -(digitsToNat ds : ℤ) else (digitsToNat ds : ℤ))
        else none
      | none => none
    else none

/-- The rational value of a parsed decimal: sign, integer digits, fraction
digits and decimal exponent.  Built with integer arithmetic and one `mkRat`
so that it reduces inside the kernel. -/
def ratOfParts (neg : Bool) (ip fp : List Char) (e : ℤ) : ℚ :=
  let b : ℤ := (digitsToNat (ip ++ fp) : ℤ)
  let b : ℤ := if neg then -b else b
  if 0 ≤ e then mkRat (b * (10 : ℤ) ^ e.toNat) ((10 : ℕ) ^ fp.length)
  else mkRat b ((10 : ℕ) ^ (fp.length + (-e).toNat))

/-- Python `float(str)` on the finite decimal grammar: optional surrounding
whitespace, optional sign, digits with optional fraction, optional exponent.
(The special values `inf`/`nan` and digit underscores are outside the model;
no document in the theorems below uses them.) -/
def pyFloat? (s0 : List Char) : Option ℚ :=
  let s1 := pyStrip s0
  let sp : Bool × List Char :=
    match s1 with
    | '+' :: r => (false, r)
    | '-' :: r => (true, r)
    | r => (false, r)
  let ipr := chomp isDigitC sp.2
  match ipr.2 with
  | '.' :: r2 =>
    let fpr := chomp isDigitC r2
    if ipr.1 = [] ∧ fpr.1 = [] then none
    else
      match pyExp? fpr.2 with
      | some e => some (ratOfParts sp.1 ipr.1 fpr.1 e)
      | none => none
  | _ =>
    if ipr.1 = [] then none
    else
      match pyExp? ipr.2 with
      | some e => some (ratOfParts sp.1 ipr.1 [] e)
      | none => none

/-- `msg_pattern` (dbc_compare.py:230): `^BO_\s+(\d+)\s+(\w+)\s*:\s*(\d+)\s+(\w+)`. -/
def msgMatch? (l : List Char) : Option (ℕ × List Char × ℕ × List Char) := do
  let r ← lit ("BO_".data) l
  let (_, r) ← chomp1 pyWsChar r
  let (ds, r) ← chomp1 isDigitC r
  let (_, r) ← chomp1 pyWsChar r
  let (nm, r) ← chomp1 isWordC r
  let r := (chomp pyWsChar r).2
  let r ← lit [':'] r
  let r := (chomp pyWsChar r).2
  let (dlc, r) ← chomp1 isDigitC r
  let (_, r) ← chomp1 pyWsChar r
  let (tx, _) ← chomp1 isWordC r
  pure (digitsToNat ds, nm, digitsToNat dlc, tx)

/-- The eleven groups of `sig_pattern` (dbc_compare.py:231), with the four
numeric fields still raw text — `float()` is applied later and can fail. -/
structure SigGroups where
  name : List Char
  startBit : ℕ
  bitLen : ℕ
  order : ℕ
  sign : Char
  factorS : List Char
  offsetS : List Char
  minS : List Char
  maxS : List Char
  unit : List Char
  rcvS : List Char
deriving DecidableEq

/-- `sig_pattern`, part 1: `^\s+SG_\s+(\w+)\s*:\s*`. -/
def sigMatchHead (l : List Char) : Option (List Char × List Char) := do
  let (_, r) ← chomp1 pyWsChar l
  let r ← lit ("SG_".data) r
  let (_, r) ← chomp1 pyWsChar r
  let (nm, r) ← chomp1 isWordC r
  let r := (chomp pyWsChar r).2
  let r ← lit [':'] r
  pure (nm, (chomp pyWsChar r).2)

/-- `sig_pattern`, part 2: `(\d+)\|(\d+)@([01])([+-])`. -/
def sigMatchBits (l : List Char) : Option ((ℕ × ℕ × ℕ × Char) × List Char) := do
  let (sb, r) ← chomp1 isDigitC l
  let r ← lit ['|'] r
  let (ln, r) ← chomp1 isDigitC r
  let r ← lit ['@'] r
  match r with
  | c :: cs =>
    if c = '0' || c = '1' then
      match cs with
      | c2 :: cs2 =>
        if c2 = '+' || c2 = '-' then
          pure ((digitsToNat sb, digitsToNat ln, if c = '1' then 1 else 0, c2), cs2)
        else none
      | [] => none
    else none
  | [] => none

/-- `sig_pattern`, part 3: `\s*\(([^,]+),([^)]+)\)\s*\[([^|]+)\|([^\]]+)\]`. -/
def sigMatchNums (l : List Char) :
    Option ((List Char × List Char × List Char × List Char) × List Char) := do
  let r ← lit ['('] ((chomp pyWsChar l).2)
  let (fa, r) ← chomp1 (fun c => c != ',') r
  let r ← lit [','] r
  let (off, r) ← chomp1 (fun c => c != ')') r
  let r ← lit [')'] r
  let r ← lit ['['] ((chomp pyWsChar r).2)
  let (mn, r) ← chomp1 (fun c => c != '|') r
  let r ← lit ['|'] r
  let (mx, r) ← chomp1 (fun c => c != ']') r
  let r ← lit [']'] r
  pure ((fa, off, mn, mx), r)

/-- `sig_pattern`, part 4: `\s*"([^"]*)"\s*(.*)`. -/
def sigMatchTail (l : List Char) : Option (List Char × List Char) := do
  let r ← lit ['"'] ((chomp pyWsChar l).2)
  let (u, r) := chomp (fun c => c != '"') r
  let r ← lit ['"'] r
  pure (u, (chomp pyWsChar r).2)

/-- `sig_pattern` (dbc_compare.py:231):
`^\s+SG_\s+(\w+)\s*:\s*(\d+)\|(\d+)@([01])([+-])\s*\(([^,]+),([^)]+)\)\s*\[([^|]+)\|([^\]]+)\]\s*"([^"]*)"\s*(.*)`. -/
def sigMatch? (l : List Char) : Option SigGroups := do
  let (nm, r) ← sigMatchHead l
  let (bits, r) ← sigMatchBits r
  let (nums, r) ← sigMatchNums r
  let (u, rcv) ← sigMatchTail r
  pure { name := nm, startBit := bits.1, bitLen := bits.2.1,
         order := bits.2.2.1, sign := bits.2.2.2,
         factorS := nums.1, offsetS := nums.2.1, minS := nums.2.2.1,
         maxS := nums.2.2.2, unit := u, rcvS := rcv }

/-- `parse_msg_int_attr` pattern (dbc_compare.py:268):
`^BA_ "attr" BO_ (\d+) (-?\d+)\s*;`. -/
def baMsgIntMatch? (attr : List Char) (l : List Char) : Option (ℕ × ℤ) := do
  let r ← lit ('B' :: 'A' :: '_' :: ' ' :: '"' ::
    (attr ++ '"' :: ' ' :: 'B' :: 'O' :: '_' :: ' ' :: [])) l
  let (ds, r) ← chomp1 isDigitC r
  let r ← lit [' '] r
  let p : Bool × List Char :=
    match r with
    | '-' :: rest => (true, rest)
    | rest => (false, rest)
  let (vs, r) ← chomp1 isDigitC p.2
  let r := (chomp pyWsChar r).2
  let _ ← lit [';'] r
  pure (digitsToNat ds,
    if p.1 then -(digitsToNat vs : ℤ) else (digitsToNat vs : ℤ))

/-- `lm_pattern` shape (dbc_compare.py:321):
`^BA_ "attr" BO_ (\d+) "([^"]*)"\s*;`. -/
def baMsgStrMatch? (attr : List Char) (l : List Char) : Option (ℕ × List Char) := do
  let r ← lit ('B' :: 'A' :: '_' :: ' ' :: '"' ::
    (attr ++ '"' :: ' ' :: 'B' :: 'O' :: '_' :: ' ' :: [])) l
  let (ds, r) ← chomp1 isDigitC r
  let r ← lit [' ', '"'] r
  let (v, r) := chomp (fun c => c != '"') r
  let r ← lit ['"'] r
  let r := (chomp pyWsChar r).2
  let _ ← lit [';'] r
  pure (digitsToNat ds, v)

/-- `parse_sig_int_attr` pattern (dbc_compare.py:329):
`^BA_ "attr" SG_ (\d+) (\w+) (-?\d+)\s*;`. -/
def baSigIntMatch? (attr : List Char) (l : List Char) :
    Option ((ℕ × List Char) × ℤ) := do
  let r ← lit ('B' :: 'A' :: '_' :: ' ' :: '"' ::
    (attr ++ '"' :: ' ' :: 'S' :: 'G' :: '_' :: ' ' :: [])) l
  let (ds, r) ← chomp1 isDigitC r
  let r ← lit [' '] r
  let (nm, r) ← chomp1 isWordC r
  let r ← lit [' '] r
  let p : Bool × List Char :=
    match r with
    | '-' :: rest => (true, rest)
    | rest => (false, rest)
  let (vs, r) ← chomp1 isDigitC p.2
  let r := (chomp pyWsChar r).2
  let _ ← lit [';'] r
  pure ((digitsToNat ds, nm),
    if p.1 then -(digitsToNat vs : ℤ) else (digitsToNat vs : ℤ))

/-- `parse_sig_str_attr` pattern (dbc_compare.py:336):
`^BA_ "attr" SG_ (\d+) (\w+) "([^"]*)"\s*;`. -/
def baSigStrMatch? (attr : List Char) (l : List Char) :
    Option ((ℕ × List Char) × List Char) := do
  let r ← lit ('B' :: 'A' :: '_' :: ' ' :: '"' ::
    (attr ++ '"' :: ' ' :: 'S' :: 'G' :: '_' :: ' ' :: [])) l
  let (ds, r) ← chomp1 isDigitC r
  let r ← lit [' '] r
  let (nm, r) ← chomp1 isWordC r
  let r ← lit [' ', '"'] r
  let (v, r) := chomp (fun c => c != '"') r
  let r ← lit ['"'] r
  let r := (chomp pyWsChar r).2
  let _ ← lit [';'] r
  pure ((digitsToNat ds, nm), v)

/-- Characters before the first `;`, or `none` when there is no `;`. -/
def takeToSemi : List Char → Option (List Char)
  | [] => none
  | c :: cs => if c = ';' then some [] else (takeToSemi cs).map (fun t => c :: t)

/-- `val_pattern` (dbc_compare.py:361): `^VAL_\s+(\d+)\s+(\w+)\s+(.*?)\s*;`. -/
def valMatch? (l : List Char) : Option (ℕ × List Char × List Char) := do
  let r ← lit ("VAL_".data) l
  let (_, r) ← chomp1 pyWsChar r
  let (ds, r) ← chomp1 isDigitC r
  let (_, r) ← chomp1 pyWsChar r
  let (nm, r) ← chomp1 isWordC r
  let (_, r) ← chomp1 pyWsChar r
  let seg ← takeToSemi r
  pure (digitsToNat ds, nm, rstrip seg)

/-- One match of `(\d+)\s+"([^"]*)"` at the current position. -/
def pairMatchAt (l : List Char) : Option ((List Char × List Char) × List Char) := do
  let (ds, r) ← chomp1 isDigitC l
  let (_, r) ← chomp1 pyWsChar r
  let r ← lit ['"'] r
  let (lbl, r) := chomp (fun c => c != '"') r
  let r ← lit ['"'] r
  pure ((ds, lbl), r)

/-- `re.findall(r'(\d+)\s+"([^"]*)"', ...)`: non-overlapping left-to-right
scan.  Fuel bounds the scan (`l.length` suffices). -/
def scanPairs : ℕ → List Char → List (List Char × List Char)
  | 0, _ => []
  | _, [] => []
  | fuel + 1, c :: cs =>
    match pairMatchAt (c :: cs) with
    | some (p, r) => p :: scanPairs fuel r
    | none => scanPairs fuel cs

/-- The collapsed value-description string (dbc_compare.py:367):
`", ".join(f"{num}: {desc}" ...)`. -/
def descOfValPayload (payload : List Char) : List Char :=
  joinStrs (", ".data)
    ((scanPairs (pyStrip payload).length (pyStrip payload)).map
      (fun p => p.1 ++ ':' :: ' ' :: p.2))

/-- `cm_sig_pattern` (dbc_compare.py:373): `^CM_\s+SG_\s+(\d+)\s+(\w+)\s+"([^"]*)"\s*;`. -/
def cmSigMatch? (l : List Char) : Option (ℕ × List Char × List Char) := do
  let r ← lit ("CM_".data) l
  let (_, r) ← chomp1 pyWsChar r
  let r ← lit ("SG_".data) r
  let (_, r) ← chomp1 pyWsChar r
  let (ds, r) ← chomp1 isDigitC r
  let (_, r) ← chomp1 pyWsChar r
  let (nm, r) ← chomp1 isWordC r
  let (_, r) ← chomp1 pyWsChar r
  let r ← lit ['"'] r
  let (cm, r) := chomp (fun c => c != '"') r
  let r ← lit ['"'] r
  let r := (chomp pyWsChar r).2
  let _ ← lit [';'] r
  pure (digitsToNat ds, nm, cm)

/-- `cm_msg_pattern` (dbc_compare.py:382): `^CM_\s+BO_\s+(\d+)\s+"([^"]*)"\s*;`. -/
def cmMsgMatch? (l : List Char) : Option (ℕ × List Char) := do
  let r ← lit ("CM_".data) l
  let (_, r) ← chomp1 pyWsChar r
  let r ← lit ("BO_".data) r
  let (_, r) ← chomp1 pyWsChar r
  let (ds, r) ← chomp1 isDigitC r
  let (_, r) ← chomp1 pyWsChar r
  let r ← lit ['"'] r
  let (cm, r) := chomp (fun c => c != '"') r
  let r ← lit ['"'] r
  let r := (chomp pyWsChar r).2
  let _ ← lit [';'] r
  pure (digitsToNat ds, cm)

/-- Node-list record (dbc_compare.py:225): `^BU_\s*:\s*(.*)`, returning the
rest of the line after the colon (stripped and split by the caller). -/
def buMatch? (l : List Char) : Option (List Char) := do
  let r ← lit ("BU_".data) l
  let r := (chomp pyWsChar r).2
  let r ← lit [':'] r
  pure r

/-- Global string attributes (dbc_compare.py:390, 394):
`^BA_\s+"attr"\s+"([^"]*)"\s*;`. -/
def globalStrAttrMatch? (attr : List Char) (l : List Char) : Option (List Char) := do
  let r ← lit ("BA_".data) l
  let (_, r) ← chomp1 pyWsChar r
  let r ← lit ('"' :: (attr ++ ['"'])) r
  let (_, r) ← chomp1 pyWsChar r
  let r ← lit ['"'] r
  let (v, r) := chomp (fun c => c != '"') r
  let r ← lit ['"'] r
  let r := (chomp pyWsChar r).2
  let _ ← lit [';'] r
  pure v

/-- Insert-or-replace on an ordered association list: a present key keeps its
position and gets the new value, an absent key is appended (Python dict /
`OrderedDict` assignment). -/
def odInsert {κ α : Type} [DecidableEq κ] (l : List (κ × α)) (k : κ) (v : α) :
    List (κ × α) :=
  if l.any (fun p => decide (p.1 = k)) then
    l.map (fun p => if p.1 = k then (k, v) else p)
  else l ++ [(k, v)]

/-- Update the value at a key when present; no-op on an absent key. -/
def odUpdate {κ α : Type} [DecidableEq κ] (l : List (κ × α)) (k : κ) (f : α → α) :
    List (κ × α) :=
  l.map (fun p => if p.1 = k then (p.1, f p.2) else p)

/-- Update one signal of one message when both exist; no-op otherwise
(the `if msg_id in db.messages and sig_name in ...` guards). -/
def odUpdateSig (msgs : List (ℕ × Message)) (id : ℕ) (snm : List Char)
    (f : Signal → Signal) : List (ℕ × Message) :=
  odUpdate msgs id (fun m => { m with signals := odUpdate m.signals snm f })

/-- A `Signal` built from a matched declaration line (dbc_compare.py:249),
with the four numeric fields already converted by `float()`. -/
def mkSignal (g : SigGroups) (fa off mn mx : ℚ) : Signal :=
  { name := g.name, start_bit := g.startBit, length := g.bitLen,
    byte_order := g.order, value_type := g.sign,
    factor := fa, offset := off, minimum := mn, maximum := mx,
    unit := g.unit,
    receivers := ((splitOnComma (pyStrip g.rcvS)).map pyStrip).filter
      (fun r => decide (r ≠ [])) }

/-- A `Message` built from a matched declaration line (dbc_compare.py:238). -/
def mkMessage (id : ℕ) (nm : List Char) (dlc : ℕ) (tx : List Char) : Message :=
  { msg_id := id, name := nm, dlc := dlc, transmitter := tx }

/-- All four signal numeric fields of a matched signal line parse as floats. -/
def sigNumericsOk (g : SigGroups) : Bool :=
  (pyFloat? g.factorS).isSome && (pyFloat? g.offsetS).isSome &&
  (pyFloat? g.minS).isSome && (pyFloat? g.maxS).isSome

/-- State of the message/signal pass: finished messages and the message
whose signal block is currently open. -/
structure BaseState where
  msgs : List (ℕ × Message)
  cur : Option Message

/-- Close the open signal block, inserting its message. -/
def flushCur (st : BaseState) : List (ℕ × Message) :=
  match st.cur with
  | none => st.msgs
  | some m => odInsert st.msgs m.msg_id m

/-- One line of the message/signal pass.  A signal line inside a block whose
factor, offset, min or max does not `float()`-parse raises `ValueError`
(modelled as `Except.error`) — exactly as dbc_compare.py:255-258 does. -/
def baseStep (st : Except Unit BaseState) (l : List Char) : Except Unit BaseState :=
  match st with
  | Except.error e => Except.error e
  | Except.ok st =>
    match msgMatch? l with
    | some (id, nm, dlc, tx) =>
      Except.ok { msgs := flushCur st, cur := some (mkMessage id nm dlc tx) }
    | none =>
      match st.cur with
      | none => Except.ok st
      | some m =>
        match sigMatch? l with
        | none => Except.ok st
        | some g =>
          match pyFloat? g.factorS, pyFloat? g.offsetS,
              pyFloat? g.minS, pyFloat? g.maxS with
          | some fa, some off, some mn, some mx =>
            Except.ok { st with cur := some { m with
              signals := odInsert m.signals g.name (mkSignal g fa off mn mx) } }
          | _, _, _, _ => Except.error ()

/-- The message/signal pass (dbc_compare.py:236-264): each declaration opens
a block running to the next declaration or end of document; the signal lines
of the block populate the message, which is then inserted by id. -/
def basePass (doc : List (List Char)) : Except Unit (List (ℕ × Message)) :=
  match doc.foldl baseStep (Except.ok { msgs := [], cur := none }) with
  | Except.error e => Except.error e
  | Except.ok st => Except.ok (flushCur st)

/-- What one line of a signal block (no declaration on it) does to the open
message: the restriction of `baseStep` to the current message. -/
def sigFold (st : Except Unit Message) (l : List Char) : Except Unit Message :=
  match st with
  | Except.error e => Except.error e
  | Except.ok m =>
    match sigMatch? l with
    | none => Except.ok m
    | some g =>
      match pyFloat? g.factorS, pyFloat? g.offsetS,
          pyFloat? g.minS, pyFloat? g.maxS with
      | some fa, some off, some mn, some mx =>
        Except.ok { m with
          signals := odInsert m.signals g.name (mkSignal g fa off mn mx) }
      | _, _, _, _ => Except.error ()

/-- One message-level integer attribute: its record name, the typed field
setter used by the overlay pass, and (for specification only) the field
getter with its constructor default. -/
structure MsgAttrSpec where
  attr : List Char
  set : ℤ → Message → Message
  get : Message → ℤ
  dflt : ℤ

/-- The fifteen message-level integer attributes (dbc_compare.py:274-318),
in source order. -/
def msgIntAttrSpecs : List MsgAttrSpec :=
  [ ⟨"GenMsgCycleTime".data, fun v m => { m with cycle_time := v },
      Message.cycle_time, 0⟩,
    ⟨"GenMsgCycleTimeFast".data, fun v m => { m with cycle_time_fast := v },
      Message.cycle_time_fast, 0⟩,
    ⟨"GenMsgCycleTimeActive".data, fun v m => { m with cycle_time_active := v },
      Message.cycle_time_active, 0⟩,
    ⟨"GenMsgSendType".data, fun v m => { m with send_type := v },
      Message.send_type, 0⟩,
    ⟨"GenMsgNrOfRepetition".data, fun v m => { m with nr_of_repetition := v },
      Message.nr_of_repetition, 0⟩,
    ⟨"GenMsgDelayTime".data, fun v m => { m with delay_time := v },
      Message.delay_time, 0⟩,
    ⟨"GenMsgStartDelayTime".data, fun v m => { m with start_delay_time := v },
      Message.start_delay_time, 0⟩,
    ⟨"GenMsgILSupport".data, fun v m => { m with il_support := v },
      Message.il_support, 1⟩,
    ⟨"NmMessage".data, fun v m => { m with nm_message := v },
      Message.nm_message, 0⟩,
    ⟨"NmAsrMessage".data, fun v m => { m with nm_asr_message := v },
      Message.nm_asr_message, 0⟩,
    ⟨"VFrameFormat".data, fun v m => { m with vframe_format := v },
      Message.vframe_format, 14⟩,
    ⟨"CANFD_BRS".data, fun v m => { m with canfd_brs := v },
      Message.canfd_brs, 1⟩,
    ⟨"DiagRequest".data, fun v m => { m with diag_request := v },
      Message.diag_request, 0⟩,
    ⟨"DiagResponse".data, fun v m => { m with diag_response := v },
      Message.diag_response, 0⟩,
    ⟨"DiagState".data, fun v m => { m with diag_state := v },
      Message.diag_state, 0⟩ ]

/-- The Python `results` dict of an attribute sweep: later records silently
overwrite earlier ones for the same key, iteration order is first-seen. -/
def dictInsertAll {κ α : Type} [DecidableEq κ] (ms : List (κ × α)) : List (κ × α) :=
  ms.foldl (fun d p => odInsert d p.1 p.2) []

/-- One message-attribute sweep (dbc_compare.py:267-272 plus the per-attr
application loops): collect matches into a dict, then set the field of every
message whose id is present. -/
def applyMsgIntAttr (doc : List (List Char)) (msgs : List (ℕ × Message))
    (spec : MsgAttrSpec) : List (ℕ × Message) :=
  (dictInsertAll (doc.filterMap (baMsgIntMatch? spec.attr))).foldl
    (fun ms p => odUpdate ms p.1 (spec.set p.2)) msgs

def applyMsgIntAttrs (doc : List (List Char)) (msgs : List (ℕ × Message)) :
    List (ℕ × Message) :=
  msgIntAttrSpecs.foldl (applyMsgIntAttr doc) msgs

/-- `SystemMessageLongSymbol` sweep (dbc_compare.py:321-325), applied match
by match in document order. -/
def applyMsgLongSym (doc : List (List Char)) (msgs : List (ℕ × Message)) :
    List (ℕ × Message) :=
  (doc.filterMap (baMsgStrMatch? ("SystemMessageLongSymbol".data))).foldl
    (fun ms p => odUpdate ms p.1 (fun m => { m with long_symbol := p.2 })) msgs

/-- One signal-level integer attribute (dbc_compare.py:347-354). -/
structure SigAttrSpec where
  attr : List Char
  set : ℤ → Signal → Signal
  get : Signal → ℤ
  dflt : ℤ

def sigIntAttrSpecs : List SigAttrSpec :=
  [ ⟨"GenSigStartValue".data, fun v s => { s with start_value := v },
      Signal.start_value, 0⟩,
    ⟨"GenSigInactiveValue".data, fun v s => { s with inactive_value := v },
      Signal.inactive_value, 0⟩,
    ⟨"GenSigSendType".data, fun v s => { s with send_type := v },
      Signal.send_type, 0⟩,
    ⟨"GenSigTimeoutTime_ALL".data, fun v s => { s with timeout_time := v },
      Signal.timeout_time, 0⟩ ]

def applySigIntAttr (doc : List (List Char)) (msgs : List (ℕ × Message))
    (spec : SigAttrSpec) : List (ℕ × Message) :=
  (dictInsertAll (doc.filterMap (baSigIntMatch? spec.attr))).foldl
    (fun ms p => odUpdateSig ms p.1.1 p.1.2 (spec.set p.2)) msgs

def applySigIntAttrs (doc : List (List Char)) (msgs : List (ℕ × Message)) :
    List (ℕ × Message) :=
  sigIntAttrSpecs.foldl (applySigIntAttr doc) msgs

/-- One signal-level string attribute (dbc_compare.py:355-358); the getter
is for specification only. -/
structure SigStrAttrSpec where
  attr : List Char
  set : List Char → Signal → Signal
  get : Signal → List Char

def sigStrAttrSpecs : List SigStrAttrSpec :=
  [ ⟨"InvalidValue".data, fun v s => { s with invalid_value := v },
      Signal.invalid_value⟩,
    ⟨"SystemSignalLongSymbol".data, fun v s => { s with long_symbol := v },
      Signal.long_symbol⟩ ]

def applySigStrAttr (doc : List (List Char)) (msgs : List (ℕ × Message))
    (spec : SigStrAttrSpec) : List (ℕ × Message) :=
  (dictInsertAll (doc.filterMap (baSigStrMatch? spec.attr))).foldl
    (fun ms p => odUpdateSig ms p.1.1 p.1.2 (spec.set p.2)) msgs

def applySigStrAttrs (doc : List (List Char)) (msgs : List (ℕ × Message)) :
    List (ℕ × Message) :=
  sigStrAttrSpecs.foldl (applySigStrAttr doc) msgs

/-- Value-description sweep (dbc_compare.py:361-369). -/
def applyVal (doc : List (List Char)) (msgs : List (ℕ × Message)) :
    List (ℕ × Message) :=
  (doc.filterMap valMatch?).foldl
    (fun ms t => odUpdateSig ms t.1 t.2.1
      (fun s => { s with value_desc := descOfValPayload t.2.2 })) msgs

/-- Signal-comment sweep (dbc_compare.py:373-379). -/
def applyCmSig (doc : List (List Char)) (msgs : List (ℕ × Message)) :
    List (ℕ × Message) :=
  (doc.filterMap cmSigMatch?).foldl
    (fun ms t => odUpdateSig ms t.1 t.2.1
      (fun s => { s with comment := t.2.2 })) msgs

/-- Message-comment sweep (dbc_compare.py:382-387). -/
def applyCmMsg (doc : List (List Char)) (msgs : List (ℕ × Message)) :
    List (ℕ × Message) :=
  (doc.filterMap cmMsgMatch?).foldl
    (fun ms t => odUpdate ms t.1 (fun m => { m with comment := t.2 })) msgs

/-- `parse_dbc` (dbc_compare.py:217): the message/signal pass followed by
the independent overlay sweeps.  The only failure is the `ValueError` of a
numeric conversion in a signal declaration. -/
def parse_dbc (doc : List (List Char)) : Except Unit DBCDatabase :=
  match basePass doc with
  | Except.error e => Except.error e
  | Except.ok msgs0 =>
    let nodes := match doc.findSome? buMatch? with
      | some r => splitWs (pyStrip r)
      | none => []
    let msgs1 := applyMsgIntAttrs doc msgs0
    let msgs2 := applyMsgLongSym doc msgs1
    let msgs3 := applySigIntAttrs doc msgs2
    let msgs4 := applySigStrAttrs doc msgs3
    let msgs5 := applyVal doc msgs4
    let msgs6 := applyCmSig doc msgs5
    let msgs7 := applyCmMsg doc msgs6
    let bus_type := (doc.findSome? (globalStrAttrMatch? ("BusType".data))).getD []
    let db_name := (doc.findSome? (globalStrAttrMatch? ("DBName".data))).getD []
    Except.ok { messages := msgs7, nodes := nodes,
                bus_type := bus_type, db_name := db_name }

-- ============================================================================
-- Concrete instances used by counterexamples and witnesses
-- ============================================================================

def sigC2old : Signal := { name := ['S'], offset := 0 }
def sigC2new : Signal := { name := ['S'], offset := 5 }
def msgC2old : Message :=
  { msg_id := 1, name := ['M'], comment := ['a'], signals := [(['S'], sigC2old)] }
def msgC2new : Message :=
  { msg_id := 1, name := ['M'], comment := ['b'], signals := [(['S'], sigC2new)] }
def dbC2old : DBCDatabase := { messages := [(1, msgC2old)] }
def dbC2new : DBCDatabase := { messages := [(1, msgC2new)] }

def msgW2old : Message := { msg_id := 2, name := ['M'], dlc := 8 }
def msgW2new : Message := { msg_id := 2, name := ['M'], dlc := 4 }
def dbW2old : DBCDatabase := { messages := [(2, msgW2old)] }
def dbW2new : DBCDatabase := { messages := [(2, msgW2new)] }

def sigW5a : Signal := { name := ['A'] }
def sigW5b : Signal := { name := ['B'] }
def msgW5 : Message :=
  { msg_id := 256, name := ['M'], signals := [(['A'], sigW5a), (['B'], sigW5b)] }
def dbW5old : DBCDatabase := { messages := [(256, msgW5)] }
def dbW5new : DBCDatabase := { messages := [] }

def msgW10 : Message := { msg_id := 3, name := ['Z'] }
def dbW10 : DBCDatabase := { messages := [(3, msgW10)] }

-- ============================================================================
-- Specification-side views of the overlay passes
-- ============================================================================

/-- The value of the last record with key `k` in a match list — the
"last write wins" value. -/
def lastVal {κ α : Type} [DecidableEq κ] (ms : List (κ × α)) (k : κ) : Option α :=
  ms.foldl (fun acc p => if p.1 = k then some p.2 else acc) none

/-- What the fifteen message-integer-attribute sweeps do to one message with
id `k`: each field receives the last record value for `(attr, k)`, if any. -/
def msgIntAttrEntry (doc : List (List Char)) (k : ℕ) (m : Message) : Message :=
  msgIntAttrSpecs.foldl (fun m spec =>
    match lastVal (doc.filterMap (baMsgIntMatch? spec.attr)) k with
    | some v => spec.set v m
    | none => m) m

/-- What the signal-level sweeps (integer and string attributes, value
tables, signal comments — in pass order) do to one signal `name` of the
message with id `k`. -/
def sigAttrEntrySig (doc : List (List Char)) (k : ℕ) (name : Str) (s : Signal) : Signal :=
  let s := sigIntAttrSpecs.foldl (fun s spec =>
    match lastVal (doc.filterMap (baSigIntMatch? spec.attr)) (k, name) with
    | some v => spec.set v s
    | none => s) s
  let s := sigStrAttrSpecs.foldl (fun s spec =>
    match lastVal (doc.filterMap (baSigStrMatch? spec.attr)) (k, name) with
    | some v => spec.set v s
    | none => s) s
  let s := match lastVal ((doc.filterMap valMatch?).map (fun t => ((t.1, t.2.1), t.2.2)))
      (k, name) with
    | some payload => { s with value_desc := descOfValPayload payload }
    | none => s
  match lastVal ((doc.filterMap cmSigMatch?).map (fun t => ((t.1, t.2.1), t.2.2)))
      (k, name) with
  | some c => { s with comment := c }
  | none => s

/-- Per-entry form of the `SystemMessageLongSymbol` sweep. -/
def ovlLongSym (doc : List (List Char)) (k : ℕ) (m : Message) : Message :=
  match lastVal (doc.filterMap (baMsgStrMatch? ("SystemMessageLongSymbol".data))) k with
  | some v => { m with long_symbol := v }
  | none => m

/-- Per-entry form of the four signal-integer-attribute sweeps. -/
def ovlSigInt (doc : List (List Char)) (k : ℕ) (m : Message) : Message :=
  { m with signals := (m.signals.map (fun r => (r.1,
      sigIntAttrSpecs.foldl (fun s spec =>
        match lastVal (doc.filterMap (baSigIntMatch? spec.attr)) (k, r.1) with
        | some v => spec.set v s
        | none => s) r.2))) }

/-- Per-entry form of the two signal-string-attribute sweeps. -/
def ovlSigStr (doc : List (List Char)) (k : ℕ) (m : Message) : Message :=
  { m with signals := (m.signals.map (fun r => (r.1,
      sigStrAttrSpecs.foldl (fun s spec =>
        match lastVal (doc.filterMap (baSigStrMatch? spec.attr)) (k, r.1) with
        | some v => spec.set v s
        | none => s) r.2))) }

/-- Per-entry form of the value-description sweep. -/
def ovlVal (doc : List (List Char)) (k : ℕ) (m : Message) : Message :=
  { m with signals := (m.signals.map (fun r => (r.1,
      match lastVal ((doc.filterMap valMatch?).map
          (fun t => ((t.1, t.2.1), t.2.2))) (k, r.1) with
      | some payload => { r.2 with value_desc := descOfValPayload payload }
      | none => r.2))) }

/-- Per-entry form of the signal-comment sweep. -/
def ovlCmSig (doc : List (List Char)) (k : ℕ) (m : Message) : Message :=
  { m with signals := (m.signals.map (fun r => (r.1,
      match lastVal ((doc.filterMap cmSigMatch?).map
          (fun t => ((t.1, t.2.1), t.2.2))) (k, r.1) with
      | some c => { r.2 with comment := c }
      | none => r.2))) }

/-- Per-entry form of the message-comment sweep. -/
def ovlCmMsg (doc : List (List Char)) (k : ℕ) (m : Message) : Message :=
  match lastVal (doc.filterMap cmMsgMatch?) k with
  | some c => { m with comment := c }
  | none => m

/-- What the complete overlay phase of `parse_dbc` does to one base-pass
message with id `k`. -/
def overlayMsg (doc : List (List Char)) (k : ℕ) (m : Message) : Message :=
  let m := msgIntAttrEntry doc k m
  let m := match lastVal (doc.filterMap
      (baMsgStrMatch? ("SystemMessageLongSymbol".data))) k with
    | some v => { m with long_symbol := v }
    | none => m
  let m := { m with signals :=
    (m.signals.map (fun r => (r.1, sigAttrEntrySig doc k r.1 r.2))) }
  match lastVal (doc.filterMap cmMsgMatch?) k with
  | some c => { m with comment := c }
  | none => m

/-- A document whose second line is a well-formed signal record except that
its factor field is not numeric. -/
def docC1 : List (List Char) :=
  ["BO_ 1 MsgA : 8 NodeA".data,
   " SG_ S : 0|8@1+ (abc,0) [0|1] \"\" XXX".data,
   "BO_ 2 MsgB : 8 NodeB".data]

/-- A well-formed document with an unrecognized line in the middle. -/
def docC1ok : List (List Char) :=
  ["BU_: NodeA NodeB".data,
   "BO_ 1 MsgA : 8 NodeA".data,
   " SG_ Spd : 0|8@1+ (0.5,0) [0|100] \"km/h\" NodeB".data,
   "some line matching no record shape".data,
   "BA_ \"GenMsgCycleTime\" BO_ 1 100;".data]

-- ============================================================================
-- Helper lemmas about the embedded operations
-- ============================================================================

/-- Lines of the C9 witness document: one message with one signal, then a
duplicated record of each overlay kind (the second of each pair must win). -/
def lwA : List Char := "BO_ 5 M : 8 N".data

def lwB : List Char := " SG_ S : 0|8@1+ (1,0) [0|0] \"\" N".data

def lw3 : List Char := "BA_ \"GenMsgCycleTime\" BO_ 5 10;".data

def lw4 : List Char := "BA_ \"GenMsgCycleTime\" BO_ 5 20;".data

def lw5 : List Char := "BA_ \"SystemMessageLongSymbol\" BO_ 5 \"L1\";".data

def lw6 : List Char := "BA_ \"SystemMessageLongSymbol\" BO_ 5 \"L2\";".data

def lw7 : List Char := "BA_ \"GenSigStartValue\" SG_ 5 S 1;".data

def lw8 : List Char := "BA_ \"GenSigStartValue\" SG_ 5 S 2;".data

def lw9 : List Char := "BA_ \"InvalidValue\" SG_ 5 S \"A\";".data

def lw10 : List Char := "BA_ \"InvalidValue\" SG_ 5 S \"B\";".data

def lw11 : List Char := "CM_ BO_ 5 \"c1\";".data

def lw12 : List Char := "CM_ BO_ 5 \"c2\";".data

def lw13 : List Char := "CM_ SG_ 5 S \"s1\";".data

def lw14 : List Char := "CM_ SG_ 5 S \"s2\";".data

def lw15 : List Char := "VAL_ 5 S 0 \"off\";".data

def lw16 : List Char := "VAL_ 5 S 1 \"on\";".data

/-- The signal the base pass builds from `lwB`. -/
def sgW9 : Signal :=
  { name := "S".data, start_bit := 0, length := 8, byte_order := 1,
    value_type := '+', factor := 1, offset := 0, minimum := 0, maximum := 0,
    unit := [], receivers := ["N".data] }

/-- The message the base pass builds from `lwA`/`lwB`. -/
def mW9 : Message :=
  { msg_id := 5, name := "M".data, dlc := 8, transmitter := "N".data,
    signals := [("S".data, sgW9)] }

def docW9 : List (List Char) :=
  [lwA, lwB, lw3, lw4, lw5, lw6, lw7, lw8, lw9, lw10,
   lw11, lw12, lw13, lw14, lw15, lw16]

/-- An earlier declaration of message id 5, to be overwritten. -/
def lwOld : List Char := "BO_ 5 OLD : 4 X".data

def s1W8 : BaseState := ⟨[], some (mkMessage 5 ("OLD".data) 4 ("X".data))⟩

/-- The C9 duplicate-signal witness block: two `SG_ T` lines. -/
def lwBo9 : List Char := "BO_ 7 M : 8 N".data

def lwT1 : List Char := " SG_ T : 0|8@1+ (1,0) [0|1] \"\" N".data

def lwT2 : List Char := " SG_ T : 8|8@1+ (2,0) [0|5] \"u\" N".data

def gW9T1 : SigGroups :=
  ⟨"T".data, 0, 8, 1, '+', "1".data, "0".data, "0".data, "1".data, [], "N".data⟩

def gW9T2 : SigGroups :=
  ⟨"T".data, 8, 8, 1, '+', "2".data, "0".data, "0".data, "5".data, "u".data, "N".data⟩

def mfin9 : Message :=
  { msg_id := 7, name := "M".data, dlc := 8, transmitter := "N".data,
    signals := [("T".data, mkSignal gW9T2 2 0 0 5)] }

/-- The `GenMsgCycleTime` entry of `msgIntAttrSpecs` (its head). -/
def specCT : MsgAttrSpec :=
  ⟨"GenMsgCycleTime".data, fun v m => { m with cycle_time := v },
    Message.cycle_time, 0⟩

/-- A document declaring one message and never assigning `GenMsgCycleTime`. -/
def docW6 : List (List Char) := [lwA, lwB]

/-- A cycle-time attribute record for the undeclared message id 99. -/
def lwD : List Char := "BA_ \"GenMsgCycleTime\" BO_ 99 7;".data

theorem pyFromKeys_nil {α : Type} [DecidableEq α] :
    pyFromKeys ([] : List α) = [] := rfl

theorem pyFromKeysAux_congr {α : Type} [DecidableEq α] :
    ∀ (l s t : List α), (∀ y, y ∈ s ↔ y ∈ t) →
      pyFromKeysAux s l = pyFromKeysAux t l := by
  intro l
  induction l with
  | nil => intro s t _; rfl
  | cons x xs ih =>
    intro s t hst
    rw [pyFromKeysAux, pyFromKeysAux]
    by_cases hx : x ∈ s
    · rw [if_pos hx, if_pos ((hst x).mp hx)]
      exact ih s t hst
    · rw [if_neg hx, if_neg (fun h => hx ((hst x).mpr h))]
      congr 1
      refine ih (x :: s) (x :: t) ?_
      intro y
      simp [hst y]

theorem pyFromKeysAux_filter_seen {α : Type} [DecidableEq α] :
    ∀ (l s : List α) (x : α), x ∈ s →
      pyFromKeysAux s (l.filter (fun y => decide (y ≠ x))) = pyFromKeysAux s l := by
  intro l
  induction l with
  | nil => intro s x _; rfl
  | cons z zs ih =>
    intro s x hx
    by_cases hz : z = x
    · subst hz
      have h1 : (z :: zs).filter (fun y => decide (y ≠ z))
          = zs.filter (fun y => decide (y ≠ z)) := by simp
      rw [h1, ih s z hx, pyFromKeysAux, if_pos hx]
    · have h1 : (z :: zs).filter (fun y => decide (y ≠ x))
          = z :: zs.filter (fun y => decide (y ≠ x)) := by simp [hz]
      rw [h1, pyFromKeysAux, pyFromKeysAux]
      by_cases hzs : z ∈ s
      · rw [if_pos hzs, if_pos hzs]
        exact ih s x hx
      · rw [if_neg hzs, if_neg hzs]
        congr 1
        exact ih (z :: s) x (by simp [hx])

theorem pyFromKeysAux_drop_seen {α : Type} [DecidableEq α] :
    ∀ (l s : List α) (x : α), (∀ y ∈ l, y ≠ x) →
      pyFromKeysAux (x :: s) l = pyFromKeysAux s l := by
  intro l
  induction l with
  | nil => intro s x _; rfl
  | cons z zs ih =>
    intro s x hl
    have hzx : z ≠ x := hl z (by simp)
    rw [pyFromKeysAux, pyFromKeysAux]
    by_cases hzs : z ∈ s
    · rw [if_pos (by simp [hzs]), if_pos hzs]
      exact ih s x (fun y hy => hl y (by simp [hy]))
    · rw [if_neg (by simp [hzx, hzs]), if_neg hzs]
      congr 1
      have h1 := pyFromKeysAux_congr zs (z :: x :: s) (x :: z :: s)
        (fun y => by constructor <;> intro h <;> simp at h <;> rcases h with h | h | h <;> simp [h])
      rw [h1]
      exact ih (z :: s) x (fun y hy => hl y (by simp [hy]))

theorem pyFromKeys_cons {α : Type} [DecidableEq α] (x : α) (xs : List α) :
    pyFromKeys (x :: xs) = x :: pyFromKeys (xs.filter (fun y => decide (y ≠ x))) := by
  unfold pyFromKeys
  rw [pyFromKeysAux, if_neg (by simp)]
  congr 1
  rw [← pyFromKeysAux_filter_seen xs [x] x (by simp)]
  exact pyFromKeysAux_drop_seen (xs.filter (fun y => decide (y ≠ x))) [] x
    (fun y hy => by simp [List.mem_filter] at hy; exact hy.2)

theorem mem_pyFromKeys_aux {α : Type} [DecidableEq α] (x : α) (n : ℕ) :
    ∀ l : List α, l.length ≤ n → (x ∈ pyFromKeys l ↔ x ∈ l) := by
  induction n with
  | zero =>
    intro l h
    cases l with
    | nil => simp [pyFromKeys, pyFromKeysAux]
    | cons y l => simp at h
  | succ n ih =>
    intro l h
    cases l with
    | nil => simp [pyFromKeys, pyFromKeysAux]
    | cons y l =>
      rw [pyFromKeys_cons]
      have hlen : (l.filter (fun z => decide (z ≠ y))).length ≤ n :=
        le_trans (List.length_filter_le _ _) (by simpa using h)
      by_cases hxy : x = y
      · subst hxy; simp
      · simp only [List.mem_cons, hxy, false_or]
        rw [ih _ hlen, List.mem_filter]
        simp [hxy]

theorem mem_pyFromKeys {α : Type} [DecidableEq α] {x : α} {l : List α} :
    x ∈ pyFromKeys l ↔ x ∈ l :=
  mem_pyFromKeys_aux x l.length l le_rfl

theorem filterMap_of_forall_none {α β : Type} (f : α → Option β) :
    ∀ l : List α, (∀ s ∈ l, f s = none) → l.filterMap f = [] := by
  intro l h
  induction l with
  | nil => rfl
  | cons x l ih =>
    rw [List.filterMap_cons, h x (by simp)]
    exact ih (fun s hs => h s (by simp [hs]))

theorem filterMap_pyFromKeys_filter {α β : Type} [DecidableEq α]
    (f : α → Option β) (x : α) (hx : f x = none) (n : ℕ) :
    ∀ b : List α, b.length ≤ n →
      (pyFromKeys (b.filter (fun y => decide (y ≠ x)))).filterMap f
        = (pyFromKeys b).filterMap f := by
  induction n with
  | zero =>
    intro b h
    cases b with
    | nil => rfl
    | cons y b => simp at h
  | succ n ih =>
    intro b h
    cases b with
    | nil => rfl
    | cons y b =>
      have hb : b.length ≤ n := by simpa using h
      by_cases hyx : y = x
      · subst hyx
        have h1 : (y :: b).filter (fun z => decide (z ≠ y))
            = b.filter (fun z => decide (z ≠ y)) := by simp
        rw [h1, pyFromKeys_cons, List.filterMap_cons, hx]
      · have h1 : (y :: b).filter (fun z => decide (z ≠ x))
            = y :: b.filter (fun z => decide (z ≠ x)) := by simp [hyx]
        rw [h1, pyFromKeys_cons, pyFromKeys_cons]
        rw [List.filterMap_cons, List.filterMap_cons]
        have hcomm : (b.filter (fun z => decide (z ≠ x))).filter (fun z => decide (z ≠ y))
            = (b.filter (fun z => decide (z ≠ y))).filter (fun z => decide (z ≠ x)) := by
          rw [List.filter_filter, List.filter_filter]
          congr 1
          funext z
          exact Bool.and_comm _ _
        have htail : List.filterMap f (pyFromKeys ((b.filter (fun z => decide (z ≠ x))).filter
              (fun z => decide (z ≠ y))))
            = List.filterMap f (pyFromKeys (b.filter (fun z => decide (z ≠ y)))) := by
          rw [hcomm]
          exact ih _ (le_trans (List.length_filter_le _ _) hb)
        rw [htail]

theorem filterMap_pyFromKeys_append_left {α β : Type} [DecidableEq α]
    (f : α → Option β) (n : ℕ) :
    ∀ a b : List α, a.length ≤ n → (∀ s ∈ a, f s = none) →
      (pyFromKeys (a ++ b)).filterMap f = (pyFromKeys b).filterMap f := by
  induction n with
  | zero =>
    intro a b h _
    cases a with
    | nil => rfl
    | cons x a => simp at h
  | succ n ih =>
    intro a b h hf
    cases a with
    | nil => rfl
    | cons x a =>
      have ha : a.length ≤ n := by simpa using h
      rw [List.cons_append, pyFromKeys_cons, List.filterMap_cons,
        hf x (by simp), List.filter_append]
      have h1 := ih (a.filter (fun z => decide (z ≠ x)))
        (b.filter (fun z => decide (z ≠ x)))
        (le_trans (List.length_filter_le _ _) ha)
        (fun s hs => hf s (by simp [List.mem_filter] at hs; simp [hs.1]))
      rw [h1]
      exact filterMap_pyFromKeys_filter f x (hf x (by simp)) b.length b le_rfl

theorem filterMap_pyFromKeys_append_right {α β : Type} [DecidableEq α]
    (f : α → Option β) (n : ℕ) :
    ∀ b a : List α, b.length ≤ n → (∀ s ∈ a, s ∉ b → f s = none) →
      (pyFromKeys (b ++ a)).filterMap f = (pyFromKeys b).filterMap f := by
  induction n with
  | zero =>
    intro b a h hf
    cases b with
    | nil =>
      rw [List.nil_append]
      have : ∀ s ∈ pyFromKeys a, f s = none := by
        intro s hs
        exact hf s (mem_pyFromKeys.mp hs) (by simp)
      rw [filterMap_of_forall_none f _ this, pyFromKeys_nil]
      rfl
    | cons y b => simp at h
  | succ n ih =>
    intro b a h hf
    cases b with
    | nil =>
      rw [List.nil_append]
      have : ∀ s ∈ pyFromKeys a, f s = none := by
        intro s hs
        exact hf s (mem_pyFromKeys.mp hs) (by simp)
      rw [filterMap_of_forall_none f _ this, pyFromKeys_nil]
      rfl
    | cons y b =>
      have hb : b.length ≤ n := by simpa using h
      rw [List.cons_append, pyFromKeys_cons, pyFromKeys_cons,
        List.filterMap_cons, List.filterMap_cons, List.filter_append]
      have h1 := ih (b.filter (fun z => decide (z ≠ y)))
        (a.filter (fun z => decide (z ≠ y)))
        (le_trans (List.length_filter_le _ _) hb)
        (by
          intro s hs hns
          simp only [List.mem_filter, decide_eq_true_eq] at hs
          refine hf s hs.1 ?_
          intro hsyb
          rcases List.mem_cons.mp hsyb with h2 | h2
          · exact hs.2 h2
          · exact hns (by simp [List.mem_filter, h2, hs.2]))
      rw [h1]

theorem filterMap_pyFromKeys_swap {α β : Type} [DecidableEq α]
    (f : α → Option β) (a b : List α)
    (h : ∀ s, (f s).isSome → s ∉ a) :
    (pyFromKeys (a ++ b)).filterMap f = (pyFromKeys (b ++ a)).filterMap f := by
  have ha : ∀ s ∈ a, f s = none := by
    intro s hs
    cases hf : f s with
    | none => rfl
    | some v => exact absurd (h s (by simp [hf])) (by simp [hs])
  rw [filterMap_pyFromKeys_append_left f a.length a b le_rfl ha,
    filterMap_pyFromKeys_append_right f b.length b a le_rfl
      (fun s hs _ => ha s hs)]

theorem sortedUnion_perm_dedup (a b : List ℕ) :
    (sortedUnion a b).Perm ((a ++ b).dedup) :=
  List.perm_insertionSort _ _

theorem sortedUnion_nodup (a b : List ℕ) : (sortedUnion a b).Nodup :=
  ((sortedUnion_perm_dedup a b).nodup_iff).mpr (List.nodup_dedup _)

theorem sortedUnion_sorted_le (a b : List ℕ) :
    List.Sorted (· ≤ ·) (sortedUnion a b) :=
  List.sorted_insertionSort _ _

theorem sortedUnion_sorted_lt (a b : List ℕ) :
    List.Sorted (· < ·) (sortedUnion a b) :=
  (sortedUnion_sorted_le a b).lt_of_le (sortedUnion_nodup a b)

theorem mem_sortedUnion {x : ℕ} {a b : List ℕ} :
    x ∈ sortedUnion a b ↔ x ∈ a ∨ x ∈ b := by
  unfold sortedUnion
  rw [(List.perm_insertionSort _ _).mem_iff, List.mem_dedup, List.mem_append]

theorem sortedUnion_toFinset (a b : List ℕ) :
    (sortedUnion a b).toFinset = a.toFinset ∪ b.toFinset := by
  ext x
  simp [mem_sortedUnion]

theorem sortedUnion_comm (a b : List ℕ) :
    sortedUnion a b = sortedUnion b a := by
  refine List.eq_of_perm_of_sorted ?_ (sortedUnion_sorted_le a b)
    (sortedUnion_sorted_le b a)
  exact (sortedUnion_perm_dedup a b).trans
    ((List.perm_append_comm.dedup).trans (sortedUnion_perm_dedup b a).symm)

theorem foldl_insert_of_none {P : ℕ → Prop} [DecidablePred P]
    (hP : ∀ i, ¬ P i) :
    ∀ l : List ℕ, l.foldl (fun s i => if P i then insert i s else s)
      (∅ : Finset ℕ) = ∅ := by
  intro l
  induction l with
  | nil => rfl
  | cons x l ih => simpa [hP x] using ih

theorem check_row_diff_self (r : List Val) : check_row_diff r r = (false, ∅) := by
  unfold check_row_diff
  have h := foldl_insert_of_none
    (P := fun i => normalize_val (r.getD i Val.none) ≠ normalize_val (r.getD i Val.none))
    (fun i => by simp) (List.range r.length)
  simp only [h]
  simp

theorem msgDiffIdxs_self (m : Message) : msgDiffIdxs m m = [] := by
  unfold msgDiffIdxs
  simp

theorem sigDiffIdxs_self (m : Message) (s : Signal) : sigDiffIdxs m m s s = [] := by
  unfold sigDiffIdxs
  simp

theorem sigsGet_eq_none {m : Message} {s : Str} :
    sigsGet m s = none ↔ s ∉ sigKeys m := by
  unfold sigsGet sigKeys
  rw [Option.map_eq_none', List.find?_eq_none]
  constructor
  · intro h hs
    rcases List.mem_map.mp hs with ⟨p, hp, rfl⟩
    have h2 := h p hp
    simp only [decide_eq_true_eq] at h2
    exact h2 trivial
  · intro h p hp
    simp only [decide_eq_true_eq]
    intro hps
    exact h (List.mem_map.mpr ⟨p, hp, hps⟩)

theorem sigsGet_isSome_of_mem {m : Message} {s : Str} (h : s ∈ sigKeys m) :
    (sigsGet m s).isSome := by
  cases hg : sigsGet m s with
  | none => exact absurd h (sigsGet_eq_none.mp hg)
  | some v => rfl

theorem catNewMsgsAt_symm (A B : DBCDatabase) (id : ℕ) :
    catNewMsgsAt A B id = catRemovedMsgsAt B A id := by
  unfold catNewMsgsAt catRemovedMsgsAt
  cases hA : msgsGet A id <;> cases hB : msgsGet B id <;> simp

theorem catNewSigsAt_symm (A B : DBCDatabase) (id : ℕ) :
    catNewSigsAt A B id = catRemovedSigsAt B A id := by
  unfold catNewSigsAt catRemovedSigsAt
  cases hA : msgsGet A id <;> cases hB : msgsGet B id
  · rfl
  · rfl
  · rfl
  case some.some om nm =>
    have hfg : (fun s => match sigsGet nm s, sigsGet om s with
        | some os, none => some ((nm, os) : Message × Signal)
        | _, _ => none)
        = (fun s => match sigsGet om s, sigsGet nm s with
        | none, some ns => some ((nm, ns) : Message × Signal)
        | _, _ => none) := by
      funext s
      cases sigsGet om s <;> cases sigsGet nm s <;> rfl
    show (pyFromKeys (sigKeys om ++ sigKeys nm)).filterMap _
        = (pyFromKeys (sigKeys nm ++ sigKeys om)).filterMap _
    rw [hfg]
    exact filterMap_pyFromKeys_swap _ (sigKeys om) (sigKeys nm)
      (by
        intro s hs hmem
        cases hos : sigsGet om s with
        | none => exact absurd (sigsGet_isSome_of_mem hmem) (by simp [hos])
        | some v =>
          rw [hos] at hs
          cases hnm : sigsGet nm s <;> rw [hnm] at hs <;> simp at hs)

/-- C3: for any two databases, the added (new) message list of `diff(A, B)`
equals the removed message list of `diff(B, A)` entity for entity, and the
same holds for the signal lists. -/
theorem diff_symmetry_added_removed (A B : DBCDatabase) :
    (categorize_changes A B).new_messages
      = (categorize_changes B A).removed_messages ∧
    (categorize_changes A B).new_signals
      = (categorize_changes B A).removed_signals := by
  unfold categorize_changes
  simp only
  rw [sortedUnion_comm (msgKeys B) (msgKeys A)]
  constructor
  · have h : catNewMsgsAt A B = catRemovedMsgsAt B A := by
      funext id
      exact catNewMsgsAt_symm A B id
    rw [h]
  · have h : catNewSigsAt A B = catRemovedSigsAt B A := by
      funext id
      exact catNewSigsAt_symm A B id
    rw [h]

/-- C4: `diff(A, A)` yields six empty category lists, and in the row-level
view every tuple has `has_diff = false` and an empty changed-column set. -/
theorem self_diff_identity (A : DBCDatabase) :
    categorize_changes A A = ⟨[], [], [], [], [], []⟩ ∧
    (compare_dbc_files A A).all
      (fun r => !r.has_diff && decide (r.diff_cols = ∅)) = true := by
  constructor
  · unfold categorize_changes
    have h1 : ∀ id, catNewMsgsAt A A id = [] := by
      intro id
      unfold catNewMsgsAt
      cases msgsGet A id <;> rfl
    have h2 : ∀ id, catRemovedMsgsAt A A id = [] := by
      intro id
      unfold catRemovedMsgsAt
      cases msgsGet A id <;> rfl
    have h3 : ∀ id, catModMsgsAt A A id = [] := by
      intro id
      unfold catModMsgsAt
      cases msgsGet A id with
      | none => rfl
      | some m => simp [msgDiffIdxs_self]
    have h4 : ∀ id, catNewSigsAt A A id = [] := by
      intro id
      unfold catNewSigsAt
      cases msgsGet A id with
      | none => rfl
      | some m =>
        apply filterMap_of_forall_none
        intro s _
        cases sigsGet m s <;> rfl
    have h5 : ∀ id, catRemovedSigsAt A A id = [] := by
      intro id
      unfold catRemovedSigsAt
      cases msgsGet A id with
      | none => rfl
      | some m =>
        apply filterMap_of_forall_none
        intro s _
        cases sigsGet m s <;> rfl
    have h6 : ∀ id, catModSigsAt A A id = [] := by
      intro id
      unfold catModSigsAt
      cases msgsGet A id with
      | none => rfl
      | some m =>
        apply filterMap_of_forall_none
        intro s _
        cases sigsGet m s with
        | none => rfl
        | some os => simp [sigDiffIdxs_self]
    simp only [Cats.mk.injEq]
    refine ⟨?_, ?_, ?_, ?_, ?_, ?_⟩
    · exact List.flatMap_eq_nil_iff.mpr (fun id _ => h1 id)
    · exact List.flatMap_eq_nil_iff.mpr (fun id _ => h2 id)
    · exact List.flatMap_eq_nil_iff.mpr (fun id _ => h3 id)
    · exact List.flatMap_eq_nil_iff.mpr (fun id _ => h4 id)
    · exact List.flatMap_eq_nil_iff.mpr (fun id _ => h5 id)
    · exact List.flatMap_eq_nil_iff.mpr (fun id _ => h6 id)
  · rw [List.all_eq_true]
    intro r hr
    rw [compare_dbc_files, List.mem_flatMap] at hr
    obtain ⟨id, _, hr⟩ := hr
    unfold rowsForId at hr
    cases hA : msgsGet A id with
    | none => simp [hA] at hr
    | some m =>
      rw [hA] at hr
      simp only at hr
      by_cases hsigs : pyFromKeys (sigKeys m ++ sigKeys m) = []
      · rw [if_pos hsigs] at hr
        simp only [List.mem_singleton] at hr
        subst hr
        simp [check_row_diff_self]
      · rw [if_neg hsigs] at hr
        rw [List.mem_filterMap] at hr
        obtain ⟨s, _, hs⟩ := hr
        cases hg : sigsGet m s with
        | none => rw [hg] at hs; simp at hs
        | some os =>
          rw [hg] at hs
          simp only [Option.some_inj] at hs
          subst hs
          simp [check_row_diff_self]

/-- C7: the union of message ids of the two inputs is iterated in strictly
ascending numeric order; the iterated list is determined by the set of ids
alone (not by declaration order), and it is exactly the list both the
row-level view and the categorized diff traverse. -/
theorem ordering_ascending_ids (old_db new_db : DBCDatabase) :
    List.Sorted (· < ·) (sortedUnion (msgKeys old_db) (msgKeys new_db)) ∧
    (sortedUnion (msgKeys old_db) (msgKeys new_db)).toFinset
      = (msgKeys old_db).toFinset ∪ (msgKeys new_db).toFinset ∧
    compare_dbc_files old_db new_db
      = (sortedUnion (msgKeys old_db) (msgKeys new_db)).flatMap
          (rowsForId old_db new_db) ∧
    (categorize_changes old_db new_db).removed_messages
      = (sortedUnion (msgKeys old_db) (msgKeys new_db)).flatMap
          (catRemovedMsgsAt old_db new_db) := by
  refine ⟨?_, ?_, ?_, ?_⟩
  · exact sortedUnion_sorted_lt _ _
  · exact sortedUnion_toFinset _ _
  · rfl
  · rfl

theorem msgsGet_some_mem_keys {db : DBCDatabase} {id : ℕ} {m : Message}
    (h : msgsGet db id = some m) : id ∈ msgKeys db := by
  unfold msgsGet at h
  rcases Option.map_eq_some'.mp h with ⟨p, hp, _⟩
  have h1 := List.mem_of_find?_eq_some hp
  have h2 := List.find?_some hp
  simp only [decide_eq_true_eq] at h2
  exact h2 ▸ List.mem_map.mpr ⟨p, h1, rfl⟩

theorem sigsGet_some_mem_keys {m : Message} {s : Str} {v : Signal}
    (h : sigsGet m s = some v) : s ∈ sigKeys m := by
  unfold sigsGet at h
  rcases Option.map_eq_some'.mp h with ⟨p, hp, _⟩
  have h1 := List.mem_of_find?_eq_some hp
  have h2 := List.find?_some hp
  simp only [decide_eq_true_eq] at h2
  exact h2 ▸ List.mem_map.mpr ⟨p, h1, rfl⟩

/-- C2 counterexample: two databases whose only message pair differs in the
message comment and in a signal offset — both are fields of the data model —
yet the categorized diff reports no modified message and no modified signal,
because `categorize_changes` only compares the summary-row fields. -/
theorem C2_counterexample :
    msgsGet dbC2old 1 = some msgC2old ∧ msgsGet dbC2new 1 = some msgC2new ∧
    msgC2old.comment ≠ msgC2new.comment ∧
    sigsGet msgC2old ['S'] = some sigC2old ∧
    sigsGet msgC2new ['S'] = some sigC2new ∧
    sigC2old.offset ≠ sigC2new.offset ∧
    (categorize_changes dbC2old dbC2new).modified_messages = [] ∧
    (categorize_changes dbC2old dbC2new).modified_signals = [] := by
  decide

/-- C2 (amended): an aligned message pair is classified modified exactly when
one of the eight summary-row fields (id, display name, dlc, signal-name list,
send type, cycle time, transmitter, receiver ECUs) differs after
normalization; an aligned signal pair exactly when one of the nine sliced
summary-row fields (start bit, length, start value, min, max, unit, factor,
value table, receivers) differs after normalization.  Fields outside these
rows (e.g. comments, offset, byte order, signedness, signal send type,
timeout) do not produce a modified classification. -/
theorem modified_iff_summary_row_changed (old_db new_db : DBCDatabase) (id : ℕ)
    (om nm : Message)
    (ho : msgsGet old_db id = some om) (hn : msgsGet new_db id = some nm) :
    ((∃ d, (om, nm, d) ∈ (categorize_changes old_db new_db).modified_messages) ↔
      ∃ i ∈ List.range (build_msg_summary_row om).length,
        normalize_val ((build_msg_summary_row om).getD i Val.none) ≠
        normalize_val ((build_msg_summary_row nm).getD i Val.none)) ∧
    (∀ (s : Str) (os ns : Signal),
      sigsGet om s = some os → sigsGet nm s = some ns →
      ((∃ d, (om, nm, os, ns, d) ∈ (categorize_changes old_db new_db).modified_signals) ↔
        ∃ i ∈ List.range ((build_sig_summary_row om os).drop 3).length,
          normalize_val (((build_sig_summary_row om os).drop 3).getD i Val.none) ≠
          normalize_val (((build_sig_summary_row nm ns).drop 3).getD i Val.none))) := by
  constructor
  · constructor
    · rintro ⟨d, hd⟩
      unfold categorize_changes at hd
      simp only at hd
      rw [List.mem_flatMap] at hd
      obtain ⟨id', _, hd⟩ := hd
      unfold catModMsgsAt at hd
      cases hA : msgsGet old_db id' <;> rw [hA] at hd
      · simp at hd
      case some om' =>
        cases hB : msgsGet new_db id' <;> rw [hB] at hd
        · simp at hd
        case some nm' =>
          simp only at hd
          by_cases hmt : msgDiffIdxs om' nm' = []
          · rw [if_pos hmt] at hd; simp at hd
          · rw [if_neg hmt] at hd
            simp only [List.mem_singleton, Prod.mk.injEq] at hd
            obtain ⟨h1, h2, h3⟩ := hd
            subst h1; subst h2; subst h3
            obtain ⟨i, hi⟩ := List.exists_mem_of_ne_nil _ hmt
            unfold msgDiffIdxs at hi
            rw [List.mem_filter] at hi
            exact ⟨i, hi.1, by simpa using hi.2⟩
    · rintro ⟨i, hir, hine⟩
      refine ⟨msgDiffIdxs om nm, ?_⟩
      unfold categorize_changes
      simp only
      rw [List.mem_flatMap]
      refine ⟨id, mem_sortedUnion.mpr (Or.inl (msgsGet_some_mem_keys ho)), ?_⟩
      unfold catModMsgsAt
      rw [ho, hn]
      simp only
      have hne : msgDiffIdxs om nm ≠ [] := by
        intro hnil
        have hmem : i ∈ msgDiffIdxs om nm := by
          unfold msgDiffIdxs
          rw [List.mem_filter]
          exact ⟨hir, by simpa using hine⟩
        rw [hnil] at hmem
        exact absurd hmem (List.not_mem_nil i)
      rw [if_neg hne]
      simp
  · intro s os ns hos hns
    constructor
    · rintro ⟨d, hd⟩
      unfold categorize_changes at hd
      simp only at hd
      rw [List.mem_flatMap] at hd
      obtain ⟨id', _, hd⟩ := hd
      unfold catModSigsAt at hd
      cases hA : msgsGet old_db id' <;> rw [hA] at hd
      · simp at hd
      case some om' =>
        cases hB : msgsGet new_db id' <;> rw [hB] at hd
        · simp at hd
        case some nm' =>
          simp only at hd
          rw [List.mem_filterMap] at hd
          obtain ⟨s', _, hs'⟩ := hd
          cases hA2 : sigsGet om' s' <;> rw [hA2] at hs'
          · simp at hs'
          case some os' =>
            cases hB2 : sigsGet nm' s' <;> rw [hB2] at hs'
            · simp at hs'
            case some ns' =>
              simp only at hs'
              by_cases hmt : sigDiffIdxs om' nm' os' ns' = []
              · rw [if_pos hmt] at hs'; simp at hs'
              · rw [if_neg hmt] at hs'
                simp only [Option.some_inj, Prod.mk.injEq] at hs'
                obtain ⟨h1, h2, h3, h4, h5⟩ := hs'
                subst h1; subst h2; subst h3; subst h4; subst h5
                obtain ⟨i, hi⟩ := List.exists_mem_of_ne_nil _ hmt
                unfold sigDiffIdxs at hi
                rw [List.mem_filter] at hi
                exact ⟨i, hi.1, by simpa using hi.2⟩
    · rintro ⟨i, hir, hine⟩
      refine ⟨sigDiffIdxs om nm os ns, ?_⟩
      unfold categorize_changes
      simp only
      rw [List.mem_flatMap]
      refine ⟨id, mem_sortedUnion.mpr (Or.inl (msgsGet_some_mem_keys ho)), ?_⟩
      unfold catModSigsAt
      rw [ho, hn]
      simp only
      rw [List.mem_filterMap]
      refine ⟨s, mem_pyFromKeys.mpr ?_, ?_⟩
      · rw [List.mem_append]
        exact Or.inl (sigsGet_some_mem_keys hos)
      · rw [hos, hns]
        simp only
        have hne : sigDiffIdxs om nm os ns ≠ [] := by
          intro hnil
          have hmem : i ∈ sigDiffIdxs om nm os ns := by
            unfold sigDiffIdxs
            rw [List.mem_filter]
            exact ⟨hir, by simpa using hine⟩
          rw [hnil] at hmem
          exact absurd hmem (List.not_mem_nil i)
        rw [if_neg hne]

/-- Witness for the amended C2 at a concrete input: a dlc change is one of
the summary-row fields, hence classified modified. -/
theorem modified_iff_summary_row_changed_witness :
    ∃ d, (msgW2old, msgW2new, d)
      ∈ (categorize_changes dbW2old dbW2new).modified_messages :=
  ((modified_iff_summary_row_changed dbW2old dbW2new 2 msgW2old msgW2new
    (by decide) (by decide)).1).mpr (by decide)

/-- C5: a message id present only in the old database is classified removed
together with each of its signals individually, and every row emitted for it
has `has_diff = true` with every per-side column index in the changed set;
symmetrically for an id present only in the new database. -/
theorem whole_message_cascade (old_db new_db : DBCDatabase) (id : ℕ) :
    (∀ om, msgsGet old_db id = some om → msgsGet new_db id = none →
      om ∈ (categorize_changes old_db new_db).removed_messages ∧
      (∀ p ∈ om.signals,
        (om, p.2) ∈ (categorize_changes old_db new_db).removed_signals) ∧
      rowsForId old_db new_db id ≠ [] ∧
      (∀ r ∈ rowsForId old_db new_db id,
        r.has_diff = true ∧ r.diff_cols = Finset.range NUM_COLS_PER_SIDE)) ∧
    (∀ nm, msgsGet old_db id = none → msgsGet new_db id = some nm →
      nm ∈ (categorize_changes old_db new_db).new_messages ∧
      (∀ p ∈ nm.signals,
        (nm, p.2) ∈ (categorize_changes old_db new_db).new_signals) ∧
      rowsForId old_db new_db id ≠ [] ∧
      (∀ r ∈ rowsForId old_db new_db id,
        r.has_diff = true ∧ r.diff_cols = Finset.range NUM_COLS_PER_SIDE)) := by
  constructor
  · intro om ho hn
    refine ⟨?_, ?_, ?_, ?_⟩
    · unfold categorize_changes
      simp only
      rw [List.mem_flatMap]
      refine ⟨id, mem_sortedUnion.mpr (Or.inl (msgsGet_some_mem_keys ho)), ?_⟩
      unfold catRemovedMsgsAt
      rw [ho, hn]
      simp
    · intro p hp
      unfold categorize_changes
      simp only
      rw [List.mem_flatMap]
      refine ⟨id, mem_sortedUnion.mpr (Or.inl (msgsGet_some_mem_keys ho)), ?_⟩
      unfold catRemovedSigsAt
      rw [ho, hn]
      exact List.mem_map.mpr ⟨p, hp, rfl⟩
    · unfold rowsForId
      rw [ho, hn]
      simp only
      by_cases hs : om.signals = []
      · rw [if_pos hs]; simp
      · rw [if_neg hs]
        intro hmap
        exact hs (List.map_eq_nil_iff.mp hmap)
    · intro r hr
      unfold rowsForId at hr
      rw [ho, hn] at hr
      simp only at hr
      by_cases hs : om.signals = []
      · rw [if_pos hs] at hr
        simp only [List.mem_singleton] at hr
        subst hr
        exact ⟨rfl, rfl⟩
      · rw [if_neg hs] at hr
        rw [List.mem_map] at hr
        obtain ⟨p, _, hp⟩ := hr
        subst hp
        exact ⟨rfl, rfl⟩
  · intro nm ho hn
    refine ⟨?_, ?_, ?_, ?_⟩
    · unfold categorize_changes
      simp only
      rw [List.mem_flatMap]
      refine ⟨id, mem_sortedUnion.mpr (Or.inr (msgsGet_some_mem_keys hn)), ?_⟩
      unfold catNewMsgsAt
      rw [ho, hn]
      simp
    · intro p hp
      unfold categorize_changes
      simp only
      rw [List.mem_flatMap]
      refine ⟨id, mem_sortedUnion.mpr (Or.inr (msgsGet_some_mem_keys hn)), ?_⟩
      unfold catNewSigsAt
      rw [ho, hn]
      exact List.mem_map.mpr ⟨p, hp, rfl⟩
    · unfold rowsForId
      rw [ho, hn]
      simp only
      by_cases hs : nm.signals = []
      · rw [if_pos hs]; simp
      · rw [if_neg hs]
        intro hmap
        exact hs (List.map_eq_nil_iff.mp hmap)
    · intro r hr
      unfold rowsForId at hr
      rw [ho, hn] at hr
      simp only at hr
      by_cases hs : nm.signals = []
      · rw [if_pos hs] at hr
        simp only [List.mem_singleton] at hr
        subst hr
        exact ⟨rfl, rfl⟩
      · rw [if_neg hs] at hr
        rw [List.mem_map] at hr
        obtain ⟨p, _, hp⟩ := hr
        subst hp
        exact ⟨rfl, rfl⟩

/-- Witness for C5 at a concrete input: message 0x100 with two signals,
present only in the old database; both directions of the theorem exercised. -/
theorem whole_message_cascade_witness :
    (msgW5 ∈ (categorize_changes dbW5old dbW5new).removed_messages ∧
      (msgW5, sigW5a) ∈ (categorize_changes dbW5old dbW5new).removed_signals ∧
      (msgW5, sigW5b) ∈ (categorize_changes dbW5old dbW5new).removed_signals) ∧
    msgW5 ∈ (categorize_changes dbW5new dbW5old).new_messages := by
  have h1 := (whole_message_cascade dbW5old dbW5new 256).1 msgW5
    (by decide) (by decide)
  have h2 := (whole_message_cascade dbW5new dbW5old 256).2 msgW5
    (by decide) (by decide)
  exact ⟨⟨h1.1, h1.2.1 (['A'], sigW5a) (by decide),
    h1.2.1 (['B'], sigW5b) (by decide)⟩, h2.1⟩

/-- C10: a message with no signal lines present in both databases yields
exactly one row, whose signal slots on both sides are all `None`; when the
two message versions are identical that row reports no difference. -/
theorem zero_signal_message_row (old_db new_db : DBCDatabase) (id : ℕ)
    (om nm : Message)
    (ho : msgsGet old_db id = some om) (hn : msgsGet new_db id = some nm)
    (hso : om.signals = []) (hsn : nm.signals = []) :
    rowsForId old_db new_db id
      = [⟨build_empty_msg_row om, build_empty_msg_row nm,
          (check_row_diff (build_empty_msg_row om) (build_empty_msg_row nm)).1,
          (check_row_diff (build_empty_msg_row om) (build_empty_msg_row nm)).2⟩] ∧
    (build_empty_msg_row om).drop NUM_MSG_COLS
      = List.replicate NUM_SIG_COLS Val.none ∧
    (build_empty_msg_row nm).drop NUM_MSG_COLS
      = List.replicate NUM_SIG_COLS Val.none ∧
    (om = nm → ∀ r ∈ rowsForId old_db new_db id,
      r.has_diff = false ∧ r.diff_cols = ∅) := by
  have hrows : rowsForId old_db new_db id
      = [⟨build_empty_msg_row om, build_empty_msg_row nm,
          (check_row_diff (build_empty_msg_row om) (build_empty_msg_row nm)).1,
          (check_row_diff (build_empty_msg_row om) (build_empty_msg_row nm)).2⟩] := by
    unfold rowsForId
    rw [ho, hn]
    simp only
    have hkeys : pyFromKeys (sigKeys om ++ sigKeys nm) = [] := by
      unfold sigKeys
      rw [hso, hsn]
      rfl
    rw [if_pos hkeys]
  refine ⟨hrows, ?_, ?_, ?_⟩
  · rfl
  · rfl
  · intro hmn r hr
    rw [hrows] at hr
    simp only [List.mem_singleton] at hr
    subst hr
    subst hmn
    simp [check_row_diff_self]

/-- Witness for C10 at a concrete input: identical zero-signal messages. -/
theorem zero_signal_message_row_witness :
    rowsForId dbW10 dbW10 3
      = [⟨build_empty_msg_row msgW10, build_empty_msg_row msgW10,
          (check_row_diff (build_empty_msg_row msgW10) (build_empty_msg_row msgW10)).1,
          (check_row_diff (build_empty_msg_row msgW10) (build_empty_msg_row msgW10)).2⟩] ∧
    (∀ r ∈ rowsForId dbW10 dbW10 3, r.has_diff = false ∧ r.diff_cols = ∅) := by
  have h := zero_signal_message_row dbW10 dbW10 3 msgW10 msgW10
    (by decide) (by decide) (by decide) (by decide)
  exact ⟨h.1, h.2.2.2 rfl⟩

theorem baseStep_ok (st : BaseState) (l : List Char)
    (h : (sigMatch? l).all sigNumericsOk = true) :
    ∃ st', baseStep (Except.ok st) l = Except.ok st' := by
  unfold baseStep
  cases hm : msgMatch? l with
  | some v => exact ⟨_, rfl⟩
  | none =>
    simp only
    cases hc : st.cur with
    | none => exact ⟨st, rfl⟩
    | some m =>
      simp only
      cases hs : sigMatch? l with
      | none => exact ⟨st, rfl⟩
      | some g =>
        simp only
        rw [hs] at h
        unfold sigNumericsOk at h
        simp only [Option.all_some, Bool.and_eq_true, Option.isSome_iff_exists] at h
        obtain ⟨⟨⟨⟨fa, hfa⟩, off, hoff⟩, mn, hmn⟩, mx, hmx⟩ := h
        rw [hfa, hoff, hmn, hmx]
        exact ⟨_, rfl⟩

theorem foldl_baseStep_ok (doc : List (List Char)) :
    ∀ st : BaseState, (∀ l ∈ doc, (sigMatch? l).all sigNumericsOk = true) →
      ∃ st', doc.foldl baseStep (Except.ok st) = Except.ok st' := by
  induction doc with
  | nil => intro st _; exact ⟨st, rfl⟩
  | cons l doc ih =>
    intro st h
    rw [List.foldl_cons]
    obtain ⟨st1, h1⟩ := baseStep_ok st l (h l (by simp))
    rw [h1]
    exact ih st1 (fun l2 hl2 => h l2 (by simp [hl2]))

/-- C1 counterexample: a document containing a signal record that matches
the signal grammar but whose factor does not parse as a number makes
`parse_dbc` raise (return an error), losing the whole document — it is not
the case that only that record is skipped. -/
theorem C1_counterexample :
    ((sigMatch? (" SG_ S : 0|8@1+ (abc,0) [0|1] \"\" XXX".data)).map
      (fun g => (pyFloat? g.factorS).isNone)) = some true ∧
    parse_dbc docC1 = Except.error () := by
  constructor
  · decide
  · rfl

/-- C1 (amended): parsing is total on every document whose signal
declarations all carry parseable numeric fields — malformed or unmatched
lines are simply ignored; but a numeric parse failure on a matched signal
record aborts the entire parse with an exception instead of skipping just
that record. -/
theorem parse_total_unless_numeric_failure (doc : List (List Char))
    (h : doc.all (fun l => (sigMatch? l).all sigNumericsOk) = true) :
    ∃ db, parse_dbc doc = Except.ok db := by
  have h' : ∀ l ∈ doc, (sigMatch? l).all sigNumericsOk = true :=
    fun l hl => by
      have := List.all_eq_true.mp h l hl
      simpa using this
  obtain ⟨st, hst⟩ := foldl_baseStep_ok doc ⟨[], none⟩ h'
  unfold parse_dbc basePass
  rw [hst]
  exact ⟨_, rfl⟩

/-- Witness for the amended C1: a concrete well-formed document (including a
line matching no record shape) parses successfully. -/
theorem parse_total_unless_numeric_failure_witness :
    ∃ db, parse_dbc docC1ok = Except.ok db :=
  parse_total_unless_numeric_failure docC1ok (by decide)

theorem lastVal_foldl_acc {κ α : Type} [DecidableEq κ] (k : κ) :
    ∀ (ms : List (κ × α)) (acc : Option α),
      ms.foldl (fun acc p => if p.1 = k then some p.2 else acc) acc
        = match lastVal ms k with
          | some v => some v
          | none => acc := by
  intro ms
  induction ms with
  | nil => intro acc; rfl
  | cons q ms ih =>
    intro acc
    unfold lastVal
    rw [List.foldl_cons, List.foldl_cons, ih]
    by_cases hq : q.1 = k
    · rw [if_pos hq, if_pos hq, ih (some q.2)]
      cases lastVal ms k
      all_goals rfl
    · rw [if_neg hq, if_neg hq, ih none]
      cases lastVal ms k
      all_goals rfl

theorem lastVal_append_one {κ α : Type} [DecidableEq κ] (ms : List (κ × α))
    (p : κ × α) (k : κ) :
    lastVal (ms ++ [p]) k = if p.1 = k then some p.2 else lastVal ms k := by
  unfold lastVal
  rw [List.foldl_append, List.foldl_cons, List.foldl_nil]

theorem lastVal_map_replace_other {κ α : Type} [DecidableEq κ]
    (k k' : κ) (v : α) (hkk : k ≠ k') :
    ∀ (d : List (κ × α)),
      lastVal (d.map (fun p => if p.1 = k' then (k', v) else p)) k = lastVal d k := by
  intro d
  induction d using List.reverseRecOn with
  | nil => rfl
  | append_singleton d p ih =>
    rw [List.map_append, List.map_singleton, lastVal_append_one, lastVal_append_one, ih]
    by_cases hp : p.1 = k'
    · rw [if_pos hp]
      have h1 : (k' = k) = False := by simp [Ne.symm hkk]
      have h2 : (p.1 = k) = False := by simp [hp, Ne.symm hkk]
      simp only [h1, h2, if_false]
    · rw [if_neg hp]

theorem lastVal_map_replace_same {κ α : Type} [DecidableEq κ]
    (k : κ) (v : α) :
    ∀ (d : List (κ × α)), d.any (fun p => decide (p.1 = k)) = true →
      lastVal (d.map (fun p => if p.1 = k then (k, v) else p)) k = some v := by
  intro d
  induction d using List.reverseRecOn with
  | nil => intro h; simp at h
  | append_singleton d p ih =>
    intro h
    rw [List.map_append, List.map_singleton, lastVal_append_one]
    by_cases hp : p.1 = k
    · rw [if_pos hp]
      simp
    · rw [if_neg hp]
      simp only [if_neg hp]
      apply ih
      rw [List.any_append] at h
      simp only [List.any_cons, List.any_nil, Bool.or_false, Bool.or_eq_true] at h
      rcases h with h | h
      · exact h
      · exact absurd (by simpa using h) hp

theorem lastVal_odInsert {κ α : Type} [DecidableEq κ] (d : List (κ × α))
    (k' : κ) (v : α) (k : κ) :
    lastVal (odInsert d k' v) k = if k = k' then some v else lastVal d k := by
  unfold odInsert
  by_cases hany : d.any (fun p => decide (p.1 = k')) = true
  · rw [if_pos hany]
    by_cases hkk : k = k'
    · subst hkk
      rw [if_pos rfl]
      exact lastVal_map_replace_same k v d hany
    · rw [if_neg hkk]
      exact lastVal_map_replace_other k k' v hkk d
  · rw [if_neg hany, lastVal_append_one]
    by_cases hkk : k = k'
    · rw [if_pos (hkk.symm), if_pos hkk]
    · rw [if_neg (fun h => hkk h.symm), if_neg hkk]

theorem lastVal_dictInsertAll {κ α : Type} [DecidableEq κ] (ms : List (κ × α)) (k : κ) :
    lastVal (dictInsertAll ms) k = lastVal ms k := by
  induction ms using List.reverseRecOn with
  | nil => rfl
  | append_singleton ms p ih =>
    unfold dictInsertAll
    rw [List.foldl_append, List.foldl_cons, List.foldl_nil]
    show lastVal (odInsert (dictInsertAll ms) p.1 p.2) k = _
    rw [lastVal_odInsert, lastVal_append_one, ih]
    by_cases hp : k = p.1
    · rw [if_pos hp, if_pos hp.symm]
    · rw [if_neg hp, if_neg (fun h => hp h.symm)]

theorem foldl_odUpdate_eq_map {α : Type} (F : α → Message → Message)
    (hFF : ∀ v1 v2 m, F v2 (F v1 m) = F v2 m) :
    ∀ (items : List (ℕ × α)) (msgs : List (ℕ × Message)),
      items.foldl (fun ms p => odUpdate ms p.1 (F p.2)) msgs
        = msgs.map (fun q => (q.1,
            match lastVal items q.1 with
            | some v => F v q.2
            | none => q.2)) := by
  intro items
  induction items using List.reverseRecOn with
  | nil =>
    intro msgs
    have h : (fun q : ℕ × Message => (q.1,
        match lastVal ([] : List (ℕ × α)) q.1 with
        | some v => F v q.2
        | none => q.2)) = id := by
      funext q
      rfl
    rw [h, List.map_id]
    rfl
  | append_singleton items p ih =>
    intro msgs
    rw [List.foldl_append, List.foldl_cons, List.foldl_nil, ih]
    unfold odUpdate
    rw [List.map_map]
    apply List.map_congr_left
    intro q _
    simp only [Function.comp]
    by_cases hk : q.1 = p.1
    · rw [if_pos hk, lastVal_append_one, if_pos hk.symm]
      cases lastVal items q.1 with
      | none => rfl
      | some v => exact congrArg _ (hFF v p.2 q.2)
    · rw [if_neg hk, lastVal_append_one, if_neg (fun h => hk h.symm)]

theorem foldl_odUpdateSig_eq_map {α : Type} (G : α → Signal → Signal)
    (hGG : ∀ v1 v2 s, G v2 (G v1 s) = G v2 s) :
    ∀ (items : List ((ℕ × Str) × α)) (msgs : List (ℕ × Message)),
      items.foldl (fun ms p => odUpdateSig ms p.1.1 p.1.2 (G p.2)) msgs
        = msgs.map (fun q => (q.1, { q.2 with signals :=
            (q.2.signals.map (fun r => (r.1,
              match lastVal items (q.1, r.1) with
              | some v => G v r.2
              | none => r.2))) })) := by
  intro items
  induction items using List.reverseRecOn with
  | nil =>
    intro msgs
    have h : (fun q : ℕ × Message => (q.1, { q.2 with signals :=
        (q.2.signals.map (fun r => (r.1,
          match lastVal ([] : List ((ℕ × Str) × α)) (q.1, r.1) with
          | some v => G v r.2
          | none => r.2))) })) = id := by
      funext q
      show (q.1, { q.2 with signals := (q.2.signals.map (fun r => (r.1, r.2))) }) = q
      rw [show (fun r : Str × Signal => (r.1, r.2)) = id from rfl, List.map_id]
    rw [h, List.map_id]
    rfl
  | append_singleton items p ih =>
    intro msgs
    rw [List.foldl_append, List.foldl_cons, List.foldl_nil, ih]
    unfold odUpdateSig odUpdate
    rw [List.map_map]
    apply List.map_congr_left
    intro q _
    simp only [Function.comp]
    by_cases hk : q.1 = p.1.1
    · rw [if_pos hk]
      apply congrArg (fun sgs => ((q.1 : ℕ), ({ q.2 with signals := sgs } : Message)))
      rw [List.map_map]
      apply List.map_congr_left
      intro r _
      simp only [Function.comp]
      by_cases hr : r.1 = p.1.2
      · rw [if_pos hr, lastVal_append_one,
          if_pos (show p.1 = (q.1, r.1) from by
            rw [show ((q.1 : ℕ), (r.1 : Str)) = (p.1.1, p.1.2) from by rw [← hk, ← hr]])]
        cases lastVal items (q.1, r.1) with
        | none => rfl
        | some v => exact congrArg _ (hGG v p.2 r.2)
      · rw [if_neg hr, lastVal_append_one,
          if_neg (fun h => hr (by rw [show r.1 = ((q.1 : ℕ), (r.1 : Str)).2 from rfl, ← h]))]
    · rw [if_neg hk]
      apply congrArg (fun sgs => ((q.1 : ℕ), ({ q.2 with signals := sgs } : Message)))
      apply List.map_congr_left
      intro r _
      rw [lastVal_append_one,
        if_neg (fun h => hk (by rw [show q.1 = ((q.1 : ℕ), (r.1 : Str)).1 from rfl, ← h]))]

theorem msgIntAttrSpecs_overwrite :
    ∀ spec ∈ msgIntAttrSpecs, ∀ v1 v2 m, spec.set v2 (spec.set v1 m) = spec.set v2 m := by
  intro spec hspec
  fin_cases hspec <;> (intro v1 v2 m; rfl)

theorem sigIntAttrSpecs_overwrite :
    ∀ spec ∈ sigIntAttrSpecs, ∀ v1 v2 s, spec.set v2 (spec.set v1 s) = spec.set v2 s := by
  intro spec hspec
  fin_cases hspec <;> (intro v1 v2 s; rfl)

theorem sigStrAttrSpecs_overwrite :
    ∀ spec ∈ sigStrAttrSpecs, ∀ v1 v2 s, spec.set v2 (spec.set v1 s) = spec.set v2 s := by
  intro spec hspec
  fin_cases hspec <;> (intro v1 v2 s; rfl)

theorem applyMsgIntAttr_eq (doc : List (List Char)) (spec : MsgAttrSpec)
    (hFF : ∀ v1 v2 m, spec.set v2 (spec.set v1 m) = spec.set v2 m)
    (msgs : List (ℕ × Message)) :
    applyMsgIntAttr doc msgs spec = msgs.map (fun q => (q.1,
      match lastVal (doc.filterMap (baMsgIntMatch? spec.attr)) q.1 with
      | some v => spec.set v q.2
      | none => q.2)) := by
  unfold applyMsgIntAttr
  refine (foldl_odUpdate_eq_map spec.set hFF _ msgs).trans ?_
  apply List.map_congr_left
  intro q _
  rw [lastVal_dictInsertAll]
  cases lastVal (doc.filterMap (baMsgIntMatch? spec.attr)) q.1
  all_goals rfl

theorem applyMsgLongSym_eq (doc : List (List Char)) (msgs : List (ℕ × Message)) :
    applyMsgLongSym doc msgs = msgs.map (fun q => (q.1,
      match lastVal (doc.filterMap
          (baMsgStrMatch? ("SystemMessageLongSymbol".data))) q.1 with
      | some v => { q.2 with long_symbol := v }
      | none => q.2)) := by
  unfold applyMsgLongSym
  refine (foldl_odUpdate_eq_map (fun v m => { m with long_symbol := v })
    (fun v1 v2 m => rfl) _ msgs).trans ?_
  apply List.map_congr_left
  intro q _
  cases lastVal (doc.filterMap (baMsgStrMatch? ("SystemMessageLongSymbol".data))) q.1
  all_goals rfl

theorem applyCmMsg_eq (doc : List (List Char)) (msgs : List (ℕ × Message)) :
    applyCmMsg doc msgs = msgs.map (fun q => (q.1,
      match lastVal (doc.filterMap cmMsgMatch?) q.1 with
      | some c => { q.2 with comment := c }
      | none => q.2)) := by
  unfold applyCmMsg
  refine (foldl_odUpdate_eq_map (fun c m => { m with comment := c })
    (fun v1 v2 m => rfl) _ msgs).trans ?_
  apply List.map_congr_left
  intro q _
  cases lastVal (doc.filterMap cmMsgMatch?) q.1
  all_goals rfl

theorem applySigIntAttr_eq (doc : List (List Char)) (spec : SigAttrSpec)
    (hGG : ∀ v1 v2 s, spec.set v2 (spec.set v1 s) = spec.set v2 s)
    (msgs : List (ℕ × Message)) :
    applySigIntAttr doc msgs spec = msgs.map (fun q => (q.1, { q.2 with signals :=
      (q.2.signals.map (fun r => (r.1,
        match lastVal (doc.filterMap (baSigIntMatch? spec.attr)) (q.1, r.1) with
        | some v => spec.set v r.2
        | none => r.2))) })) := by
  unfold applySigIntAttr
  refine (foldl_odUpdateSig_eq_map spec.set hGG _ msgs).trans ?_
  apply List.map_congr_left
  intro q _
  apply congrArg (fun sgs => ((q.1 : ℕ), ({ q.2 with signals := sgs } : Message)))
  apply List.map_congr_left
  intro r _
  rw [lastVal_dictInsertAll]
  cases lastVal (doc.filterMap (baSigIntMatch? spec.attr)) (q.1, r.1)
  all_goals rfl

theorem applySigStrAttr_eq (doc : List (List Char)) (spec : SigStrAttrSpec)
    (hGG : ∀ v1 v2 s, spec.set v2 (spec.set v1 s) = spec.set v2 s)
    (msgs : List (ℕ × Message)) :
    applySigStrAttr doc msgs spec = msgs.map (fun q => (q.1, { q.2 with signals :=
      (q.2.signals.map (fun r => (r.1,
        match lastVal (doc.filterMap (baSigStrMatch? spec.attr)) (q.1, r.1) with
        | some v => spec.set v r.2
        | none => r.2))) })) := by
  unfold applySigStrAttr
  refine (foldl_odUpdateSig_eq_map spec.set hGG _ msgs).trans ?_
  apply List.map_congr_left
  intro q _
  apply congrArg (fun sgs => ((q.1 : ℕ), ({ q.2 with signals := sgs } : Message)))
  apply List.map_congr_left
  intro r _
  rw [lastVal_dictInsertAll]
  cases lastVal (doc.filterMap (baSigStrMatch? spec.attr)) (q.1, r.1)
  all_goals rfl

theorem applyVal_eq (doc : List (List Char)) (msgs : List (ℕ × Message)) :
    applyVal doc msgs = msgs.map (fun q => (q.1, { q.2 with signals :=
      (q.2.signals.map (fun r => (r.1,
        match lastVal ((doc.filterMap valMatch?).map
            (fun t => ((t.1, t.2.1), t.2.2))) (q.1, r.1) with
        | some payload => { r.2 with value_desc := descOfValPayload payload }
        | none => r.2))) })) := by
  unfold applyVal
  rw [← List.foldl_map (fun t : ℕ × List Char × List Char => ((t.1, t.2.1), t.2.2))
    (fun ms p => odUpdateSig ms p.1.1 p.1.2
      (fun s => { s with value_desc := descOfValPayload p.2 }))]
  refine (foldl_odUpdateSig_eq_map
    (fun payload s => { s with value_desc := descOfValPayload payload })
    (fun v1 v2 s => rfl) _ msgs).trans ?_
  apply List.map_congr_left
  intro q _
  apply congrArg (fun sgs => ((q.1 : ℕ), ({ q.2 with signals := sgs } : Message)))
  apply List.map_congr_left
  intro r _
  cases lastVal ((doc.filterMap valMatch?).map (fun t => ((t.1, t.2.1), t.2.2))) (q.1, r.1)
  all_goals rfl

theorem applyCmSig_eq (doc : List (List Char)) (msgs : List (ℕ × Message)) :
    applyCmSig doc msgs = msgs.map (fun q => (q.1, { q.2 with signals :=
      (q.2.signals.map (fun r => (r.1,
        match lastVal ((doc.filterMap cmSigMatch?).map
            (fun t => ((t.1, t.2.1), t.2.2))) (q.1, r.1) with
        | some c => { r.2 with comment := c }
        | none => r.2))) })) := by
  unfold applyCmSig
  rw [← List.foldl_map (fun t : ℕ × List Char × List Char => ((t.1, t.2.1), t.2.2))
    (fun ms p => odUpdateSig ms p.1.1 p.1.2 (fun s => { s with comment := p.2 }))]
  refine (foldl_odUpdateSig_eq_map (fun c s => { s with comment := c })
    (fun v1 v2 s => rfl) _ msgs).trans ?_
  apply List.map_congr_left
  intro q _
  apply congrArg (fun sgs => ((q.1 : ℕ), ({ q.2 with signals := sgs } : Message)))
  apply List.map_congr_left
  intro r _
  cases lastVal ((doc.filterMap cmSigMatch?).map (fun t => ((t.1, t.2.1), t.2.2))) (q.1, r.1)
  all_goals rfl

theorem foldl_congr_mem {β γ : Type} :
    ∀ (l : List γ) (f g : β → γ → β) (a : β),
      (∀ b, ∀ x ∈ l, f b x = g b x) → l.foldl f a = l.foldl g a := by
  intro l
  induction l with
  | nil => intro f g a _; rfl
  | cons x l ih =>
    intro f g a h
    rw [List.foldl_cons, List.foldl_cons, h a x (by simp)]
    exact ih f g _ (fun b y hy => h b y (by simp [hy]))

theorem foldl_map_msg_compose {σ : Type} (φ : σ → ℕ → Message → Message) :
    ∀ (specs : List σ) (msgs : List (ℕ × Message)),
      specs.foldl (fun ms spec => ms.map (fun q => (q.1, φ spec q.1 q.2))) msgs
        = msgs.map (fun q => (q.1, specs.foldl (fun m spec => φ spec q.1 m) q.2)) := by
  intro specs
  induction specs with
  | nil =>
    intro msgs
    symm
    calc msgs.map (fun q => (q.1, List.foldl (fun m spec => φ spec q.1 m) q.2 []))
        = msgs.map id := List.map_congr_left (fun q _ => rfl)
      _ = msgs := List.map_id msgs
  | cons s rest ih =>
    intro msgs
    rw [List.foldl_cons, ih, List.map_map]
    apply List.map_congr_left
    intro q _
    rfl

theorem foldl_map_sig_compose {σ : Type} (ψ : σ → ℕ → Str → Signal → Signal) :
    ∀ (specs : List σ) (msgs : List (ℕ × Message)),
      specs.foldl (fun ms spec => ms.map (fun q => (q.1, { q.2 with signals :=
          (q.2.signals.map (fun r => (r.1, ψ spec q.1 r.1 r.2))) }))) msgs
        = msgs.map (fun q => (q.1, { q.2 with signals :=
            (q.2.signals.map (fun r => (r.1,
              specs.foldl (fun s spec => ψ spec q.1 r.1 s) r.2))) })) := by
  intro specs
  induction specs with
  | nil =>
    intro msgs
    symm
    have h : ∀ q : ℕ × Message,
        ((q.1 : ℕ), ({ q.2 with signals := (q.2.signals.map (fun r => (r.1,
          List.foldl (fun s spec => ψ spec q.1 r.1 s) r.2 ([] : List σ)))) } : Message))
          = id q := by
      intro q
      exact congrArg (fun sgs => ((q.1 : ℕ), ({ q.2 with signals := sgs } : Message)))
        (List.map_id q.2.signals)
    calc msgs.map (fun q => (q.1, { q.2 with signals :=
          (q.2.signals.map (fun r => (r.1,
            List.foldl (fun s spec => ψ spec q.1 r.1 s) r.2 ([] : List σ)))) }))
        = msgs.map id := List.map_congr_left (fun q _ => h q)
      _ = msgs := List.map_id msgs
  | cons s rest ih =>
    intro msgs
    rw [List.foldl_cons, ih, List.map_map]
    apply List.map_congr_left
    intro q _
    simp only [Function.comp]
    apply congrArg (fun sgs => ((q.1 : ℕ), ({ q.2 with signals := sgs } : Message)))
    rw [List.map_map]
    apply List.map_congr_left
    intro r _
    rfl

theorem applyMsgIntAttrs_eq (doc : List (List Char)) (msgs : List (ℕ × Message)) :
    applyMsgIntAttrs doc msgs
      = msgs.map (fun q => (q.1, msgIntAttrEntry doc q.1 q.2)) := by
  unfold applyMsgIntAttrs
  rw [foldl_congr_mem msgIntAttrSpecs (applyMsgIntAttr doc)
    (fun ms spec => ms.map (fun q => (q.1,
      match lastVal (doc.filterMap (baMsgIntMatch? spec.attr)) q.1 with
      | some v => spec.set v q.2
      | none => q.2))) msgs
    (fun ms spec hspec =>
      applyMsgIntAttr_eq doc spec (msgIntAttrSpecs_overwrite spec hspec) ms)]
  rw [foldl_map_msg_compose (fun spec k m =>
    match lastVal (doc.filterMap (baMsgIntMatch? spec.attr)) k with
    | some v => spec.set v m
    | none => m) msgIntAttrSpecs msgs]
  exact List.map_congr_left (fun q _ => rfl)

theorem applySigIntAttrs_eq (doc : List (List Char)) (msgs : List (ℕ × Message)) :
    applySigIntAttrs doc msgs
      = msgs.map (fun q => (q.1, ovlSigInt doc q.1 q.2)) := by
  unfold applySigIntAttrs
  rw [foldl_congr_mem sigIntAttrSpecs (applySigIntAttr doc)
    (fun ms spec => ms.map (fun q => (q.1, { q.2 with signals :=
      (q.2.signals.map (fun r => (r.1,
        match lastVal (doc.filterMap (baSigIntMatch? spec.attr)) (q.1, r.1) with
        | some v => spec.set v r.2
        | none => r.2))) }))) msgs
    (fun ms spec hspec =>
      applySigIntAttr_eq doc spec (sigIntAttrSpecs_overwrite spec hspec) ms)]
  rw [foldl_map_sig_compose (fun spec k name s =>
    match lastVal (doc.filterMap (baSigIntMatch? spec.attr)) (k, name) with
    | some v => spec.set v s
    | none => s) sigIntAttrSpecs msgs]
  exact List.map_congr_left (fun q _ => rfl)

theorem applySigStrAttrs_eq (doc : List (List Char)) (msgs : List (ℕ × Message)) :
    applySigStrAttrs doc msgs
      = msgs.map (fun q => (q.1, ovlSigStr doc q.1 q.2)) := by
  unfold applySigStrAttrs
  rw [foldl_congr_mem sigStrAttrSpecs (applySigStrAttr doc)
    (fun ms spec => ms.map (fun q => (q.1, { q.2 with signals :=
      (q.2.signals.map (fun r => (r.1,
        match lastVal (doc.filterMap (baSigStrMatch? spec.attr)) (q.1, r.1) with
        | some v => spec.set v r.2
        | none => r.2))) }))) msgs
    (fun ms spec hspec =>
      applySigStrAttr_eq doc spec (sigStrAttrSpecs_overwrite spec hspec) ms)]
  rw [foldl_map_sig_compose (fun spec k name s =>
    match lastVal (doc.filterMap (baSigStrMatch? spec.attr)) (k, name) with
    | some v => spec.set v s
    | none => s) sigStrAttrSpecs msgs]
  exact List.map_congr_left (fun q _ => rfl)

theorem sig_stages_collapse (doc : List (List Char)) (k : ℕ) (m : Message) :
    ovlCmSig doc k (ovlVal doc k (ovlSigStr doc k (ovlSigInt doc k m)))
      = { m with signals :=
          (m.signals.map (fun r => (r.1, sigAttrEntrySig doc k r.1 r.2))) } := by
  show ({ m with signals :=
    ((((m.signals.map (fun r => (r.1,
        sigIntAttrSpecs.foldl (fun s spec =>
          match lastVal (doc.filterMap (baSigIntMatch? spec.attr)) (k, r.1) with
          | some v => spec.set v s
          | none => s) r.2))).map (fun r => (r.1,
        sigStrAttrSpecs.foldl (fun s spec =>
          match lastVal (doc.filterMap (baSigStrMatch? spec.attr)) (k, r.1) with
          | some v => spec.set v s
          | none => s) r.2))).map (fun r => (r.1,
        match lastVal ((doc.filterMap valMatch?).map
            (fun t => ((t.1, t.2.1), t.2.2))) (k, r.1) with
        | some payload => { r.2 with value_desc := descOfValPayload payload }
        | none => r.2))).map (fun r => (r.1,
        match lastVal ((doc.filterMap cmSigMatch?).map
            (fun t => ((t.1, t.2.1), t.2.2))) (k, r.1) with
        | some c => { r.2 with comment := c }
        | none => r.2))) } : Message) = _
  rw [List.map_map, List.map_map, List.map_map]
  apply congrArg (fun sgs => ({ m with signals := sgs } : Message))
  apply List.map_congr_left
  intro r _
  rfl

theorem overlayMsg_decompose (doc : List (List Char)) (k : ℕ) (m : Message) :
    ovlCmMsg doc k (ovlCmSig doc k (ovlVal doc k (ovlSigStr doc k (ovlSigInt doc k
      (ovlLongSym doc k (msgIntAttrEntry doc k m))))))
      = overlayMsg doc k m := by
  have h := sig_stages_collapse doc k (ovlLongSym doc k (msgIntAttrEntry doc k m))
  have h2 : ({ ovlLongSym doc k (msgIntAttrEntry doc k m) with signals :=
      ((ovlLongSym doc k (msgIntAttrEntry doc k m)).signals.map
        (fun r => (r.1, sigAttrEntrySig doc k r.1 r.2))) } : Message)
      = (match lastVal (doc.filterMap
          (baMsgStrMatch? ("SystemMessageLongSymbol".data))) k with
        | some v => ({ { msgIntAttrEntry doc k m with long_symbol := v } with signals :=
            (({ msgIntAttrEntry doc k m with long_symbol := v } : Message).signals.map
              (fun r => (r.1, sigAttrEntrySig doc k r.1 r.2))) } : Message)
        | none => { msgIntAttrEntry doc k m with signals :=
            ((msgIntAttrEntry doc k m).signals.map
              (fun r => (r.1, sigAttrEntrySig doc k r.1 r.2))) }) := by
    unfold ovlLongSym
    cases lastVal (doc.filterMap (baMsgStrMatch? ("SystemMessageLongSymbol".data))) k
    all_goals rfl
  rw [h, h2]
  unfold overlayMsg ovlCmMsg
  cases lastVal (doc.filterMap cmMsgMatch?) k with
  | none =>
    cases lastVal (doc.filterMap (baMsgStrMatch? ("SystemMessageLongSymbol".data))) k
    all_goals rfl
  | some c =>
    cases lastVal (doc.filterMap (baMsgStrMatch? ("SystemMessageLongSymbol".data))) k
    all_goals rfl

theorem parse_dbc_ok_shape (doc : List (List Char)) (msgs0 : List (ℕ × Message))
    (hbase : basePass doc = Except.ok msgs0) :
    parse_dbc doc = Except.ok
      { messages := msgs0.map (fun q => (q.1, overlayMsg doc q.1 q.2)),
        nodes := (match doc.findSome? buMatch? with
          | some r => splitWs (pyStrip r)
          | none => []),
        bus_type := (doc.findSome? (globalStrAttrMatch? ("BusType".data))).getD [],
        db_name := (doc.findSome? (globalStrAttrMatch? ("DBName".data))).getD [] } := by
  have hchain : applyCmMsg doc (applyCmSig doc (applyVal doc (applySigStrAttrs doc
      (applySigIntAttrs doc (applyMsgLongSym doc (applyMsgIntAttrs doc msgs0))))))
      = msgs0.map (fun q => (q.1, overlayMsg doc q.1 q.2)) := by
    rw [applyMsgIntAttrs_eq, applyMsgLongSym_eq, applySigIntAttrs_eq, applySigStrAttrs_eq,
        applyVal_eq, applyCmSig_eq, applyCmMsg_eq,
        List.map_map, List.map_map, List.map_map, List.map_map, List.map_map, List.map_map]
    apply List.map_congr_left
    intro q _
    exact congrArg (fun mm => ((q.1 : ℕ), mm)) (overlayMsg_decompose doc q.1 q.2)
  unfold parse_dbc
  rw [hbase]
  exact congrArg (fun ms => (Except.ok
    ({ messages := ms,
       nodes := (match doc.findSome? buMatch? with
         | some r => splitWs (pyStrip r)
         | none => []),
       bus_type := (doc.findSome? (globalStrAttrMatch? ("BusType".data))).getD [],
       db_name := (doc.findSome? (globalStrAttrMatch? ("DBName".data))).getD [] }
      : DBCDatabase) : Except Unit DBCDatabase)) hchain

theorem foldl_step_preserve {S M V W : Type} (set : S → V → M → M) (g : M → W)
    (f : S → Option V) :
    ∀ (L : List S), (∀ t ∈ L, ∀ v m, g (set t v m) = g m) → ∀ m : M,
      g (L.foldl (fun m t => match f t with | some v => set t v m | none => m) m)
        = g m := by
  intro L
  induction L with
  | nil => intro _ m; rfl
  | cons t ts ih =>
    intro hcross m
    rw [List.foldl_cons]
    rw [ih (fun u hu => hcross u (List.mem_cons_of_mem _ hu))]
    cases f t with
    | none => rfl
    | some v => exact hcross t (List.mem_cons_self _ _) v m

theorem foldl_specs_lastwins {S M V : Type} (set : S → V → M → M) (g : M → V)
    (f : S → Option V) (L1 L2 : List S) (s : S)
    (hself : ∀ v m, g (set s v m) = v)
    (hother : ∀ t, t ∈ L1 ∨ t ∈ L2 → ∀ v m, g (set t v m) = g m)
    (m : M) :
    g ((L1 ++ s :: L2).foldl
        (fun m t => match f t with | some v => set t v m | none => m) m)
      = match f s with | some v => v | none => g m := by
  rw [List.foldl_append, List.foldl_cons]
  rw [foldl_step_preserve set g f L2 (fun t ht => hother t (Or.inr ht))]
  have hL1 := foldl_step_preserve set g f L1 (fun t ht => hother t (Or.inl ht)) m
  cases f s with
  | none => exact hL1
  | some v => exact hself v _

theorem foldl_specs_lastwins_mem {S M V : Type} (set : S → V → M → M) (g : M → V)
    (f : S → Option V) (L : List S) (s : S)
    (hnd : L.Nodup) (hs : s ∈ L)
    (hself : ∀ v m, g (set s v m) = v)
    (hother : ∀ t ∈ L, t ≠ s → ∀ v m, g (set t v m) = g m)
    (m : M) :
    g (L.foldl (fun m t => match f t with | some v => set t v m | none => m) m)
      = match f s with | some v => v | none => g m := by
  obtain ⟨L1, L2, rfl⟩ := List.append_of_mem hs
  have hdisj : L1.Disjoint (s :: L2) := List.disjoint_of_nodup_append hnd
  have hs1 : s ∉ L1 := fun h => hdisj h (List.mem_cons_self _ _)
  have hs2 : s ∉ L2 := by
    have := (List.nodup_cons.mp (List.Nodup.of_append_right hnd)).1
    exact this
  refine foldl_specs_lastwins set g f L1 L2 s hself ?_ m
  intro t ht v m'
  rcases ht with h1 | h2
  · refine hother t (by simp [h1]) ?_ v m'
    intro he
    exact hs1 (he ▸ h1)
  · refine hother t (by simp [h2]) ?_ v m'
    intro he
    exact hs2 (he ▸ h2)

theorem lastVal_append_last {κ α : Type} [DecidableEq κ] (xs ys : List (κ × α))
    (k : κ) (v : α) (h : ∀ p ∈ ys, p.1 ≠ k) :
    lastVal (xs ++ (k, v) :: ys) k = some v := by
  unfold lastVal
  rw [List.foldl_append, List.foldl_cons]
  simp only [if_pos rfl]
  induction ys with
  | nil => rfl
  | cons p ps ih =>
    rw [List.foldl_cons, if_neg (h p (List.mem_cons_self _ _))]
    exact ih (fun q hq => h q (List.mem_cons_of_mem _ hq))

theorem msg_get_set_self : ∀ s ∈ msgIntAttrSpecs, ∀ (v : ℤ) (m : Message),
    s.get (s.set v m) = v := by
  intro s hs
  fin_cases hs <;> (intro v m; rfl)

theorem msg_get_set_other : ∀ s ∈ msgIntAttrSpecs, ∀ t ∈ msgIntAttrSpecs, t ≠ s →
    ∀ (v : ℤ) (m : Message), s.get (t.set v m) = s.get m := by
  intro s hs t ht hne v m
  fin_cases hs <;> fin_cases ht <;> first | rfl | exact absurd rfl hne

theorem msg_get_long_symbol : ∀ s ∈ msgIntAttrSpecs, ∀ (v : Str) (m : Message),
    s.get { m with long_symbol := v } = s.get m := by
  intro s hs
  fin_cases hs <;> (intro v m; rfl)

theorem msg_get_signals : ∀ s ∈ msgIntAttrSpecs,
    ∀ (sgs : List (Str × Signal)) (m : Message),
    s.get { m with signals := sgs } = s.get m := by
  intro s hs
  fin_cases hs <;> (intro sgs m; rfl)

theorem msg_get_comment : ∀ s ∈ msgIntAttrSpecs, ∀ (c : Str) (m : Message),
    s.get { m with comment := c } = s.get m := by
  intro s hs
  fin_cases hs <;> (intro c m; rfl)

theorem msg_set_long_symbol : ∀ t ∈ msgIntAttrSpecs, ∀ (v : ℤ) (m : Message),
    (t.set v m).long_symbol = m.long_symbol := by
  intro t ht
  fin_cases ht <;> (intro v m; rfl)

theorem msg_set_comment : ∀ t ∈ msgIntAttrSpecs, ∀ (v : ℤ) (m : Message),
    (t.set v m).comment = m.comment := by
  intro t ht
  fin_cases ht <;> (intro v m; rfl)

theorem msg_set_signals : ∀ t ∈ msgIntAttrSpecs, ∀ (v : ℤ) (m : Message),
    (t.set v m).signals = m.signals := by
  intro t ht
  fin_cases ht <;> (intro v m; rfl)

theorem sig_get_set_self : ∀ s ∈ sigIntAttrSpecs, ∀ (v : ℤ) (sg : Signal),
    s.get (s.set v sg) = v := by
  intro s hs
  fin_cases hs <;> (intro v sg; rfl)

theorem sig_get_set_other : ∀ s ∈ sigIntAttrSpecs, ∀ t ∈ sigIntAttrSpecs, t ≠ s →
    ∀ (v : ℤ) (sg : Signal), s.get (t.set v sg) = s.get sg := by
  intro s hs t ht hne v sg
  fin_cases hs <;> fin_cases ht <;> first | rfl | exact absurd rfl hne

theorem str_get_set_self : ∀ s ∈ sigStrAttrSpecs, ∀ (v : List Char) (sg : Signal),
    s.get (s.set v sg) = v := by
  intro s hs
  fin_cases hs <;> (intro v sg; rfl)

theorem str_get_set_other : ∀ s ∈ sigStrAttrSpecs, ∀ t ∈ sigStrAttrSpecs, t ≠ s →
    ∀ (v : List Char) (sg : Signal), s.get (t.set v sg) = s.get sg := by
  intro s hs t ht hne v sg
  fin_cases hs <;> fin_cases ht <;> first | rfl | exact absurd rfl hne

theorem sig_get_str_set : ∀ s ∈ sigIntAttrSpecs, ∀ t ∈ sigStrAttrSpecs,
    ∀ (v : List Char) (sg : Signal), s.get (t.set v sg) = s.get sg := by
  intro s hs t ht v sg
  fin_cases hs <;> fin_cases ht <;> rfl

theorem str_get_int_set : ∀ s ∈ sigStrAttrSpecs, ∀ t ∈ sigIntAttrSpecs,
    ∀ (v : ℤ) (sg : Signal), s.get (t.set v sg) = s.get sg := by
  intro s hs t ht v sg
  fin_cases hs <;> fin_cases ht <;> rfl

theorem sig_get_value_desc : ∀ s ∈ sigIntAttrSpecs, ∀ (d : Str) (sg : Signal),
    s.get { sg with value_desc := d } = s.get sg := by
  intro s hs
  fin_cases hs <;> (intro d sg; rfl)

theorem sig_get_comment : ∀ s ∈ sigIntAttrSpecs, ∀ (c : Str) (sg : Signal),
    s.get { sg with comment := c } = s.get sg := by
  intro s hs
  fin_cases hs <;> (intro c sg; rfl)

theorem str_get_value_desc : ∀ s ∈ sigStrAttrSpecs, ∀ (d : Str) (sg : Signal),
    s.get { sg with value_desc := d } = s.get sg := by
  intro s hs
  fin_cases hs <;> (intro d sg; rfl)

theorem str_get_comment : ∀ s ∈ sigStrAttrSpecs, ∀ (c : Str) (sg : Signal),
    s.get { sg with comment := c } = s.get sg := by
  intro s hs
  fin_cases hs <;> (intro c sg; rfl)

theorem valdesc_int_set : ∀ t ∈ sigIntAttrSpecs, ∀ (v : ℤ) (sg : Signal),
    (t.set v sg).value_desc = sg.value_desc := by
  intro t ht
  fin_cases ht <;> (intro v sg; rfl)

theorem valdesc_str_set : ∀ t ∈ sigStrAttrSpecs, ∀ (v : List Char) (sg : Signal),
    (t.set v sg).value_desc = sg.value_desc := by
  intro t ht
  fin_cases ht <;> (intro v sg; rfl)

theorem sigcomment_int_set : ∀ t ∈ sigIntAttrSpecs, ∀ (v : ℤ) (sg : Signal),
    (t.set v sg).comment = sg.comment := by
  intro t ht
  fin_cases ht <;> (intro v sg; rfl)

theorem sigcomment_str_set : ∀ t ∈ sigStrAttrSpecs, ∀ (v : List Char) (sg : Signal),
    (t.set v sg).comment = sg.comment := by
  intro t ht
  fin_cases ht <;> (intro v sg; rfl)

theorem msgIntAttrSpecs_attrs_nodup :
    (msgIntAttrSpecs.map (fun t => t.attr)).Nodup := by
  decide

theorem sigIntAttrSpecs_attrs_nodup :
    (sigIntAttrSpecs.map (fun t => t.attr)).Nodup := by
  decide

theorem sigStrAttrSpecs_attrs_nodup :
    (sigStrAttrSpecs.map (fun t => t.attr)).Nodup := by
  decide

theorem msgIntAttrEntry_get (doc : List (List Char)) (k : ℕ) (m : Message) :
    ∀ s ∈ msgIntAttrSpecs,
      s.get (msgIntAttrEntry doc k m)
        = match lastVal (doc.filterMap (baMsgIntMatch? s.attr)) k with
          | some v => v
          | none => s.get m := by
  intro s hs
  unfold msgIntAttrEntry
  have h := foldl_specs_lastwins_mem (fun t v m => t.set v m) s.get
    (fun t => lastVal (doc.filterMap (baMsgIntMatch? t.attr)) k) msgIntAttrSpecs s
    (List.Nodup.of_map _ msgIntAttrSpecs_attrs_nodup) hs
    (msg_get_set_self s hs)
    (fun t ht hne v m' => msg_get_set_other s hs t ht hne v m') m
  refine Eq.trans ?_ (h.trans ?_)
  · refine congrArg s.get (foldl_congr_mem msgIntAttrSpecs _ _ m ?_)
    intro m' t ht
    cases lastVal (doc.filterMap (baMsgIntMatch? t.attr)) k
    all_goals rfl
  · cases lastVal (doc.filterMap (baMsgIntMatch? s.attr)) k
    all_goals rfl

theorem msgIntAttrEntry_long_symbol (doc : List (List Char)) (k : ℕ) (m : Message) :
    (msgIntAttrEntry doc k m).long_symbol = m.long_symbol := by
  unfold msgIntAttrEntry
  refine Eq.trans ?_ (foldl_step_preserve (fun t v m => t.set v m) Message.long_symbol
    (fun t => lastVal (doc.filterMap (baMsgIntMatch? t.attr)) k) msgIntAttrSpecs
    (fun t ht v m' => msg_set_long_symbol t ht v m') m)
  refine congrArg Message.long_symbol (foldl_congr_mem msgIntAttrSpecs _ _ m ?_)
  intro m' t ht
  cases lastVal (doc.filterMap (baMsgIntMatch? t.attr)) k
  all_goals rfl

theorem msgIntAttrEntry_comment (doc : List (List Char)) (k : ℕ) (m : Message) :
    (msgIntAttrEntry doc k m).comment = m.comment := by
  unfold msgIntAttrEntry
  refine Eq.trans ?_ (foldl_step_preserve (fun t v m => t.set v m) Message.comment
    (fun t => lastVal (doc.filterMap (baMsgIntMatch? t.attr)) k) msgIntAttrSpecs
    (fun t ht v m' => msg_set_comment t ht v m') m)
  refine congrArg Message.comment (foldl_congr_mem msgIntAttrSpecs _ _ m ?_)
  intro m' t ht
  cases lastVal (doc.filterMap (baMsgIntMatch? t.attr)) k
  all_goals rfl

theorem msgIntAttrEntry_signals (doc : List (List Char)) (k : ℕ) (m : Message) :
    (msgIntAttrEntry doc k m).signals = m.signals := by
  unfold msgIntAttrEntry
  refine Eq.trans ?_ (foldl_step_preserve (fun t v m => t.set v m) Message.signals
    (fun t => lastVal (doc.filterMap (baMsgIntMatch? t.attr)) k) msgIntAttrSpecs
    (fun t ht v m' => msg_set_signals t ht v m') m)
  refine congrArg Message.signals (foldl_congr_mem msgIntAttrSpecs _ _ m ?_)
  intro m' t ht
  cases lastVal (doc.filterMap (baMsgIntMatch? t.attr)) k
  all_goals rfl

theorem ovlLongSym_long_symbol (doc : List (List Char)) (k : ℕ) (x : Message) :
    (ovlLongSym doc k x).long_symbol
      = match lastVal (doc.filterMap
          (baMsgStrMatch? ("SystemMessageLongSymbol".data))) k with
        | some v => v
        | none => x.long_symbol := by
  unfold ovlLongSym
  cases lastVal (doc.filterMap (baMsgStrMatch? ("SystemMessageLongSymbol".data))) k
  · rfl
  · rfl

theorem overlayMsg_get_int (doc : List (List Char)) (k : ℕ) (m : Message) :
    ∀ s ∈ msgIntAttrSpecs,
      s.get (overlayMsg doc k m)
        = match lastVal (doc.filterMap (baMsgIntMatch? s.attr)) k with
          | some v => v
          | none => s.get m := by
  intro s hs
  rw [← overlayMsg_decompose doc k m]
  have hA : ∀ x : Message, s.get (ovlCmMsg doc k x) = s.get x := by
    intro x
    unfold ovlCmMsg
    cases lastVal (doc.filterMap cmMsgMatch?) k
    · rfl
    · exact msg_get_comment s hs _ x
  have hB : ∀ x : Message, s.get (ovlCmSig doc k x) = s.get x := by
    intro x
    exact msg_get_signals s hs _ x
  have hC : ∀ x : Message, s.get (ovlVal doc k x) = s.get x := by
    intro x
    exact msg_get_signals s hs _ x
  have hD : ∀ x : Message, s.get (ovlSigStr doc k x) = s.get x := by
    intro x
    exact msg_get_signals s hs _ x
  have hE : ∀ x : Message, s.get (ovlSigInt doc k x) = s.get x := by
    intro x
    exact msg_get_signals s hs _ x
  have hF : ∀ x : Message, s.get (ovlLongSym doc k x) = s.get x := by
    intro x
    unfold ovlLongSym
    cases lastVal (doc.filterMap (baMsgStrMatch? ("SystemMessageLongSymbol".data))) k
    · rfl
    · exact msg_get_long_symbol s hs _ x
  rw [hA, hB, hC, hD, hE, hF]
  exact msgIntAttrEntry_get doc k m s hs

theorem overlayMsg_long_symbol (doc : List (List Char)) (k : ℕ) (m : Message) :
    (overlayMsg doc k m).long_symbol
      = match lastVal (doc.filterMap
          (baMsgStrMatch? ("SystemMessageLongSymbol".data))) k with
        | some v => v
        | none => m.long_symbol := by
  rw [← overlayMsg_decompose doc k m]
  have hA : ∀ x : Message, (ovlCmMsg doc k x).long_symbol = x.long_symbol := by
    intro x
    unfold ovlCmMsg
    cases lastVal (doc.filterMap cmMsgMatch?) k
    · rfl
    · rfl
  have hB : ∀ x : Message, (ovlCmSig doc k x).long_symbol = x.long_symbol :=
    fun x => rfl
  have hC : ∀ x : Message, (ovlVal doc k x).long_symbol = x.long_symbol :=
    fun x => rfl
  have hD : ∀ x : Message, (ovlSigStr doc k x).long_symbol = x.long_symbol :=
    fun x => rfl
  have hE : ∀ x : Message, (ovlSigInt doc k x).long_symbol = x.long_symbol :=
    fun x => rfl
  rw [hA, hB, hC, hD, hE, ovlLongSym_long_symbol doc k (msgIntAttrEntry doc k m)]
  cases lastVal (doc.filterMap (baMsgStrMatch? ("SystemMessageLongSymbol".data))) k
  · exact msgIntAttrEntry_long_symbol doc k m
  · rfl

theorem overlayMsg_comment (doc : List (List Char)) (k : ℕ) (m : Message) :
    (overlayMsg doc k m).comment
      = match lastVal (doc.filterMap cmMsgMatch?) k with
        | some c => c
        | none => m.comment := by
  rw [← overlayMsg_decompose doc k m]
  have hA : ∀ x : Message, (ovlCmMsg doc k x).comment
      = match lastVal (doc.filterMap cmMsgMatch?) k with
        | some c => c
        | none => x.comment := by
    intro x
    unfold ovlCmMsg
    cases lastVal (doc.filterMap cmMsgMatch?) k
    · rfl
    · rfl
  have hB : ∀ x : Message, (ovlCmSig doc k x).comment = x.comment :=
    fun x => rfl
  have hC : ∀ x : Message, (ovlVal doc k x).comment = x.comment :=
    fun x => rfl
  have hD : ∀ x : Message, (ovlSigStr doc k x).comment = x.comment :=
    fun x => rfl
  have hE : ∀ x : Message, (ovlSigInt doc k x).comment = x.comment :=
    fun x => rfl
  have hF : ∀ x : Message, (ovlLongSym doc k x).comment = x.comment := by
    intro x
    unfold ovlLongSym
    cases lastVal (doc.filterMap (baMsgStrMatch? ("SystemMessageLongSymbol".data))) k
    · rfl
    · rfl
  rw [hA, hB, hC, hD, hE, hF]
  cases lastVal (doc.filterMap cmMsgMatch?) k
  · exact msgIntAttrEntry_comment doc k m
  · rfl

theorem ovlLongSym_signals (doc : List (List Char)) (k : ℕ) (m : Message) :
    (ovlLongSym doc k (msgIntAttrEntry doc k m)).signals = m.signals := by
  unfold ovlLongSym
  cases lastVal (doc.filterMap (baMsgStrMatch? ("SystemMessageLongSymbol".data))) k
  · exact msgIntAttrEntry_signals doc k m
  · exact msgIntAttrEntry_signals doc k m

theorem overlayMsg_signals (doc : List (List Char)) (k : ℕ) (m : Message) :
    (overlayMsg doc k m).signals
      = m.signals.map (fun r => (r.1, sigAttrEntrySig doc k r.1 r.2)) := by
  rw [← overlayMsg_decompose doc k m,
      sig_stages_collapse doc k (ovlLongSym doc k (msgIntAttrEntry doc k m))]
  have hA : ∀ x : Message, (ovlCmMsg doc k x).signals = x.signals := by
    intro x
    unfold ovlCmMsg
    cases lastVal (doc.filterMap cmMsgMatch?) k
    · rfl
    · rfl
  rw [hA]
  exact congrArg
    (fun l => l.map (fun r => ((r.1 : Str), sigAttrEntrySig doc k r.1 r.2)))
    (ovlLongSym_signals doc k m)

theorem sigAttrEntrySig_get_int (doc : List (List Char)) (k : ℕ) (name : Str)
    (sg : Signal) :
    ∀ s ∈ sigIntAttrSpecs,
      s.get (sigAttrEntrySig doc k name sg)
        = match lastVal (doc.filterMap (baSigIntMatch? s.attr)) (k, name) with
          | some v => v
          | none => s.get sg := by
  intro s hs
  have hstr : ∀ x : Signal,
      s.get (sigStrAttrSpecs.foldl (fun s1 spec =>
        match lastVal (doc.filterMap (baSigStrMatch? spec.attr)) (k, name) with
        | some v => spec.set v s1
        | none => s1) x) = s.get x := by
    intro x
    refine Eq.trans ?_ (foldl_step_preserve (fun t v sg1 => t.set v sg1) s.get
      (fun t => lastVal (doc.filterMap (baSigStrMatch? t.attr)) (k, name)) sigStrAttrSpecs
      (fun t ht v sg1 => sig_get_str_set s hs t ht v sg1) x)
    refine congrArg s.get (foldl_congr_mem sigStrAttrSpecs _ _ x ?_)
    intro sg1 t ht
    cases lastVal (doc.filterMap (baSigStrMatch? t.attr)) (k, name)
    all_goals rfl
  have hint : s.get (sigIntAttrSpecs.foldl (fun s1 spec =>
      match lastVal (doc.filterMap (baSigIntMatch? spec.attr)) (k, name) with
      | some v => spec.set v s1
      | none => s1) sg)
      = match lastVal (doc.filterMap (baSigIntMatch? s.attr)) (k, name) with
        | some v => v
        | none => s.get sg := by
    have h := foldl_specs_lastwins_mem (fun t v sg1 => t.set v sg1) s.get
      (fun t => lastVal (doc.filterMap (baSigIntMatch? t.attr)) (k, name)) sigIntAttrSpecs s
      (List.Nodup.of_map _ sigIntAttrSpecs_attrs_nodup) hs
      (sig_get_set_self s hs)
      (fun t ht hne v sg1 => sig_get_set_other s hs t ht hne v sg1) sg
    refine Eq.trans ?_ (h.trans ?_)
    · refine congrArg s.get (foldl_congr_mem sigIntAttrSpecs _ _ sg ?_)
      intro sg1 t ht
      cases lastVal (doc.filterMap (baSigIntMatch? t.attr)) (k, name)
      all_goals rfl
    · cases lastVal (doc.filterMap (baSigIntMatch? s.attr)) (k, name)
      all_goals rfl
  unfold sigAttrEntrySig
  cases lastVal ((doc.filterMap cmSigMatch?).map
      (fun t => ((t.1, t.2.1), t.2.2))) (k, name) with
  | some c =>
    cases lastVal ((doc.filterMap valMatch?).map
        (fun t => ((t.1, t.2.1), t.2.2))) (k, name) with
    | some p =>
      exact Eq.trans (sig_get_comment s hs c _)
        (Eq.trans (sig_get_value_desc s hs _ _) (Eq.trans (hstr _) hint))
    | none =>
      exact Eq.trans (sig_get_comment s hs c _) (Eq.trans (hstr _) hint)
  | none =>
    cases lastVal ((doc.filterMap valMatch?).map
        (fun t => ((t.1, t.2.1), t.2.2))) (k, name) with
    | some p =>
      exact Eq.trans (sig_get_value_desc s hs _ _) (Eq.trans (hstr _) hint)
    | none =>
      exact Eq.trans (hstr _) hint

theorem sigAttrEntrySig_get_str (doc : List (List Char)) (k : ℕ) (name : Str)
    (sg : Signal) :
    ∀ s ∈ sigStrAttrSpecs,
      s.get (sigAttrEntrySig doc k name sg)
        = match lastVal (doc.filterMap (baSigStrMatch? s.attr)) (k, name) with
          | some v => v
          | none => s.get sg := by
  intro s hs
  have hint : ∀ x : Signal,
      s.get (sigIntAttrSpecs.foldl (fun s1 spec =>
        match lastVal (doc.filterMap (baSigIntMatch? spec.attr)) (k, name) with
        | some v => spec.set v s1
        | none => s1) x) = s.get x := by
    intro x
    refine Eq.trans ?_ (foldl_step_preserve (fun t v sg1 => t.set v sg1) s.get
      (fun t => lastVal (doc.filterMap (baSigIntMatch? t.attr)) (k, name)) sigIntAttrSpecs
      (fun t ht v sg1 => str_get_int_set s hs t ht v sg1) x)
    refine congrArg s.get (foldl_congr_mem sigIntAttrSpecs _ _ x ?_)
    intro sg1 t ht
    cases lastVal (doc.filterMap (baSigIntMatch? t.attr)) (k, name)
    all_goals rfl
  have hstr : ∀ x : Signal,
      s.get (sigStrAttrSpecs.foldl (fun s1 spec =>
        match lastVal (doc.filterMap (baSigStrMatch? spec.attr)) (k, name) with
        | some v => spec.set v s1
        | none => s1) x)
        = match lastVal (doc.filterMap (baSigStrMatch? s.attr)) (k, name) with
          | some v => v
          | none => s.get x := by
    intro x
    have h := foldl_specs_lastwins_mem (fun t v sg1 => t.set v sg1) s.get
      (fun t => lastVal (doc.filterMap (baSigStrMatch? t.attr)) (k, name)) sigStrAttrSpecs s
      (List.Nodup.of_map _ sigStrAttrSpecs_attrs_nodup) hs
      (str_get_set_self s hs)
      (fun t ht hne v sg1 => str_get_set_other s hs t ht hne v sg1) x
    refine Eq.trans ?_ (h.trans ?_)
    · refine congrArg s.get (foldl_congr_mem sigStrAttrSpecs _ _ x ?_)
      intro sg1 t ht
      cases lastVal (doc.filterMap (baSigStrMatch? t.attr)) (k, name)
      all_goals rfl
    · cases lastVal (doc.filterMap (baSigStrMatch? s.attr)) (k, name)
      all_goals rfl
  have hcomb : s.get (sigStrAttrSpecs.foldl (fun s1 spec =>
      match lastVal (doc.filterMap (baSigStrMatch? spec.attr)) (k, name) with
      | some v => spec.set v s1
      | none => s1) (sigIntAttrSpecs.foldl (fun s1 spec =>
        match lastVal (doc.filterMap (baSigIntMatch? spec.attr)) (k, name) with
        | some v => spec.set v s1
        | none => s1) sg))
      = match lastVal (doc.filterMap (baSigStrMatch? s.attr)) (k, name) with
        | some v => v
        | none => s.get sg := by
    rw [hstr _]
    cases lastVal (doc.filterMap (baSigStrMatch? s.attr)) (k, name)
    · exact hint sg
    · rfl
  unfold sigAttrEntrySig
  cases lastVal ((doc.filterMap cmSigMatch?).map
      (fun t => ((t.1, t.2.1), t.2.2))) (k, name) with
  | some c =>
    cases lastVal ((doc.filterMap valMatch?).map
        (fun t => ((t.1, t.2.1), t.2.2))) (k, name) with
    | some p =>
      exact Eq.trans (str_get_comment s hs c _)
        (Eq.trans (str_get_value_desc s hs _ _) hcomb)
    | none =>
      exact Eq.trans (str_get_comment s hs c _) hcomb
  | none =>
    cases lastVal ((doc.filterMap valMatch?).map
        (fun t => ((t.1, t.2.1), t.2.2))) (k, name) with
    | some p =>
      exact Eq.trans (str_get_value_desc s hs _ _) hcomb
    | none =>
      exact hcomb

theorem sigAttrEntrySig_value_desc (doc : List (List Char)) (k : ℕ) (name : Str)
    (sg : Signal) :
    (sigAttrEntrySig doc k name sg).value_desc
      = match lastVal ((doc.filterMap valMatch?).map
          (fun t => ((t.1, t.2.1), t.2.2))) (k, name) with
        | some p => descOfValPayload p
        | none => sg.value_desc := by
  have hint : ∀ x : Signal,
      (sigIntAttrSpecs.foldl (fun s1 spec =>
        match lastVal (doc.filterMap (baSigIntMatch? spec.attr)) (k, name) with
        | some v => spec.set v s1
        | none => s1) x).value_desc = x.value_desc := by
    intro x
    refine Eq.trans ?_ (foldl_step_preserve (fun t v sg1 => t.set v sg1) Signal.value_desc
      (fun t => lastVal (doc.filterMap (baSigIntMatch? t.attr)) (k, name)) sigIntAttrSpecs
      (fun t ht v sg1 => valdesc_int_set t ht v sg1) x)
    refine congrArg Signal.value_desc (foldl_congr_mem sigIntAttrSpecs _ _ x ?_)
    intro sg1 t ht
    cases lastVal (doc.filterMap (baSigIntMatch? t.attr)) (k, name)
    all_goals rfl
  have hstr : ∀ x : Signal,
      (sigStrAttrSpecs.foldl (fun s1 spec =>
        match lastVal (doc.filterMap (baSigStrMatch? spec.attr)) (k, name) with
        | some v => spec.set v s1
        | none => s1) x).value_desc = x.value_desc := by
    intro x
    refine Eq.trans ?_ (foldl_step_preserve (fun t v sg1 => t.set v sg1) Signal.value_desc
      (fun t => lastVal (doc.filterMap (baSigStrMatch? t.attr)) (k, name)) sigStrAttrSpecs
      (fun t ht v sg1 => valdesc_str_set t ht v sg1) x)
    refine congrArg Signal.value_desc (foldl_congr_mem sigStrAttrSpecs _ _ x ?_)
    intro sg1 t ht
    cases lastVal (doc.filterMap (baSigStrMatch? t.attr)) (k, name)
    all_goals rfl
  unfold sigAttrEntrySig
  cases lastVal ((doc.filterMap cmSigMatch?).map
      (fun t => ((t.1, t.2.1), t.2.2))) (k, name) with
  | some c =>
    cases lastVal ((doc.filterMap valMatch?).map
        (fun t => ((t.1, t.2.1), t.2.2))) (k, name) with
    | some p => rfl
    | none => exact Eq.trans (hstr _) (hint sg)
  | none =>
    cases lastVal ((doc.filterMap valMatch?).map
        (fun t => ((t.1, t.2.1), t.2.2))) (k, name) with
    | some p => rfl
    | none => exact Eq.trans (hstr _) (hint sg)

theorem sigAttrEntrySig_comment (doc : List (List Char)) (k : ℕ) (name : Str)
    (sg : Signal) :
    (sigAttrEntrySig doc k name sg).comment
      = match lastVal ((doc.filterMap cmSigMatch?).map
          (fun t => ((t.1, t.2.1), t.2.2))) (k, name) with
        | some c => c
        | none => sg.comment := by
  have hint : ∀ x : Signal,
      (sigIntAttrSpecs.foldl (fun s1 spec =>
        match lastVal (doc.filterMap (baSigIntMatch? spec.attr)) (k, name) with
        | some v => spec.set v s1
        | none => s1) x).comment = x.comment := by
    intro x
    refine Eq.trans ?_ (foldl_step_preserve (fun t v sg1 => t.set v sg1) Signal.comment
      (fun t => lastVal (doc.filterMap (baSigIntMatch? t.attr)) (k, name)) sigIntAttrSpecs
      (fun t ht v sg1 => sigcomment_int_set t ht v sg1) x)
    refine congrArg Signal.comment (foldl_congr_mem sigIntAttrSpecs _ _ x ?_)
    intro sg1 t ht
    cases lastVal (doc.filterMap (baSigIntMatch? t.attr)) (k, name)
    all_goals rfl
  have hstr : ∀ x : Signal,
      (sigStrAttrSpecs.foldl (fun s1 spec =>
        match lastVal (doc.filterMap (baSigStrMatch? spec.attr)) (k, name) with
        | some v => spec.set v s1
        | none => s1) x).comment = x.comment := by
    intro x
    refine Eq.trans ?_ (foldl_step_preserve (fun t v sg1 => t.set v sg1) Signal.comment
      (fun t => lastVal (doc.filterMap (baSigStrMatch? t.attr)) (k, name)) sigStrAttrSpecs
      (fun t ht v sg1 => sigcomment_str_set t ht v sg1) x)
    refine congrArg Signal.comment (foldl_congr_mem sigStrAttrSpecs _ _ x ?_)
    intro sg1 t ht
    cases lastVal (doc.filterMap (baSigStrMatch? t.attr)) (k, name)
    all_goals rfl
  unfold sigAttrEntrySig
  cases lastVal ((doc.filterMap cmSigMatch?).map
      (fun t => ((t.1, t.2.1), t.2.2))) (k, name) with
  | some c =>
    cases lastVal ((doc.filterMap valMatch?).map
        (fun t => ((t.1, t.2.1), t.2.2))) (k, name) with
    | some p => rfl
    | none => rfl
  | none =>
    cases lastVal ((doc.filterMap valMatch?).map
        (fun t => ((t.1, t.2.1), t.2.2))) (k, name) with
    | some p => exact Eq.trans (hstr _) (hint sg)
    | none => exact Eq.trans (hstr _) (hint sg)

theorem foldl_baseStep_error (doc : List (List Char)) (e : Unit) :
    doc.foldl baseStep (Except.error e) = Except.error e := by
  induction doc with
  | nil => rfl
  | cons l ls ih => exact ih

theorem foldl_sigFold_error (doc : List (List Char)) (e : Unit) :
    doc.foldl sigFold (Except.error e) = Except.error e := by
  induction doc with
  | nil => rfl
  | cons l ls ih => exact ih

theorem sigFold_cases (m : Message) (l : List Char) :
    sigFold (Except.ok m) l = Except.error ()
    ∨ sigFold (Except.ok m) l = Except.ok m
    ∨ ∃ g fa off mn mx, sigMatch? l = some g ∧
        sigFold (Except.ok m) l
          = Except.ok { m with
              signals := odInsert m.signals g.name (mkSignal g fa off mn mx) } := by
  cases hsg : sigMatch? l with
  | none =>
    refine Or.inr (Or.inl ?_)
    simp only [sigFold, hsg]
  | some g =>
    cases hfa : pyFloat? g.factorS with
    | none => exact Or.inl (by simp only [sigFold, hsg, hfa])
    | some fa =>
      cases hoff : pyFloat? g.offsetS with
      | none => exact Or.inl (by simp only [sigFold, hsg, hfa, hoff])
      | some off =>
        cases hmn : pyFloat? g.minS with
        | none => exact Or.inl (by simp only [sigFold, hsg, hfa, hoff, hmn])
        | some mn =>
          cases hmx : pyFloat? g.maxS with
          | none => exact Or.inl (by simp only [sigFold, hsg, hfa, hoff, hmn, hmx])
          | some mx =>
            refine Or.inr (Or.inr ⟨g, fa, off, mn, mx, rfl, ?_⟩)
            simp only [sigFold, hsg, hfa, hoff, hmn, hmx]

theorem baseStep_sigFold (M : List (ℕ × Message)) (m : Message) (l : List Char)
    (hl : msgMatch? l = none) :
    baseStep (Except.ok ⟨M, some m⟩) l
      = match sigFold (Except.ok m) l with
        | Except.ok m1 => Except.ok ⟨M, some m1⟩
        | Except.error e => Except.error e := by
  cases hsg : sigMatch? l with
  | none => simp only [baseStep, sigFold, hl, hsg]
  | some g =>
    cases hfa : pyFloat? g.factorS with
    | none => simp only [baseStep, sigFold, hl, hsg, hfa]
    | some fa =>
      cases hoff : pyFloat? g.offsetS with
      | none => simp only [baseStep, sigFold, hl, hsg, hfa, hoff]
      | some off =>
        cases hmn : pyFloat? g.minS with
        | none => simp only [baseStep, sigFold, hl, hsg, hfa, hoff, hmn]
        | some mn =>
          cases hmx : pyFloat? g.maxS with
          | none => simp only [baseStep, sigFold, hl, hsg, hfa, hoff, hmn, hmx]
          | some mx => simp only [baseStep, sigFold, hl, hsg, hfa, hoff, hmn, hmx]

theorem foldl_baseStep_block :
    ∀ (d : List (List Char)), (∀ l ∈ d, msgMatch? l = none) →
    ∀ (M : List (ℕ × Message)) (m : Message),
      d.foldl baseStep (Except.ok ⟨M, some m⟩)
        = match d.foldl sigFold (Except.ok m) with
          | Except.ok m1 => Except.ok ⟨M, some m1⟩
          | Except.error e => Except.error e := by
  intro d
  induction d with
  | nil => intro _ M m; rfl
  | cons l ls ih =>
    intro hno M m
    rw [List.foldl_cons, List.foldl_cons]
    rw [baseStep_sigFold M m l (hno l (List.mem_cons_self _ _))]
    cases hh : sigFold (Except.ok m) l with
    | ok m1 => exact ih (fun x hx => hno x (List.mem_cons_of_mem _ hx)) M m1
    | error e =>
      rw [foldl_baseStep_error, foldl_sigFold_error]

theorem foldl_sigFold_msg_id :
    ∀ (d : List (List Char)) (m mfin : Message),
      d.foldl sigFold (Except.ok m) = Except.ok mfin → mfin.msg_id = m.msg_id := by
  intro d
  induction d with
  | nil =>
    intro m mfin h
    cases h
    rfl
  | cons l ls ih =>
    intro m mfin h
    rw [List.foldl_cons] at h
    rcases sigFold_cases m l with he | hm | ⟨g, fa, off, mn, mx, _, hg⟩
    · rw [he, foldl_sigFold_error] at h
      cases h
    · rw [hm] at h
      exact ih m mfin h
    · rw [hg] at h
      exact ih ({ m with
        signals := odInsert m.signals g.name (mkSignal g fa off mn mx) }) mfin h

theorem basePass_lastBlock (d1 d2 : List (List Char)) (bo : List Char)
    (k : ℕ) (nm tx : List Char) (dlc : ℕ) (s1 : BaseState) (mfin : Message)
    (hbo : msgMatch? bo = some (k, nm, dlc, tx))
    (hno : ∀ l ∈ d2, msgMatch? l = none)
    (hd1 : d1.foldl baseStep (Except.ok ⟨[], none⟩) = Except.ok s1)
    (hsig : d2.foldl sigFold (Except.ok (mkMessage k nm dlc tx)) = Except.ok mfin) :
    basePass (d1 ++ bo :: d2) = Except.ok (odInsert (flushCur s1) k mfin) := by
  unfold basePass
  rw [List.foldl_append, List.foldl_cons, hd1]
  have hstep : baseStep (Except.ok s1) bo
      = Except.ok ⟨flushCur s1, some (mkMessage k nm dlc tx)⟩ := by
    unfold baseStep
    rw [hbo]
  rw [hstep, foldl_baseStep_block d2 hno, hsig]
  have hid : mfin.msg_id = k := foldl_sigFold_msg_id d2 _ mfin hsig
  show Except.ok (odInsert (flushCur s1) mfin.msg_id mfin) = _
  rw [hid]

theorem foldl_sigFold_keep (nm : Str) :
    ∀ (e : List (List Char)),
      (∀ l ∈ e, ∀ g, sigMatch? l = some g → g.name ≠ nm) →
      ∀ (m mfin : Message), e.foldl sigFold (Except.ok m) = Except.ok mfin →
        lastVal mfin.signals nm = lastVal m.signals nm := by
  intro e
  induction e with
  | nil =>
    intro _ m mfin h
    cases h
    rfl
  | cons l ls ih =>
    intro hne m mfin h
    rw [List.foldl_cons] at h
    rcases sigFold_cases m l with he | hm | ⟨g, fa, off, mn, mx, hg, heq⟩
    · rw [he, foldl_sigFold_error] at h
      cases h
    · rw [hm] at h
      exact ih (fun x hx => hne x (List.mem_cons_of_mem _ hx)) m mfin h
    · rw [heq] at h
      have h2 := ih (fun x hx => hne x (List.mem_cons_of_mem _ hx)) _ mfin h
      rw [h2]
      show lastVal (odInsert m.signals g.name (mkSignal g fa off mn mx)) nm
        = lastVal m.signals nm
      rw [lastVal_odInsert]
      exact if_neg (fun hc => hne l (List.mem_cons_self _ _) g hg hc.symm)

theorem foldl_sigFold_last (b1 e3 : List (List Char)) (ls2 : List Char)
    (g2 : SigGroups) (fa2 off2 mn2 mx2 : ℚ)
    (hsg : sigMatch? ls2 = some g2)
    (hfa : pyFloat? g2.factorS = some fa2) (hoff : pyFloat? g2.offsetS = some off2)
    (hmn : pyFloat? g2.minS = some mn2) (hmx : pyFloat? g2.maxS = some mx2)
    (hlast : ∀ l ∈ e3, ∀ g, sigMatch? l = some g → g.name ≠ g2.name)
    (m0 mfin : Message)
    (hfold : (b1 ++ ls2 :: e3).foldl sigFold (Except.ok m0) = Except.ok mfin) :
    lastVal mfin.signals g2.name = some (mkSignal g2 fa2 off2 mn2 mx2) := by
  rw [List.foldl_append, List.foldl_cons] at hfold
  cases hb1 : b1.foldl sigFold (Except.ok m0) with
  | error e =>
    rw [hb1] at hfold
    rw [show sigFold (Except.error e) ls2 = Except.error e from rfl,
      foldl_sigFold_error] at hfold
    cases hfold
  | ok m1 =>
    rw [hb1] at hfold
    have hstep : sigFold (Except.ok m1) ls2
        = Except.ok { m1 with
            signals := odInsert m1.signals g2.name (mkSignal g2 fa2 off2 mn2 mx2) } := by
      simp only [sigFold, hsg, hfa, hoff, hmn, hmx]
    rw [hstep] at hfold
    have hk := foldl_sigFold_keep g2.name e3 hlast _ mfin hfold
    rw [hk]
    show lastVal (odInsert m1.signals g2.name (mkSignal g2 fa2 off2 mn2 mx2)) g2.name
      = _
    rw [lastVal_odInsert]
    exact if_pos rfl

theorem lastVal_doc_last {κ β : Type} [DecidableEq κ] (f : List Char → Option (κ × β))
    (d1 d2 d3 : List (List Char)) (l1 l2 : List Char) (k : κ) (v2 : β)
    (h2 : f l2 = some (k, v2))
    (h3 : ∀ l ∈ d3, ∀ v, ¬ f l = some (k, v)) :
    lastVal ((d1 ++ l1 :: d2 ++ l2 :: d3).filterMap f) k = some v2 := by
  have hassoc : d1 ++ l1 :: d2 ++ l2 :: d3 = (d1 ++ l1 :: d2) ++ l2 :: d3 := by
    simp
  rw [hassoc, List.filterMap_append, List.filterMap_cons, h2]
  refine lastVal_append_last _ _ k v2 ?_
  intro p hp hpk
  rcases List.mem_filterMap.mp hp with ⟨l, hl, hfl⟩
  refine h3 l hl p.2 ?_
  rw [hfl]
  refine congrArg some ?_
  exact Prod.ext hpk rfl

theorem mem_odInsert_self {κ α : Type} [DecidableEq κ] (l : List (κ × α))
    (k : κ) (v : α) :
    (k, v) ∈ odInsert l k v := by
  unfold odInsert
  by_cases h : l.any (fun p => decide (p.1 = k)) = true
  · rw [if_pos h]
    rcases List.any_eq_true.mp h with ⟨p, hp, hpk⟩
    refine List.mem_map.mpr ⟨p, hp, ?_⟩
    rw [if_pos (of_decide_eq_true hpk)]
  · rw [if_neg h]
    exact List.mem_append_right _ (List.mem_cons_self _ _)

/-- **C9.**  When a document contains several records with the same key — two
attribute assignments for the same (attribute, message id) or (attribute,
message id, signal name), two comments or two value tables for the same
target, or two declarations of the same message id or of the same signal
name within one block — the parsed database stores the value of the last
such record in document order, regardless of the earlier record's value:
(1) message integer attributes, (2) `SystemMessageLongSymbol`,
(3) signal integer attributes, (4) signal string attributes,
(5) message comments, (6) signal comments, (7) value tables,
(8) message declarations, (9) signal declarations inside one block. -/
theorem duplicate_records_last_write_wins :
    (∀ s ∈ msgIntAttrSpecs,
      ∀ (d1 d2 d3 : List (List Char)) (l1 l2 : List Char) (k : ℕ) (v1 v2 : ℤ)
        (msgs0 : List (ℕ × Message)) (m0 : Message),
        baMsgIntMatch? s.attr l1 = some (k, v1) →
        baMsgIntMatch? s.attr l2 = some (k, v2) →
        (∀ l ∈ d3, ∀ v, ¬ baMsgIntMatch? s.attr l = some (k, v)) →
        basePass (d1 ++ l1 :: d2 ++ l2 :: d3) = Except.ok msgs0 →
        (k, m0) ∈ msgs0 →
        ∃ db, parse_dbc (d1 ++ l1 :: d2 ++ l2 :: d3) = Except.ok db
          ∧ (k, overlayMsg (d1 ++ l1 :: d2 ++ l2 :: d3) k m0) ∈ db.messages
          ∧ s.get (overlayMsg (d1 ++ l1 :: d2 ++ l2 :: d3) k m0) = v2)
    ∧
    (∀ (d1 d2 d3 : List (List Char)) (l1 l2 : List Char) (k : ℕ) (v1 v2 : Str)
        (msgs0 : List (ℕ × Message)) (m0 : Message),
        baMsgStrMatch? ("SystemMessageLongSymbol".data) l1 = some (k, v1) →
        baMsgStrMatch? ("SystemMessageLongSymbol".data) l2 = some (k, v2) →
        (∀ l ∈ d3, ∀ v,
          ¬ baMsgStrMatch? ("SystemMessageLongSymbol".data) l = some (k, v)) →
        basePass (d1 ++ l1 :: d2 ++ l2 :: d3) = Except.ok msgs0 →
        (k, m0) ∈ msgs0 →
        ∃ db, parse_dbc (d1 ++ l1 :: d2 ++ l2 :: d3) = Except.ok db
          ∧ (k, overlayMsg (d1 ++ l1 :: d2 ++ l2 :: d3) k m0) ∈ db.messages
          ∧ (overlayMsg (d1 ++ l1 :: d2 ++ l2 :: d3) k m0).long_symbol = v2)
    ∧
    (∀ s ∈ sigIntAttrSpecs,
      ∀ (d1 d2 d3 : List (List Char)) (l1 l2 : List Char) (k : ℕ) (name : Str)
        (v1 v2 : ℤ) (msgs0 : List (ℕ × Message)) (m0 : Message) (sg0 : Signal),
        baSigIntMatch? s.attr l1 = some ((k, name), v1) →
        baSigIntMatch? s.attr l2 = some ((k, name), v2) →
        (∀ l ∈ d3, ∀ v, ¬ baSigIntMatch? s.attr l = some ((k, name), v)) →
        basePass (d1 ++ l1 :: d2 ++ l2 :: d3) = Except.ok msgs0 →
        (k, m0) ∈ msgs0 → (name, sg0) ∈ m0.signals →
        ∃ db, parse_dbc (d1 ++ l1 :: d2 ++ l2 :: d3) = Except.ok db
          ∧ (k, overlayMsg (d1 ++ l1 :: d2 ++ l2 :: d3) k m0) ∈ db.messages
          ∧ (name, sigAttrEntrySig (d1 ++ l1 :: d2 ++ l2 :: d3) k name sg0)
              ∈ (overlayMsg (d1 ++ l1 :: d2 ++ l2 :: d3) k m0).signals
          ∧ s.get (sigAttrEntrySig (d1 ++ l1 :: d2 ++ l2 :: d3) k name sg0) = v2)
    ∧
    (∀ s ∈ sigStrAttrSpecs,
      ∀ (d1 d2 d3 : List (List Char)) (l1 l2 : List Char) (k : ℕ) (name : Str)
        (v1 v2 : Str) (msgs0 : List (ℕ × Message)) (m0 : Message) (sg0 : Signal),
        baSigStrMatch? s.attr l1 = some ((k, name), v1) →
        baSigStrMatch? s.attr l2 = some ((k, name), v2) →
        (∀ l ∈ d3, ∀ v, ¬ baSigStrMatch? s.attr l = some ((k, name), v)) →
        basePass (d1 ++ l1 :: d2 ++ l2 :: d3) = Except.ok msgs0 →
        (k, m0) ∈ msgs0 → (name, sg0) ∈ m0.signals →
        ∃ db, parse_dbc (d1 ++ l1 :: d2 ++ l2 :: d3) = Except.ok db
          ∧ (k, overlayMsg (d1 ++ l1 :: d2 ++ l2 :: d3) k m0) ∈ db.messages
          ∧ (name, sigAttrEntrySig (d1 ++ l1 :: d2 ++ l2 :: d3) k name sg0)
              ∈ (overlayMsg (d1 ++ l1 :: d2 ++ l2 :: d3) k m0).signals
          ∧ s.get (sigAttrEntrySig (d1 ++ l1 :: d2 ++ l2 :: d3) k name sg0) = v2)
    ∧
    (∀ (d1 d2 d3 : List (List Char)) (l1 l2 : List Char) (k : ℕ) (v1 v2 : Str)
        (msgs0 : List (ℕ × Message)) (m0 : Message),
        cmMsgMatch? l1 = some (k, v1) →
        cmMsgMatch? l2 = some (k, v2) →
        (∀ l ∈ d3, ∀ v, ¬ cmMsgMatch? l = some (k, v)) →
        basePass (d1 ++ l1 :: d2 ++ l2 :: d3) = Except.ok msgs0 →
        (k, m0) ∈ msgs0 →
        ∃ db, parse_dbc (d1 ++ l1 :: d2 ++ l2 :: d3) = Except.ok db
          ∧ (k, overlayMsg (d1 ++ l1 :: d2 ++ l2 :: d3) k m0) ∈ db.messages
          ∧ (overlayMsg (d1 ++ l1 :: d2 ++ l2 :: d3) k m0).comment = v2)
    ∧
    (∀ (d1 d2 d3 : List (List Char)) (l1 l2 : List Char) (k : ℕ) (name : Str)
        (v1 v2 : Str) (msgs0 : List (ℕ × Message)) (m0 : Message) (sg0 : Signal),
        cmSigMatch? l1 = some (k, name, v1) →
        cmSigMatch? l2 = some (k, name, v2) →
        (∀ l ∈ d3, ∀ v, ¬ cmSigMatch? l = some (k, name, v)) →
        basePass (d1 ++ l1 :: d2 ++ l2 :: d3) = Except.ok msgs0 →
        (k, m0) ∈ msgs0 → (name, sg0) ∈ m0.signals →
        ∃ db, parse_dbc (d1 ++ l1 :: d2 ++ l2 :: d3) = Except.ok db
          ∧ (k, overlayMsg (d1 ++ l1 :: d2 ++ l2 :: d3) k m0) ∈ db.messages
          ∧ (name, sigAttrEntrySig (d1 ++ l1 :: d2 ++ l2 :: d3) k name sg0)
              ∈ (overlayMsg (d1 ++ l1 :: d2 ++ l2 :: d3) k m0).signals
          ∧ (sigAttrEntrySig (d1 ++ l1 :: d2 ++ l2 :: d3) k name sg0).comment = v2)
    ∧
    (∀ (d1 d2 d3 : List (List Char)) (l1 l2 : List Char) (k : ℕ) (name : Str)
        (v1 v2 : Str) (msgs0 : List (ℕ × Message)) (m0 : Message) (sg0 : Signal),
        valMatch? l1 = some (k, name, v1) →
        valMatch? l2 = some (k, name, v2) →
        (∀ l ∈ d3, ∀ v, ¬ valMatch? l = some (k, name, v)) →
        basePass (d1 ++ l1 :: d2 ++ l2 :: d3) = Except.ok msgs0 →
        (k, m0) ∈ msgs0 → (name, sg0) ∈ m0.signals →
        ∃ db, parse_dbc (d1 ++ l1 :: d2 ++ l2 :: d3) = Except.ok db
          ∧ (k, overlayMsg (d1 ++ l1 :: d2 ++ l2 :: d3) k m0) ∈ db.messages
          ∧ (name, sigAttrEntrySig (d1 ++ l1 :: d2 ++ l2 :: d3) k name sg0)
              ∈ (overlayMsg (d1 ++ l1 :: d2 ++ l2 :: d3) k m0).signals
          ∧ (sigAttrEntrySig (d1 ++ l1 :: d2 ++ l2 :: d3) k name sg0).value_desc
              = descOfValPayload v2)
    ∧
    (∀ (d1 d2 : List (List Char)) (bo : List Char) (k : ℕ) (nm tx : List Char)
        (dlc : ℕ) (s1 : BaseState) (mfin : Message),
        msgMatch? bo = some (k, nm, dlc, tx) →
        (∀ l ∈ d2, msgMatch? l = none) →
        d1.foldl baseStep (Except.ok ⟨[], none⟩) = Except.ok s1 →
        d2.foldl sigFold (Except.ok (mkMessage k nm dlc tx)) = Except.ok mfin →
        basePass (d1 ++ bo :: d2) = Except.ok (odInsert (flushCur s1) k mfin)
          ∧ lastVal (odInsert (flushCur s1) k mfin) k = some mfin
          ∧ ∃ db, parse_dbc (d1 ++ bo :: d2) = Except.ok db
              ∧ (k, overlayMsg (d1 ++ bo :: d2) k mfin) ∈ db.messages)
    ∧
    (∀ (d1 b0 b2 e3 : List (List Char)) (bo ls1 ls2 : List Char) (k : ℕ)
        (nm tx : List Char) (dlc : ℕ) (s1 : BaseState) (mfin : Message)
        (g1 g2 : SigGroups) (fa2 off2 mn2 mx2 : ℚ),
        msgMatch? bo = some (k, nm, dlc, tx) →
        (∀ l ∈ (b0 ++ ls1 :: b2) ++ ls2 :: e3, msgMatch? l = none) →
        sigMatch? ls1 = some g1 → g1.name = g2.name →
        sigMatch? ls2 = some g2 →
        pyFloat? g2.factorS = some fa2 → pyFloat? g2.offsetS = some off2 →
        pyFloat? g2.minS = some mn2 → pyFloat? g2.maxS = some mx2 →
        (∀ l ∈ e3, ∀ g, sigMatch? l = some g → g.name ≠ g2.name) →
        d1.foldl baseStep (Except.ok ⟨[], none⟩) = Except.ok s1 →
        ((b0 ++ ls1 :: b2) ++ ls2 :: e3).foldl sigFold
            (Except.ok (mkMessage k nm dlc tx)) = Except.ok mfin →
        basePass (d1 ++ bo :: ((b0 ++ ls1 :: b2) ++ ls2 :: e3))
            = Except.ok (odInsert (flushCur s1) k mfin)
          ∧ lastVal mfin.signals g2.name
              = some (mkSignal g2 fa2 off2 mn2 mx2)) := by
  have hmsg : ∀ (doc : List (List Char)) (msgs0 : List (ℕ × Message)) (k : ℕ)
      (m0 : Message), basePass doc = Except.ok msgs0 → (k, m0) ∈ msgs0 →
      ∃ db, parse_dbc doc = Except.ok db
        ∧ (k, overlayMsg doc k m0) ∈ db.messages := by
    intro doc msgs0 k m0 hbase hmem
    refine ⟨_, parse_dbc_ok_shape doc msgs0 hbase, ?_⟩
    exact List.mem_map.mpr ⟨(k, m0), hmem, rfl⟩
  refine ⟨?_, ?_, ?_, ?_, ?_, ?_, ?_, ?_, ?_⟩
  · intro s hs d1 d2 d3 l1 l2 k v1 v2 msgs0 m0 h1 h2 h3 hbase hmem
    obtain ⟨db, hdb, hdbmem⟩ := hmsg _ msgs0 k m0 hbase hmem
    refine ⟨db, hdb, hdbmem, ?_⟩
    rw [overlayMsg_get_int _ k m0 s hs,
      lastVal_doc_last (baMsgIntMatch? s.attr) d1 d2 d3 l1 l2 k v2 h2 h3]
  · intro d1 d2 d3 l1 l2 k v1 v2 msgs0 m0 h1 h2 h3 hbase hmem
    obtain ⟨db, hdb, hdbmem⟩ := hmsg _ msgs0 k m0 hbase hmem
    refine ⟨db, hdb, hdbmem, ?_⟩
    rw [overlayMsg_long_symbol _ k m0,
      lastVal_doc_last (baMsgStrMatch? ("SystemMessageLongSymbol".data))
        d1 d2 d3 l1 l2 k v2 h2 h3]
  · intro s hs d1 d2 d3 l1 l2 k name v1 v2 msgs0 m0 sg0 h1 h2 h3 hbase hmem hsg
    obtain ⟨db, hdb, hdbmem⟩ := hmsg _ msgs0 k m0 hbase hmem
    refine ⟨db, hdb, hdbmem, ?_, ?_⟩
    · rw [overlayMsg_signals _ k m0]
      exact List.mem_map.mpr ⟨(name, sg0), hsg, rfl⟩
    · rw [sigAttrEntrySig_get_int _ k name sg0 s hs,
        lastVal_doc_last (baSigIntMatch? s.attr) d1 d2 d3 l1 l2 (k, name) v2 h2 h3]
  · intro s hs d1 d2 d3 l1 l2 k name v1 v2 msgs0 m0 sg0 h1 h2 h3 hbase hmem hsg
    obtain ⟨db, hdb, hdbmem⟩ := hmsg _ msgs0 k m0 hbase hmem
    refine ⟨db, hdb, hdbmem, ?_, ?_⟩
    · rw [overlayMsg_signals _ k m0]
      exact List.mem_map.mpr ⟨(name, sg0), hsg, rfl⟩
    · rw [sigAttrEntrySig_get_str _ k name sg0 s hs,
        lastVal_doc_last (baSigStrMatch? s.attr) d1 d2 d3 l1 l2 (k, name) v2 h2 h3]
  · intro d1 d2 d3 l1 l2 k v1 v2 msgs0 m0 h1 h2 h3 hbase hmem
    obtain ⟨db, hdb, hdbmem⟩ := hmsg _ msgs0 k m0 hbase hmem
    refine ⟨db, hdb, hdbmem, ?_⟩
    rw [overlayMsg_comment _ k m0,
      lastVal_doc_last cmMsgMatch? d1 d2 d3 l1 l2 k v2 h2 h3]
  · intro d1 d2 d3 l1 l2 k name v1 v2 msgs0 m0 sg0 h1 h2 h3 hbase hmem hsg
    obtain ⟨db, hdb, hdbmem⟩ := hmsg _ msgs0 k m0 hbase hmem
    refine ⟨db, hdb, hdbmem, ?_, ?_⟩
    · rw [overlayMsg_signals _ k m0]
      exact List.mem_map.mpr ⟨(name, sg0), hsg, rfl⟩
    · rw [sigAttrEntrySig_comment _ k name sg0, List.map_filterMap]
      rw [lastVal_doc_last (fun l => (cmSigMatch? l).map
          (fun t => ((t.1, t.2.1), t.2.2))) d1 d2 d3 l1 l2 (k, name) v2
        (by simp only [h2]; rfl) ?_]
      intro l hl v hcv
      rcases Option.map_eq_some'.mp hcv with ⟨t, ht, hteq⟩
      refine h3 l hl v ?_
      rw [ht]
      refine congrArg some ?_
      exact Prod.ext (congrArg (fun p => p.1.1) hteq)
        (Prod.ext (congrArg (fun p => p.1.2) hteq) (congrArg (fun p => p.2) hteq))
  · intro d1 d2 d3 l1 l2 k name v1 v2 msgs0 m0 sg0 h1 h2 h3 hbase hmem hsg
    obtain ⟨db, hdb, hdbmem⟩ := hmsg _ msgs0 k m0 hbase hmem
    refine ⟨db, hdb, hdbmem, ?_, ?_⟩
    · rw [overlayMsg_signals _ k m0]
      exact List.mem_map.mpr ⟨(name, sg0), hsg, rfl⟩
    · rw [sigAttrEntrySig_value_desc _ k name sg0, List.map_filterMap]
      rw [lastVal_doc_last (fun l => (valMatch? l).map
          (fun t => ((t.1, t.2.1), t.2.2))) d1 d2 d3 l1 l2 (k, name) v2
        (by simp only [h2]; rfl) ?_]
      intro l hl v hcv
      rcases Option.map_eq_some'.mp hcv with ⟨t, ht, hteq⟩
      refine h3 l hl v ?_
      rw [ht]
      refine congrArg some ?_
      exact Prod.ext (congrArg (fun p => p.1.1) hteq)
        (Prod.ext (congrArg (fun p => p.1.2) hteq) (congrArg (fun p => p.2) hteq))
  · intro d1 d2 bo k nm tx dlc s1 mfin hbo hno hd1 hsig
    have hbase := basePass_lastBlock d1 d2 bo k nm tx dlc s1 mfin hbo hno hd1 hsig
    refine ⟨hbase, ?_, ?_⟩
    · rw [lastVal_odInsert]
      exact if_pos rfl
    · exact hmsg _ _ k mfin hbase (mem_odInsert_self _ k mfin)
  · intro d1 b0 b2 e3 bo ls1 ls2 k nm tx dlc s1 mfin g1 g2 fa2 off2 mn2 mx2
      hbo hno hsg1 hname hsg2 hfa hoff hmn hmx hlast hd1 hsig
    refine ⟨basePass_lastBlock d1 _ bo k nm tx dlc s1 mfin hbo hno hd1 hsig, ?_⟩
    exact foldl_sigFold_last (b0 ++ ls1 :: b2) e3 ls2 g2 fa2 off2 mn2 mx2
      hsg2 hfa hoff hmn hmx hlast _ mfin hsig

theorem no_match_key {κ β : Type} [DecidableEq κ] (f : List Char → Option (κ × β))
    (d : List (List Char)) (k : κ)
    (h : ∀ l ∈ d, (f l).all (fun p => decide (p.1 ≠ k)) = true) :
    ∀ l ∈ d, ∀ v, ¬ f l = some (k, v) := by
  intro l hl v hv
  have h2 := h l hl
  rw [hv] at h2
  simp at h2

theorem duplicate_records_last_write_wins_witness :
    (∃ db, parse_dbc docW9 = Except.ok db
      ∧ (5, overlayMsg docW9 5 mW9) ∈ db.messages
      ∧ (overlayMsg docW9 5 mW9).cycle_time = 20)
    ∧ (∃ db, parse_dbc docW9 = Except.ok db
      ∧ (5, overlayMsg docW9 5 mW9) ∈ db.messages
      ∧ (overlayMsg docW9 5 mW9).long_symbol = ("L2".data))
    ∧ (∃ db, parse_dbc docW9 = Except.ok db
      ∧ (5, overlayMsg docW9 5 mW9) ∈ db.messages
      ∧ ("S".data, sigAttrEntrySig docW9 5 ("S".data) sgW9)
          ∈ (overlayMsg docW9 5 mW9).signals
      ∧ (sigAttrEntrySig docW9 5 ("S".data) sgW9).start_value = 2)
    ∧ (∃ db, parse_dbc docW9 = Except.ok db
      ∧ (5, overlayMsg docW9 5 mW9) ∈ db.messages
      ∧ ("S".data, sigAttrEntrySig docW9 5 ("S".data) sgW9)
          ∈ (overlayMsg docW9 5 mW9).signals
      ∧ (sigAttrEntrySig docW9 5 ("S".data) sgW9).invalid_value = ("B".data))
    ∧ (∃ db, parse_dbc docW9 = Except.ok db
      ∧ (5, overlayMsg docW9 5 mW9) ∈ db.messages
      ∧ (overlayMsg docW9 5 mW9).comment = ("c2".data))
    ∧ (∃ db, parse_dbc docW9 = Except.ok db
      ∧ (5, overlayMsg docW9 5 mW9) ∈ db.messages
      ∧ ("S".data, sigAttrEntrySig docW9 5 ("S".data) sgW9)
          ∈ (overlayMsg docW9 5 mW9).signals
      ∧ (sigAttrEntrySig docW9 5 ("S".data) sgW9).comment = ("s2".data))
    ∧ (∃ db, parse_dbc docW9 = Except.ok db
      ∧ (5, overlayMsg docW9 5 mW9) ∈ db.messages
      ∧ ("S".data, sigAttrEntrySig docW9 5 ("S".data) sgW9)
          ∈ (overlayMsg docW9 5 mW9).signals
      ∧ (sigAttrEntrySig docW9 5 ("S".data) sgW9).value_desc
          = descOfValPayload ("1 \"on\"".data))
    ∧ (basePass [lwOld, lwA, lwB] = Except.ok (odInsert (flushCur s1W8) 5 mW9)
      ∧ lastVal (odInsert (flushCur s1W8) 5 mW9) 5 = some mW9
      ∧ ∃ db, parse_dbc [lwOld, lwA, lwB] = Except.ok db
          ∧ (5, overlayMsg [lwOld, lwA, lwB] 5 mW9) ∈ db.messages)
    ∧ (basePass [lwBo9, lwT1, lwT2]
          = Except.ok (odInsert (flushCur ⟨[], none⟩) 7 mfin9)
      ∧ lastVal mfin9.signals ("T".data) = some (mkSignal gW9T2 2 0 0 5)) := by
  obtain ⟨t1, t2, t3, t4, t5, t6, t7, t8, t9⟩ := duplicate_records_last_write_wins
  have hb : basePass docW9 = Except.ok [(5, mW9)] := by rfl
  refine ⟨?_, ?_, ?_, ?_, ?_, ?_, ?_, ?_, ?_⟩
  · exact t1 ⟨"GenMsgCycleTime".data, fun v m => { m with cycle_time := v },
      Message.cycle_time, 0⟩
      (by unfold msgIntAttrSpecs; exact List.mem_cons_self _ _)
      [lwA, lwB] [] [lw5, lw6, lw7, lw8, lw9, lw10, lw11, lw12, lw13, lw14, lw15, lw16]
      lw3 lw4 5 10 20 [(5, mW9)] mW9
      (by decide) (by decide)
      (no_match_key (baMsgIntMatch? ("GenMsgCycleTime".data))
        [lw5, lw6, lw7, lw8, lw9, lw10, lw11, lw12, lw13, lw14, lw15, lw16] 5
        (by decide))
      hb (List.mem_cons_self _ _)
  · exact t2 [lwA, lwB, lw3, lw4] []
      [lw7, lw8, lw9, lw10, lw11, lw12, lw13, lw14, lw15, lw16]
      lw5 lw6 5 ("L1".data) ("L2".data) [(5, mW9)] mW9
      (by decide) (by decide)
      (no_match_key (baMsgStrMatch? ("SystemMessageLongSymbol".data))
        [lw7, lw8, lw9, lw10, lw11, lw12, lw13, lw14, lw15, lw16] 5 (by decide))
      hb (List.mem_cons_self _ _)
  · exact t3 ⟨"GenSigStartValue".data, fun v s => { s with start_value := v },
      Signal.start_value, 0⟩
      (by unfold sigIntAttrSpecs; exact List.mem_cons_self _ _)
      [lwA, lwB, lw3, lw4, lw5, lw6] []
      [lw9, lw10, lw11, lw12, lw13, lw14, lw15, lw16]
      lw7 lw8 5 ("S".data) 1 2 [(5, mW9)] mW9 sgW9
      (by decide) (by decide)
      (no_match_key (baSigIntMatch? ("GenSigStartValue".data))
        [lw9, lw10, lw11, lw12, lw13, lw14, lw15, lw16] (5, "S".data) (by decide))
      hb (List.mem_cons_self _ _) (List.mem_cons_self _ _)
  · exact t4 ⟨"InvalidValue".data, fun v s => { s with invalid_value := v },
      Signal.invalid_value⟩
      (by unfold sigStrAttrSpecs; exact List.mem_cons_self _ _)
      [lwA, lwB, lw3, lw4, lw5, lw6, lw7, lw8] []
      [lw11, lw12, lw13, lw14, lw15, lw16]
      lw9 lw10 5 ("S".data) ("A".data) ("B".data) [(5, mW9)] mW9 sgW9
      (by decide) (by decide)
      (no_match_key (baSigStrMatch? ("InvalidValue".data))
        [lw11, lw12, lw13, lw14, lw15, lw16] (5, "S".data) (by decide))
      hb (List.mem_cons_self _ _) (List.mem_cons_self _ _)
  · exact t5 [lwA, lwB, lw3, lw4, lw5, lw6, lw7, lw8, lw9, lw10] []
      [lw13, lw14, lw15, lw16]
      lw11 lw12 5 ("c1".data) ("c2".data) [(5, mW9)] mW9
      (by decide) (by decide)
      (no_match_key cmMsgMatch? [lw13, lw14, lw15, lw16] 5 (by decide))
      hb (List.mem_cons_self _ _)
  · exact t6 [lwA, lwB, lw3, lw4, lw5, lw6, lw7, lw8, lw9, lw10, lw11, lw12] []
      [lw15, lw16]
      lw13 lw14 5 ("S".data) ("s1".data) ("s2".data) [(5, mW9)] mW9 sgW9
      (by decide) (by decide)
      (fun l hl v =>
        no_match_key cmSigMatch? [lw15, lw16] 5 (by decide) l hl ("S".data, v))
      hb (List.mem_cons_self _ _) (List.mem_cons_self _ _)
  · exact t7 [lwA, lwB, lw3, lw4, lw5, lw6, lw7, lw8, lw9, lw10, lw11, lw12,
        lw13, lw14] [] []
      lw15 lw16 5 ("S".data) ("0 \"off\"".data) ("1 \"on\"".data) [(5, mW9)] mW9 sgW9
      (by decide) (by decide)
      (by intro l hl; exact absurd hl (List.not_mem_nil l))
      hb (List.mem_cons_self _ _) (List.mem_cons_self _ _)
  · exact t8 [lwOld] [lwB] lwA 5 ("M".data) ("N".data) 8 s1W8 mW9
      (by decide) (by decide) (by rfl) (by rfl)
  · exact t9 [] [] [] [] lwBo9 lwT1 lwT2 7 ("M".data) ("N".data) 8
      ⟨[], none⟩ mfin9 gW9T1 gW9T2 2 0 0 5
      (by decide) (by decide) (by decide) (by decide) (by decide)
      (by decide) (by decide) (by decide) (by decide)
      (by intro l hl; exact absurd hl (List.not_mem_nil l))
      (by rfl) (by rfl)

theorem lastVal_eq_none {κ β : Type} [DecidableEq κ] (ms : List (κ × β)) (k : κ)
    (h : ∀ p ∈ ms, p.1 ≠ k) : lastVal ms k = none := by
  unfold lastVal
  induction ms with
  | nil => rfl
  | cons p ps ih =>
    rw [List.foldl_cons, if_neg (h p (List.mem_cons_self _ _))]
    exact ih (fun q hq => h q (List.mem_cons_of_mem _ hq))

theorem mem_odInsert {κ α : Type} [DecidableEq κ] {l : List (κ × α)} {k : κ}
    {v : α} {p : κ × α} (h : p ∈ odInsert l k v) : p ∈ l ∨ p = (k, v) := by
  unfold odInsert at h
  by_cases ha : l.any (fun q => decide (q.1 = k)) = true
  · rw [if_pos ha] at h
    rcases List.mem_map.mp h with ⟨q, hq, hqe⟩
    by_cases hqk : q.1 = k
    · rw [if_pos hqk] at hqe
      exact Or.inr hqe.symm
    · rw [if_neg hqk] at hqe
      exact Or.inl (hqe ▸ hq)
  · rw [if_neg ha] at h
    rcases List.mem_append.mp h with h1 | h2
    · exact Or.inl h1
    · exact Or.inr (List.mem_singleton.mp h2)

theorem flushCur_forall {P : Message → Prop} (st : BaseState)
    (h1 : ∀ p ∈ st.msgs, P p.2) (h2 : ∀ m, st.cur = some m → P m) :
    ∀ p ∈ flushCur st, P p.2 := by
  intro p hp
  unfold flushCur at hp
  cases hcur : st.cur with
  | none =>
    rw [hcur] at hp
    exact h1 p hp
  | some m =>
    rw [hcur] at hp
    rcases mem_odInsert hp with hin | heq
    · exact h1 p hin
    · rw [heq]
      exact h2 m hcur

theorem baseStep_state_cases (st : BaseState) (l : List Char) :
    baseStep (Except.ok st) l = Except.error ()
    ∨ baseStep (Except.ok st) l = Except.ok st
    ∨ (∃ id nm dlc tx, msgMatch? l = some (id, nm, dlc, tx) ∧
        baseStep (Except.ok st) l
          = Except.ok ⟨flushCur st, some (mkMessage id nm dlc tx)⟩)
    ∨ (∃ m g fa off mn mx, st.cur = some m ∧
        baseStep (Except.ok st) l
          = Except.ok ⟨st.msgs, some { m with
              signals := odInsert m.signals g.name (mkSignal g fa off mn mx) }⟩) := by
  cases hm : msgMatch? l with
  | some r =>
    refine Or.inr (Or.inr (Or.inl ⟨r.1, r.2.1, r.2.2.1, r.2.2.2, rfl, ?_⟩))
    simp only [baseStep, hm]
  | none =>
    cases hcur : st.cur with
    | none =>
      refine Or.inr (Or.inl ?_)
      simp only [baseStep, hm, hcur]
    | some m =>
      cases hsg : sigMatch? l with
      | none =>
        refine Or.inr (Or.inl ?_)
        simp only [baseStep, hm, hcur, hsg]
      | some g =>
        cases hfa : pyFloat? g.factorS with
        | none => exact Or.inl (by simp only [baseStep, hm, hcur, hsg, hfa])
        | some fa =>
          cases hoff : pyFloat? g.offsetS with
          | none => exact Or.inl (by simp only [baseStep, hm, hcur, hsg, hfa, hoff])
          | some off =>
            cases hmn : pyFloat? g.minS with
            | none =>
              exact Or.inl (by simp only [baseStep, hm, hcur, hsg, hfa, hoff, hmn])
            | some mn =>
              cases hmx : pyFloat? g.maxS with
              | none =>
                exact Or.inl
                  (by simp only [baseStep, hm, hcur, hsg, hfa, hoff, hmn, hmx])
              | some mx =>
                refine Or.inr (Or.inr (Or.inr ⟨m, g, fa, off, mn, mx, rfl, ?_⟩))
                simp only [baseStep, hm, hcur, hsg, hfa, hoff, hmn, hmx]

theorem foldl_baseStep_cycle_time :
    ∀ (doc : List (List Char)) (st stf : BaseState),
      doc.foldl baseStep (Except.ok st) = Except.ok stf →
      (∀ p ∈ st.msgs, p.2.cycle_time = 0) →
      (∀ m, st.cur = some m → m.cycle_time = 0) →
      (∀ p ∈ stf.msgs, p.2.cycle_time = 0)
        ∧ (∀ m, stf.cur = some m → m.cycle_time = 0) := by
  intro doc
  induction doc with
  | nil =>
    intro st stf h h1 h2
    cases h
    exact ⟨h1, h2⟩
  | cons l ls ih =>
    intro st stf h h1 h2
    rw [List.foldl_cons] at h
    rcases baseStep_state_cases st l with he | hs | ⟨id, nm, dlc, tx, _, hd⟩
      | ⟨m, g, fa, off, mn, mx, hcur, hg⟩
    · rw [he, foldl_baseStep_error] at h
      cases h
    · rw [hs] at h
      exact ih st stf h h1 h2
    · rw [hd] at h
      refine ih _ stf h ?_ ?_
      · exact flushCur_forall st h1 h2
      · intro m hm
        cases hm
        rfl
    · rw [hg] at h
      refine ih _ stf h h1 ?_
      intro m1 hm1
      cases hm1
      show m.cycle_time = 0
      exact h2 m hcur

theorem basePass_cycle_time (doc : List (List Char)) (msgs0 : List (ℕ × Message))
    (hb : basePass doc = Except.ok msgs0) :
    ∀ p ∈ msgs0, p.2.cycle_time = 0 := by
  unfold basePass at hb
  cases hfold : doc.foldl baseStep (Except.ok ⟨[], none⟩) with
  | error e =>
    rw [hfold] at hb
    cases hb
  | ok st =>
    rw [hfold] at hb
    have hinv := foldl_baseStep_cycle_time doc ⟨[], none⟩ st hfold
      (fun p hp => absurd hp (List.not_mem_nil p))
      (fun m hm => Option.noConfusion hm)
    cases hb
    exact flushCur_forall st hinv.1 hinv.2

theorem mem_foldl_insert_iff {p : ℕ → Prop} [DecidablePred p] :
    ∀ (l : List ℕ) (s : Finset ℕ) (i : ℕ),
      i ∈ l.foldl (fun s j => if p j then insert j s else s) s
        ↔ i ∈ s ∨ (i ∈ l ∧ p i) := by
  intro l
  induction l with
  | nil =>
    intro s i
    simp
  | cons j js ih =>
    intro s i
    rw [List.foldl_cons, ih]
    by_cases hpj : p j
    · rw [if_pos hpj]
      constructor
      · intro h
        rcases h with h | h
        · rcases Finset.mem_insert.mp h with rfl | h
          · exact Or.inr ⟨List.mem_cons_self _ _, hpj⟩
          · exact Or.inl h
        · exact Or.inr ⟨List.mem_cons_of_mem _ h.1, h.2⟩
      · intro h
        rcases h with h | ⟨hmem, hpi⟩
        · exact Or.inl (Finset.mem_insert_of_mem h)
        · rcases List.mem_cons.mp hmem with rfl | h
          · exact Or.inl (Finset.mem_insert_self _ _)
          · exact Or.inr ⟨h, hpi⟩
    · rw [if_neg hpj]
      constructor
      · intro h
        rcases h with h | h
        · exact Or.inl h
        · exact Or.inr ⟨List.mem_cons_of_mem _ h.1, h.2⟩
      · intro h
        rcases h with h | ⟨hmem, hpi⟩
        · exact Or.inl h
        · rcases List.mem_cons.mp hmem with rfl | h
          · exact absurd hpi hpj
          · exact Or.inr ⟨h, hpi⟩

/-- **C6.**  The differ's field equality normalizes a whole-number float to
its integer form (so `5.0` and `5` never differ), `check_row_diff` flags a
column only when the normalized cells differ, a message whose id never
receives a `GenMsgCycleTime` record leaves the parse with the documented
default cycle time `0`, and two messages with equal cycle times are never
flagged on the cycle-time column of the summary row. -/
theorem normalization_float_int_and_defaults :
    (∀ (q : ℚ) (z : ℤ), q = (z : ℚ) →
      normalize_val (Val.float q) = normalize_val (Val.int z))
    ∧ (∀ (o n : List Val) (i : ℕ),
        normalize_val (o.getD i Val.none) = normalize_val (n.getD i Val.none) →
        i ∉ (check_row_diff o n).2)
    ∧ (∀ (doc : List (List Char)) (msgs0 : List (ℕ × Message)) (k : ℕ)
        (m0 : Message),
        basePass doc = Except.ok msgs0 → (k, m0) ∈ msgs0 →
        (∀ l ∈ doc, ∀ v, ¬ baMsgIntMatch? ("GenMsgCycleTime".data) l = some (k, v)) →
        (overlayMsg doc k m0).cycle_time = 0)
    ∧ (∀ (m1 m2 : Message), m1.cycle_time = m2.cycle_time →
        5 ∉ (check_row_diff (build_msg_summary_row m1)
          (build_msg_summary_row m2)).2) := by
  have hcell : ∀ (o n : List Val) (i : ℕ),
      normalize_val (o.getD i Val.none) = normalize_val (n.getD i Val.none) →
      i ∉ (check_row_diff o n).2 := by
    intro o n i heq hmem
    simp only [check_row_diff] at hmem
    have hiff := @mem_foldl_insert_iff
      (fun j => normalize_val (o.getD j Val.none) ≠ normalize_val (n.getD j Val.none))
      _ (List.range o.length) ∅ i
    rcases hiff.mp hmem with h | h
    · exact absurd h (Finset.not_mem_empty i)
    · exact h.2 heq
  refine ⟨?_, hcell, ?_, ?_⟩
  · intro q z hq
    subst hq
    simp [normalize_val]
  · intro doc msgs0 k m0 hb hmem hno
    have h0 : m0.cycle_time = 0 := basePass_cycle_time doc msgs0 hb (k, m0) hmem
    have hspec : specCT ∈ msgIntAttrSpecs := by
      unfold specCT msgIntAttrSpecs
      exact List.mem_cons_self _ _
    have hread := overlayMsg_get_int doc k m0 specCT hspec
    have hnone : lastVal (doc.filterMap (baMsgIntMatch? specCT.attr)) k = none := by
      refine lastVal_eq_none _ k ?_
      intro p hp hpk
      rcases List.mem_filterMap.mp hp with ⟨l, hl, hfl⟩
      refine hno l hl p.2 ?_
      show baMsgIntMatch? specCT.attr l = some (k, p.2)
      rw [hfl]
      exact congrArg some (Prod.ext hpk rfl)
    refine Eq.trans hread ?_
    cases hlv : lastVal (doc.filterMap (baMsgIntMatch? specCT.attr)) k with
    | some v =>
      rw [hnone] at hlv
      cases hlv
    | none => exact h0
  · intro m1 m2 hct
    refine hcell _ _ 5 ?_
    show normalize_val (Val.int m1.cycle_time) = normalize_val (Val.int m2.cycle_time)
    rw [hct]

theorem normalization_float_int_and_defaults_witness :
    (normalize_val (Val.float ((5 : ℚ))) = normalize_val (Val.int 5))
    ∧ (0 ∉ (check_row_diff [Val.float ((5 : ℚ))] [Val.int 5]).2)
    ∧ ((overlayMsg docW6 5 mW9).cycle_time = 0)
    ∧ (5 ∉ (check_row_diff (build_msg_summary_row mW9)
        (build_msg_summary_row { mW9 with cycle_time := 0 })).2) := by
  obtain ⟨c1, c2, c3, c4⟩ := normalization_float_int_and_defaults
  refine ⟨?_, ?_, ?_, ?_⟩
  · exact c1 ((5 : ℚ)) 5 (by norm_num)
  · exact c2 [Val.float ((5 : ℚ))] [Val.int 5] 0 (by decide)
  · exact c3 docW6 [(5, mW9)] 5 mW9 (by rfl) (List.mem_cons_self _ _)
      (no_match_key (baMsgIntMatch? ("GenMsgCycleTime".data)) docW6 5 (by decide))
  · exact c4 mW9 { mW9 with cycle_time := 0 } (by rfl)

theorem foldl_congr_full {β γ : Type} (l : List γ) (f g : β → γ → β) (a b : β)
    (hab : a = b) (h : ∀ x, ∀ t ∈ l, f x t = g x t) :
    l.foldl f a = l.foldl g b := by
  subst hab
  exact foldl_congr_mem l f g a h

theorem lastVal_insert_stable {κ β : Type} [DecidableEq κ]
    (f : List Char → Option (κ × β)) (d1 d2 : List (List Char)) (L : List Char)
    (k : κ) (h : ∀ p, f L = some p → p.1 ≠ k) :
    lastVal ((d1 ++ L :: d2).filterMap f) k
      = lastVal ((d1 ++ d2).filterMap f) k := by
  rw [List.filterMap_append, List.filterMap_append, List.filterMap_cons]
  cases hL : f L with
  | none => rfl
  | some p =>
    unfold lastVal
    rw [List.foldl_append, List.foldl_append, List.foldl_cons,
      if_neg (h p hL)]

theorem findSome_middle_none {α : Type} (f : List Char → Option α)
    (d2 : List (List Char)) (L : List Char) (h : f L = none) :
    ∀ d1 : List (List Char),
      (d1 ++ L :: d2).findSome? f = (d1 ++ d2).findSome? f := by
  intro d1
  induction d1 with
  | nil =>
    show (L :: d2).findSome? f = d2.findSome? f
    rw [List.findSome?_cons, h]
  | cons a d1 ih =>
    show (a :: (d1 ++ L :: d2)).findSome? f = (a :: (d1 ++ d2)).findSome? f
    rw [List.findSome?_cons, List.findSome?_cons, ih]

theorem baseStep_skip (st : BaseState) (l : List Char)
    (h1 : msgMatch? l = none) (h2 : sigMatch? l = none) :
    baseStep (Except.ok st) l = Except.ok st := by
  cases hcur : st.cur with
  | none => simp only [baseStep, h1, hcur]
  | some m => simp only [baseStep, h1, hcur, h2]

theorem basePass_skip (d1 d2 : List (List Char)) (L : List Char)
    (h1 : msgMatch? L = none) (h2 : sigMatch? L = none) :
    basePass (d1 ++ L :: d2) = basePass (d1 ++ d2) := by
  unfold basePass
  rw [List.foldl_append, List.foldl_append, List.foldl_cons]
  cases hst : d1.foldl baseStep (Except.ok ⟨[], none⟩) with
  | error e => rfl
  | ok st => rw [baseStep_skip st L h1 h2]

theorem ovlLongSym_signals_any (doc : List (List Char)) (k : ℕ) (x : Message) :
    (ovlLongSym doc k x).signals = x.signals := by
  unfold ovlLongSym
  cases lastVal (doc.filterMap (baMsgStrMatch? ("SystemMessageLongSymbol".data))) k
  · rfl
  · rfl

theorem sigAttrEntrySig_congr (docA docB : List (List Char)) (k : ℕ) (name : Str)
    (sg : Signal)
    (hint : ∀ s ∈ sigIntAttrSpecs,
      lastVal (docA.filterMap (baSigIntMatch? s.attr)) (k, name)
        = lastVal (docB.filterMap (baSigIntMatch? s.attr)) (k, name))
    (hstr : ∀ s ∈ sigStrAttrSpecs,
      lastVal (docA.filterMap (baSigStrMatch? s.attr)) (k, name)
        = lastVal (docB.filterMap (baSigStrMatch? s.attr)) (k, name))
    (hval : lastVal ((docA.filterMap valMatch?).map
          (fun t => ((t.1, t.2.1), t.2.2))) (k, name)
        = lastVal ((docB.filterMap valMatch?).map
          (fun t => ((t.1, t.2.1), t.2.2))) (k, name))
    (hcm : lastVal ((docA.filterMap cmSigMatch?).map
          (fun t => ((t.1, t.2.1), t.2.2))) (k, name)
        = lastVal ((docB.filterMap cmSigMatch?).map
          (fun t => ((t.1, t.2.1), t.2.2))) (k, name)) :
    sigAttrEntrySig docA k name sg = sigAttrEntrySig docB k name sg := by
  unfold sigAttrEntrySig
  rw [hval, hcm]
  cases hc : lastVal ((docB.filterMap cmSigMatch?).map
      (fun t => ((t.1, t.2.1), t.2.2))) (k, name) with
  | some c =>
    cases hv : lastVal ((docB.filterMap valMatch?).map
        (fun t => ((t.1, t.2.1), t.2.2))) (k, name) with
    | some p =>
      refine congrArg (fun x : Signal =>
        ({ ({ x with value_desc := descOfValPayload p } : Signal)
          with comment := c } : Signal)) ?_
      refine foldl_congr_full sigStrAttrSpecs _ _ _ _ ?_ ?_
      · refine foldl_congr_full sigIntAttrSpecs _ _ sg sg rfl ?_
        intro x t ht
        rw [hint t ht]
      · intro x t ht
        rw [hstr t ht]
    | none =>
      refine congrArg (fun x : Signal => ({ x with comment := c } : Signal)) ?_
      refine foldl_congr_full sigStrAttrSpecs _ _ _ _ ?_ ?_
      · refine foldl_congr_full sigIntAttrSpecs _ _ sg sg rfl ?_
        intro x t ht
        rw [hint t ht]
      · intro x t ht
        rw [hstr t ht]
  | none =>
    cases hv : lastVal ((docB.filterMap valMatch?).map
        (fun t => ((t.1, t.2.1), t.2.2))) (k, name) with
    | some p =>
      refine congrArg (fun x : Signal =>
        ({ x with value_desc := descOfValPayload p } : Signal)) ?_
      refine foldl_congr_full sigStrAttrSpecs _ _ _ _ ?_ ?_
      · refine foldl_congr_full sigIntAttrSpecs _ _ sg sg rfl ?_
        intro x t ht
        rw [hint t ht]
      · intro x t ht
        rw [hstr t ht]
    | none =>
      refine foldl_congr_full sigStrAttrSpecs _ _ _ _ ?_ ?_
      · refine foldl_congr_full sigIntAttrSpecs _ _ sg sg rfl ?_
        intro x t ht
        rw [hint t ht]
      · intro x t ht
        rw [hstr t ht]

theorem overlayMsg_congr (docA docB : List (List Char)) (k : ℕ) (m : Message)
    (hmi : ∀ s ∈ msgIntAttrSpecs,
      lastVal (docA.filterMap (baMsgIntMatch? s.attr)) k
        = lastVal (docB.filterMap (baMsgIntMatch? s.attr)) k)
    (hls : lastVal (docA.filterMap (baMsgStrMatch? ("SystemMessageLongSymbol".data))) k
        = lastVal (docB.filterMap (baMsgStrMatch? ("SystemMessageLongSymbol".data))) k)
    (hcm : lastVal (docA.filterMap cmMsgMatch?) k
        = lastVal (docB.filterMap cmMsgMatch?) k)
    (hsg : ∀ r ∈ m.signals,
      sigAttrEntrySig docA k r.1 r.2 = sigAttrEntrySig docB k r.1 r.2) :
    overlayMsg docA k m = overlayMsg docB k m := by
  have hE : msgIntAttrEntry docA k m = msgIntAttrEntry docB k m := by
    unfold msgIntAttrEntry
    refine foldl_congr_full msgIntAttrSpecs _ _ m m rfl ?_
    intro x t ht
    rw [hmi t ht]
  have hL : ∀ x : Message, ovlLongSym docA k x = ovlLongSym docB k x := by
    intro x
    unfold ovlLongSym
    rw [hls]
  have hCM : ∀ x : Message, ovlCmMsg docA k x = ovlCmMsg docB k x := by
    intro x
    unfold ovlCmMsg
    rw [hcm]
  rw [← overlayMsg_decompose docA k m, ← overlayMsg_decompose docB k m,
    sig_stages_collapse docA k (ovlLongSym docA k (msgIntAttrEntry docA k m)),
    sig_stages_collapse docB k (ovlLongSym docB k (msgIntAttrEntry docB k m)),
    hE, hL (msgIntAttrEntry docB k m)]
  have hXs : (ovlLongSym docB k (msgIntAttrEntry docB k m)).signals = m.signals := by
    rw [ovlLongSym_signals_any, msgIntAttrEntry_signals]
  have hmap : (ovlLongSym docB k (msgIntAttrEntry docB k m)).signals.map
      (fun r => (r.1, sigAttrEntrySig docA k r.1 r.2))
      = (ovlLongSym docB k (msgIntAttrEntry docB k m)).signals.map
        (fun r => (r.1, sigAttrEntrySig docB k r.1 r.2)) := by
    refine List.map_congr_left ?_
    intro r hr
    rw [hXs] at hr
    exact congrArg (fun s => ((r.1 : Str), s)) (hsg r hr)
  rw [hmap]
  exact hCM _

theorem lastVal_insert_stable_mapped
    (f : List Char → Option (ℕ × List Char × List Char))
    (d1 d2 : List (List Char)) (L : List Char) (key : ℕ × Str)
    (h : ∀ t, f L = some t → ¬((t.1, t.2.1) = key)) :
    lastVal (((d1 ++ L :: d2).filterMap f).map
      (fun t => ((t.1, t.2.1), t.2.2))) key
      = lastVal (((d1 ++ d2).filterMap f).map
        (fun t => ((t.1, t.2.1), t.2.2))) key := by
  rw [List.map_filterMap, List.map_filterMap]
  refine lastVal_insert_stable _ d1 d2 L key ?_
  intro p hp hpk
  rcases Option.map_eq_some'.mp hp with ⟨t, ht, hteq⟩
  refine h t ht ?_
  rw [← hpk]
  exact congrArg Prod.fst hteq

/-- **C8.**  An attribute, comment or value-table record whose message id
names no declared message, or whose signal name names no declared signal of
that message, is silently discarded: parsing the document with the record
equals parsing the document without it, with no error and no entity
modified.  The hypotheses say exactly that the inserted line `L` is not a
declaration, node list or global attribute, and that whatever overlay record
it yields is keyed outside the base declarations. -/
theorem dangling_record_dropped (d1 d2 : List (List Char)) (L : List Char)
    (msgs0 : List (ℕ × Message))
    (hbase : basePass (d1 ++ d2) = Except.ok msgs0)
    (hbo : msgMatch? L = none) (hsg : sigMatch? L = none)
    (hbu : buMatch? L = none)
    (hbt : globalStrAttrMatch? ("BusType".data) L = none)
    (hdn : globalStrAttrMatch? ("DBName".data) L = none)
    (hmi : ∀ s ∈ msgIntAttrSpecs, ∀ k v, baMsgIntMatch? s.attr L = some (k, v) →
      ∀ p ∈ msgs0, p.1 ≠ k)
    (hms : ∀ k v, baMsgStrMatch? ("SystemMessageLongSymbol".data) L = some (k, v) →
      ∀ p ∈ msgs0, p.1 ≠ k)
    (hsi : ∀ s ∈ sigIntAttrSpecs, ∀ k name v,
      baSigIntMatch? s.attr L = some ((k, name), v) →
      ∀ p ∈ msgs0, p.1 = k → ∀ r ∈ p.2.signals, r.1 ≠ name)
    (hss : ∀ s ∈ sigStrAttrSpecs, ∀ k name v,
      baSigStrMatch? s.attr L = some ((k, name), v) →
      ∀ p ∈ msgs0, p.1 = k → ∀ r ∈ p.2.signals, r.1 ≠ name)
    (hvv : ∀ k name v, valMatch? L = some (k, name, v) →
      ∀ p ∈ msgs0, p.1 = k → ∀ r ∈ p.2.signals, r.1 ≠ name)
    (hcs : ∀ k name v, cmSigMatch? L = some (k, name, v) →
      ∀ p ∈ msgs0, p.1 = k → ∀ r ∈ p.2.signals, r.1 ≠ name)
    (hcm : ∀ k v, cmMsgMatch? L = some (k, v) → ∀ p ∈ msgs0, p.1 ≠ k) :
    parse_dbc (d1 ++ L :: d2) = parse_dbc (d1 ++ d2) := by
  have hbase' : basePass (d1 ++ L :: d2) = Except.ok msgs0 := by
    rw [basePass_skip d1 d2 L hbo hsg]
    exact hbase
  rw [parse_dbc_ok_shape (d1 ++ L :: d2) msgs0 hbase',
    parse_dbc_ok_shape (d1 ++ d2) msgs0 hbase]
  have hnodes := findSome_middle_none buMatch? d2 L hbu d1
  have hbt2 := findSome_middle_none (globalStrAttrMatch? ("BusType".data)) d2 L hbt d1
  have hdn2 := findSome_middle_none (globalStrAttrMatch? ("DBName".data)) d2 L hdn d1
  have hmsgs : msgs0.map (fun q => (q.1, overlayMsg (d1 ++ L :: d2) q.1 q.2))
      = msgs0.map (fun q => (q.1, overlayMsg (d1 ++ d2) q.1 q.2)) := by
    refine List.map_congr_left ?_
    intro q hq
    refine congrArg (fun mm => ((q.1 : ℕ), mm)) ?_
    refine overlayMsg_congr _ _ q.1 q.2 ?_ ?_ ?_ ?_
    · intro s hs
      refine lastVal_insert_stable _ d1 d2 L q.1 ?_
      intro p hp hpk
      exact hmi s hs p.1 p.2 hp q hq hpk.symm
    · refine lastVal_insert_stable _ d1 d2 L q.1 ?_
      intro p hp hpk
      exact hms p.1 p.2 hp q hq hpk.symm
    · refine lastVal_insert_stable _ d1 d2 L q.1 ?_
      intro p hp hpk
      exact hcm p.1 p.2 hp q hq hpk.symm
    · intro r hr
      refine sigAttrEntrySig_congr _ _ q.1 r.1 r.2 ?_ ?_ ?_ ?_
      · intro s hs
        refine lastVal_insert_stable _ d1 d2 L (q.1, r.1) ?_
        intro p hp hpk
        refine hsi s hs p.1.1 p.1.2 p.2 hp q hq
          (congrArg Prod.fst hpk).symm r hr ?_
        exact (congrArg Prod.snd hpk).symm
      · intro s hs
        refine lastVal_insert_stable _ d1 d2 L (q.1, r.1) ?_
        intro p hp hpk
        refine hss s hs p.1.1 p.1.2 p.2 hp q hq
          (congrArg Prod.fst hpk).symm r hr ?_
        exact (congrArg Prod.snd hpk).symm
      · refine lastVal_insert_stable_mapped valMatch? d1 d2 L (q.1, r.1) ?_
        intro t ht hteq
        refine hvv t.1 t.2.1 t.2.2 ht q hq (congrArg Prod.fst hteq).symm r hr ?_
        exact (congrArg Prod.snd hteq).symm
      · refine lastVal_insert_stable_mapped cmSigMatch? d1 d2 L (q.1, r.1) ?_
        intro t ht hteq
        refine hcs t.1 t.2.1 t.2.2 ht q hq (congrArg Prod.fst hteq).symm r hr ?_
        exact (congrArg Prod.snd hteq).symm
  rw [hmsgs, hnodes, hbt2, hdn2]

theorem dangling_record_dropped_witness :
    parse_dbc [lwA, lwB, lwD] = parse_dbc [lwA, lwB] := by
  refine dangling_record_dropped [lwA, lwB] [] lwD [(5, mW9)]
    (by rfl) (by decide) (by decide) (by decide) (by decide) (by decide)
    ?_ ?_ ?_ ?_ ?_ ?_ ?_
  · intro s hs k v hkv p hp
    have hall : ∀ t ∈ msgIntAttrSpecs,
        (baMsgIntMatch? t.attr lwD).all (fun pr => decide (pr.1 ≠ 5)) = true := by
      decide
    have h2 := hall s hs
    rw [hkv] at h2
    simp at h2
    rcases List.mem_singleton.mp hp with rfl
    exact fun he => h2 he.symm
  · intro k v hkv p hp
    have hn : baMsgStrMatch? ("SystemMessageLongSymbol".data) lwD = none := by decide
    rw [hn] at hkv
    exact Option.noConfusion hkv
  · intro s hs k name v hkv p hp hpk r hr
    have hn : ∀ t ∈ sigIntAttrSpecs, (baSigIntMatch? t.attr lwD).isNone = true := by
      decide
    have h2 := hn s hs
    rw [hkv] at h2
    simp at h2
  · intro s hs k name v hkv p hp hpk r hr
    have hn : ∀ t ∈ sigStrAttrSpecs, (baSigStrMatch? t.attr lwD).isNone = true := by
      decide
    have h2 := hn s hs
    rw [hkv] at h2
    simp at h2
  · intro k name v hkv p hp hpk r hr
    have hn : valMatch? lwD = none := by decide
    rw [hn] at hkv
    exact Option.noConfusion hkv
  · intro k name v hkv p hp hpk r hr
    have hn : cmSigMatch? lwD = none := by decide
    rw [hn] at hkv
    exact Option.noConfusion hkv
  · intro k v hkv p hp
    have hn : cmMsgMatch? lwD = none := by decide
    rw [hn] at hkv
    exact Option.noConfusion hkv
